import Mathlib

/-!
# Event-classification and idempotent-merge pipeline of the indexer

A shallow embedding of the Go sources of the indexer
(`process/elasticproc/transactions/serialize.go`,
`process/elasticproc/logsevents/logsAndEventsProcessor.go` and the handlers
`nftsProcessor.go`, `nftsPropertiesProcessor.go`, `dcdtPropertiesProcessor.go`,
`process/elasticproc/accounts/accountsProcessor.go`,
`process/elasticproc/converters/tokenMetaData.go`,
`process/elasticproc/transactions/transactionDBBuilder.go`,
`tools/accounts-balance-checker/pkg/check/checker_balance_dcdt.go`) together
with a small model of the document store the emitted bulk requests are applied
to.

Conventions: Go byte slices are lists of natural numbers (one per byte),
unsigned machine integers are `Nat`, `time.Duration` is `Int`, a nil pointer
is `none`, a nil or empty slice is `[]`.
-/

namespace EsIndexer

/-! ## JSON values and documents -/

/-- A byte slice. -/
abbrev Bytes := List Nat

/-- JSON values, as the document store sees them once a request body is parsed. -/
inductive JVal where
  | null : JVal
  | bool (b : Bool) : JVal
  | num (n : Int) : JVal
  | str (s : String) : JVal
  | arr (items : List JVal) : JVal
  | obj (fields : List (String × JVal)) : JVal

/-- A document: the fields of a JSON object (the `_source` map of the store). -/
abbrev Doc := List (String × JVal)

/-- Map read `m.get(k)` (what the script language writes `m.k`). -/
def Doc.get? (d : Doc) (k : String) : Option JVal :=
  match d with
  | [] => none
  | (k', v) :: rest => if k' = k then some v else Doc.get? rest k

/-- Map test `m.containsKey(k)`. -/
def Doc.containsKey (d : Doc) (k : String) : Bool :=
  (d.get? k).isSome

/-- Field read of the script language: a missing key reads as `null`. -/
def Doc.field (d : Doc) (k : String) : JVal :=
  (d.get? k).getD JVal.null

/-- Map write `m.put(k, v)` (what the script language writes `m.k = v`). -/
def Doc.put (d : Doc) (k : String) (v : JVal) : Doc :=
  match d with
  | [] => [(k, v)]
  | (k', v') :: rest => if k' = k then (k, v) :: rest else (k', v') :: Doc.put rest k v

/-! ## The document store and its mutations -/

/-- The address of a document: index name and document id. -/
structure DocKey where
  index : String
  id : String
  deriving DecidableEq, Repr

/-- The store: at most one document under every key. -/
abbrev Store := DocKey → Option Doc

/-- The store holding no document. -/
def Store.empty : Store := fun _ => none

/-- Write a document under a key. -/
def Store.set (s : Store) (k : DocKey) (d : Doc) : Store :=
  fun k' => if k' = k then some d else s k'

/-- Remove the document under a key. -/
def Store.erase (s : Store) (k : DocKey) : Store :=
  fun k' => if k' = k then none else s k'

/-- The context a conflict-resolution program runs in: `ctx.op` and `ctx._source`. -/
structure Ctx where
  op : String
  source : Doc

/-- The painless method `isEmpty()` on a value read from a document: defined on
strings, lists and maps; a call on `null`, a number or a boolean fails. -/
def JVal.isEmptyCall : JVal → Except String Bool
  | JVal.str s => .ok (s == "")
  | JVal.arr l => .ok l.isEmpty
  | JVal.obj l => .ok l.isEmpty
  | _ => .error "isEmpty: no such method on this value"

/-- The painless comparison `a <= b` on two values read from documents: defined
on numbers only. -/
def JVal.le : JVal → JVal → Except String Bool
  | JVal.num a, JVal.num b => .ok (decide (a ≤ b))
  | _, _ => .error "<=: operands are not numbers"

/-- The painless declaration `HashMap x = v`: succeeds on a map and on `null`. -/
def JVal.castHashMap : JVal → Except String JVal
  | JVal.obj l => .ok (JVal.obj l)
  | JVal.null => .ok JVal.null
  | _ => .error "cannot cast to HashMap"

/-- The conflict-resolution programs emitted by the serializers, with their
parameters. -/
inductive Script where
  -- the literal program `return` (cross-shard transaction on its source shard)
  | ret : Script
  -- the program of `prepareNFTDCDTTransferOrMultiDCDTTransfer`, with `params.tx`
  | nftTransfer (tx : Doc) : Script
  -- the program of `SerializeLogs`, with `params.log`
  | logMerge (log : Doc) : Script
  -- the program of `SerializeTokens` for a token without `TransferOwnership`,
  -- with `params.token`
  | tokenMerge (token : Doc) : Script
  -- the first program of `PrepareNFTUpdateData`, with `params.attributes`,
  -- `params.metadata` and `params.tags`
  | updateAttributes (attributes : String) (metadata : String) (tags : JVal) : Script
  -- the second program of `PrepareNFTUpdateData`, with `params.uris` (an array of texts)
  | addURIs (uris : List String) : Script
  -- the program of `prepareSerializeDataForFreezeAndUnFreeze`, with `params.frozen`
  | freeze (frozen : Bool) : Script
  -- the program of `prepareSerializedDataForPauseAndUnPause`, with `params.paused`
  | pause (paused : Bool) : Script

/-- The program text of a script: the literal `return`, the `source` texts the
unit tests of `SerializeLogs` and `SerializeTokens` expect, and for the NFT
transfer the `codeToExecute` of `serialize.go` with its line breaks and
indentation written as single spaces. -/
def Script.source : Script → String
  | .ret => "return"
  | .nftTransfer _ =>
    "if ('create' == ctx.op) \x7b ctx._source = params.tx; \x7d else \x7b " ++
    "def status = ctx._source.status; def errorEvent = ctx._source.errorEvent; " ++
    "def completedEvent = ctx._source.completedEvent; ctx._source = params.tx; " ++
    "if (!status.isEmpty()) \x7b ctx._source.status = status; \x7d " ++
    "if (errorEvent != null) \x7b ctx._source.errorEvent = errorEvent; \x7d " ++
    "if (completedEvent != null) \x7b ctx._source.completedEvent = completedEvent; \x7d \x7d"
  | .logMerge _ =>
    "if ('create' == ctx.op) \x7bctx._source = params.log\x7d else " ++
    "\x7bif (ctx._source.containsKey('timestamp')) " ++
    "\x7bif (ctx._source.timestamp <= params.log.timestamp) \x7bctx._source = params.log\x7d\x7d " ++
    "else \x7bctx._source = params.log\x7d\x7d"
  | .tokenMerge _ =>
    "if (ctx._source.containsKey('roles')) " ++
    "\x7bHashMap roles = ctx._source.roles;ctx._source = params.token;ctx._source.roles = roles\x7d"
  | .updateAttributes _ _ _ =>
    "if (ctx._source.containsKey('data')) \x7b " ++
    "ctx._source.data.attributes = params.attributes; " ++
    "if (!params.metadata.isEmpty() ) \x7b ctx._source.data.metadata = params.metadata \x7d " ++
    "else \x7b if (ctx._source.data.containsKey('metadata')) " ++
    "\x7b ctx._source.data.remove('metadata') \x7d \x7d " ++
    "if (params.tags != null) \x7b ctx._source.data.tags = params.tags \x7d " ++
    "else \x7b if (ctx._source.data.containsKey('tags')) " ++
    "\x7b ctx._source.data.remove('tags') \x7d \x7d \x7d"
  | .addURIs _ =>
    "if (ctx._source.containsKey('data')) \x7b " ++
    "if (!ctx._source.data.containsKey('uris')) \x7b ctx._source.data.uris = params.uris; \x7d " ++
    "else \x7b int i; for ( i = 0; i < params.uris.length; i++) \x7b boolean found = false; int j; " ++
    "for ( j = 0; j < ctx._source.data.uris.length; j++) \x7b " ++
    "if ( params.uris.get(i) == ctx._source.data.uris.get(j) ) \x7b found = true; break \x7d \x7d " ++
    "if ( !found ) \x7b ctx._source.data.uris.add(params.uris.get(i)) \x7d \x7d \x7d " ++
    "ctx._source.data.nonEmptyURIs = true; \x7d"
  | .freeze _ => "ctx._source.frozen = params.frozen"
  | .pause _ => "ctx._source.paused = params.paused"

/-- Assign `v` to field `k` when `v` is not `null`. -/
def putIfNotNull (d : Doc) (k : String) (v : JVal) : Doc :=
  match v with
  | JVal.null => d
  | _ => d.put k v

/-- Map removal `m.remove(k)`. -/
def Doc.remove (d : Doc) (k : String) : Doc :=
  match d with
  | [] => []
  | (k', v') :: rest => if k' = k then rest else (k', v') :: Doc.remove rest k

/-- The painless comparison `a == b` of a text `a` with a value read from a
document: true exactly on the same text. -/
def JVal.eqStr (v : JVal) (a : String) : Bool :=
  match v with
  | JVal.str t => t == a
  | _ => false

/-- One turn of the outer loop of the add-URIs program: scan the stored list
for the text and append the text when the scan did not find it. -/
def addURIIfMissing (stored : List JVal) (uri : String) : List JVal :=
  if stored.any (fun x => x.eqStr uri) then stored else stored ++ [JVal.str uri]

/-- The loops of the add-URIs program over `params.uris`, the stored list
growing as it goes. -/
def mergeURIs (stored : List JVal) (uris : List String) : List JVal :=
  uris.foldl addURIIfMissing stored

/-- The statements of the add-URIs program inside `if (containsKey('data'))`, on
the fields of `ctx._source.data`. A stored `uris` that is not a list fails at
its first `.length`, which is evaluated only when `params.uris` is not empty. -/
def addURIsToData (data : Doc) (uris : List String) : Except String Doc :=
  let merged : Except String Doc :=
    if !(Doc.containsKey data "uris") then
      .ok (Doc.put data "uris" (JVal.arr (uris.map JVal.str)))
    else
      match Doc.field data "uris" with
      | JVal.arr stored => .ok (Doc.put data "uris" (JVal.arr (mergeURIs stored uris)))
      | _ => if uris = [] then .ok data else .error "length: the stored uris is not a list"
  match merged with
  | .error e => .error e
  | .ok data1 => .ok (Doc.put data1 "nonEmptyURIs" (JVal.bool true))

/-- The statements of the update-attributes program inside
`if (containsKey('data'))`, on the fields of `ctx._source.data`. -/
def updateAttributesOfData (data : Doc) (attributes metadata : String) (tags : JVal) : Doc :=
  let data1 := Doc.put data "attributes" (JVal.str attributes)
  let data2 :=
    if !(metadata == "") then Doc.put data1 "metadata" (JVal.str metadata)
    else if Doc.containsKey data1 "metadata" then Doc.remove data1 "metadata" else data1
  match tags with
  | JVal.null => if Doc.containsKey data2 "tags" then Doc.remove data2 "tags" else data2
  | _ => Doc.put data2 "tags" tags

/-- Run a conflict-resolution program on a context, statement by statement in
the meaning of the store's script language (a missing field reads as `null`,
`m.k = v` is a map write); `error` is a run-time failure of the program. -/
def Script.run : Script → Ctx → Except String Ctx
  | .ret, ctx => .ok ctx
  | .nftTransfer tx, ctx =>
    if ctx.op = "create" then .ok { ctx with source := tx }
    else
      let status := ctx.source.field "status"
      let errorEvent := ctx.source.field "errorEvent"
      let completedEvent := ctx.source.field "completedEvent"
      match status.isEmptyCall with
      | .error e => .error e
      | .ok isEmpty =>
        let src1 := if isEmpty then tx else Doc.put tx "status" status
        let src2 := putIfNotNull src1 "errorEvent" errorEvent
        let src3 := putIfNotNull src2 "completedEvent" completedEvent
        .ok { ctx with source := src3 }
  | .logMerge log, ctx =>
    if ctx.op = "create" then .ok { ctx with source := log }
    else if ctx.source.containsKey "timestamp" then
      match JVal.le (ctx.source.field "timestamp") (Doc.field log "timestamp") with
      | .error e => .error e
      | .ok true => .ok { ctx with source := log }
      | .ok false => .ok ctx
    else .ok { ctx with source := log }
  | .tokenMerge token, ctx =>
    if ctx.source.containsKey "roles" then
      match (ctx.source.field "roles").castHashMap with
      | .error e => .error e
      | .ok roles => .ok { ctx with source := Doc.put token "roles" roles }
    else .ok ctx
  | .updateAttributes attributes metadata tags, ctx =>
    if ctx.source.containsKey "data" then
      match ctx.source.field "data" with
      | JVal.obj data =>
        let data1 := updateAttributesOfData data attributes metadata tags
        .ok { ctx with source := Doc.put ctx.source "data" (JVal.obj data1) }
      | _ => .error "the stored data is not a map"
    else .ok ctx
  | .addURIs uris, ctx =>
    if ctx.source.containsKey "data" then
      match ctx.source.field "data" with
      | JVal.obj data =>
        match addURIsToData data uris with
        | .error e => .error e
        | .ok data1 => .ok { ctx with source := Doc.put ctx.source "data" (JVal.obj data1) }
      | _ => .error "the stored data is not a map"
    else .ok ctx
  | .freeze frozen, ctx => .ok { ctx with source := Doc.put ctx.source "frozen" (JVal.bool frozen) }
  | .pause paused, ctx => .ok { ctx with source := Doc.put ctx.source "paused" (JVal.bool paused) }

/-- A store mutation: one (action line, body line) pair of a bulk request. -/
inductive Mutation where
  -- action `index`: the body is the document
  | index (key : DocKey) (doc : Doc) : Mutation
  -- action `update`: the body carries `script`, `upsert` and, when set,
  -- `scripted_upsert: true`
  | update (key : DocKey) (scriptedUpsert : Bool) (script : Script) (upsert : Doc) : Mutation
  -- action `delete`
  | delete (key : DocKey) : Mutation

/-- Modelled from the spec: the document store is an external collaborator
(section 6, outbound interface); this is what it does with one action.
`index` writes the document. `update` on a missing document writes the upsert
body, after running the program on it with `ctx.op = 'create'` when
`scripted_upsert` is set; `update` on an existing document runs the program on
it with `ctx.op = 'index'` and writes `ctx._source` back. A program that ends
with another `ctx.op` (`noop`, `none`) or fails leaves the store unchanged,
except that `delete` on an existing document removes it. -/
def applyMutation (m : Mutation) (s : Store) : Store :=
  match m with
  | .index key doc => s.set key doc
  | .delete key => s.erase key
  | .update key scriptedUpsert script upsert =>
    match s key with
    | none =>
      if scriptedUpsert then
        match script.run { op := "create", source := upsert } with
        | .ok ctx => if ctx.op = "create" then s.set key ctx.source else s
        | .error _ => s
      else s.set key upsert
    | some doc =>
      match script.run { op := "index", source := doc } with
      | .ok ctx =>
        if ctx.op = "index" then s.set key ctx.source
        else if ctx.op = "delete" then s.erase key
        else s
      | .error _ => s

/-! ## Transactions: `process/elasticproc/transactions/serialize.go` -/

/-- A smart-contract result `data.ScResult`, with the fields read or written
here. -/
structure ScResult where
  Hash : String := ""
  OriginalTxHash : String := ""
  HasLogs : Bool := false
  HasOperations : Bool := false
  deriving DecidableEq, Repr

/-- The transaction document `data.Transaction`, with the fields the
serializer, the log processor and the transaction builder read or write; its
floating-point projections (`ValueNum`, `FeeNum`, `DCDTValuesNum`) are left
out. -/
structure Transaction where
  Hash : String := ""
  MBHash : String := ""
  Nonce : Nat := 0
  Round : Nat := 0
  Value : String := ""
  Receiver : String := ""
  Sender : String := ""
  ReceiverShard : Nat := 0
  SenderShard : Nat := 0
  GasPrice : Nat := 0
  GasLimit : Nat := 0
  GasUsed : Nat := 0
  Fee : String := ""
  InitialPaidFee : String := ""
  Data : Bytes := []
  Signature : String := ""
  Timestamp : Int := 0
  Status : String := ""
  Operation : String := ""
  Function : String := ""
  HasLogs : Bool := false
  HasOperations : Bool := false
  ErrorEvent : Bool := false
  CompletedEvent : Bool := false
  SmartContractResults : List ScResult := []
  ReceiverUserName : Bytes := []
  SenderUserName : Bytes := []
  IsScCall : Bool := false
  DCDTValues : List String := []
  Tokens : List String := []
  Receivers : List String := []
  ReceiversShardIDs : List Nat := []
  IsRelayed : Bool := false
  Version : Nat := 0
  GuardianAddress : String := ""
  GuardianSignature : String := ""
  deriving DecidableEq, Repr

/-- The bytes of a text, one per character (the texts compared here are ASCII). -/
def strBytes (s : String) : Bytes := s.toList.map Char.toNat

/-- Go `strings.Split` on a one-byte separator: the pieces between separators,
always at least one piece. -/
def splitOnByte (sep : Nat) : Bytes → List Bytes
  | [] => [[]]
  | b :: rest =>
    if b = sep then [] :: splitOnByte sep rest
    else
      match splitOnByte sep rest with
      | [] => [[b]]
      | p :: ps => (b :: p) :: ps

/-- The constant `data.AtSeparator`, the byte of "@". -/
def AtSeparator : Nat := 64

/-- The constant `core.BuiltInFunctionDCDTNFTTransfer`. -/
def BuiltInFunctionDCDTNFTTransfer : String := "DCDTNFTTransfer"

/-- The constant `core.BuiltInFunctionMultiDCDTNFTTransfer`. -/
def BuiltInFunctionMultiDCDTNFTTransfer : String := "MultiDCDTNFTTransfer"

/-- What `serialize.go` uses and the sources do not define: `json.Marshal` on a
transaction (the declaration of `data.Transaction` and its JSON tags),
`converters.JsonEscape`, and the constant
`minNumOfArgumentsNFTTransferORMultiTransfer`. -/
structure TxSerializer where
  jsonMarshal : Transaction → Except String Doc
  JsonEscape : String → String
  minNumOfArgumentsNFTTransferORMultiTransfer : Nat

/-- Modelled from the spec: `isCrossShardOnSourceShard` is called by
`prepareSerializedDataForATransaction` and is not among the sources. Section
4.3: a transaction is "source-shard, not-yet-executed" when the owning
mini-block is on the sender's shard but the receiver is elsewhere. -/
def isCrossShardOnSourceShard (tx : Transaction) (selfShardID : Nat) : Bool :=
  decide (tx.SenderShard ≠ tx.ReceiverShard) && decide (tx.SenderShard = selfShardID)

/-- The function `isNFTTransferOrMultiTransfer` of `serialize.go`. -/
def isNFTTransferOrMultiTransfer (env : TxSerializer) (tx : Transaction) : Bool :=
  if decide (tx.SmartContractResults.length < 0) || decide (tx.SenderShard ≠ tx.ReceiverShard) then
    false
  else
    let splitData := splitOnByte AtSeparator tx.Data
    if splitData.length < env.minNumOfArgumentsNFTTransferORMultiTransfer then
      false
    else
      decide (splitData.head? = some (strBytes BuiltInFunctionDCDTNFTTransfer)) ||
        decide (splitData.head? = some (strBytes BuiltInFunctionMultiDCDTNFTTransfer))

/-- The function `prepareNFTDCDTTransferOrMultiDCDTTransfer`: the body
`scripted_upsert: true`, the NFT-transfer program with `params.tx`, and an empty
upsert. Its error result is always nil, so the caller's error branch is never
taken. The action line (`key`) is the caller's `metaData`. -/
def prepareNFTDCDTTransferOrMultiDCDTTransfer (key : DocKey) (marshaledTx : Doc) : Mutation :=
  Mutation.update key true (Script.nftTransfer marshaledTx) []

/-- The function `prepareSerializedDataForATransaction`: the (action line,
body line) pair for one transaction, read as a store mutation. The document id
is the text put between the quotes of `_id`, `JsonEscape(tx.Hash)`. -/
def prepareSerializedDataForATransaction (env : TxSerializer) (tx : Transaction)
    (selfShardID : Nat) (index : String) : Except String Mutation :=
  let key : DocKey := { index := index, id := env.JsonEscape tx.Hash }
  match env.jsonMarshal tx with
  | .error err => .error err
  | .ok marshaledTx =>
    if isCrossShardOnSourceShard tx selfShardID then
      -- update action, body `{"script":{"source":"return"},"upsert":marshaledTx}`
      .ok (Mutation.update key false Script.ret marshaledTx)
    else if isNFTTransferOrMultiTransfer env tx then
      .ok (prepareNFTDCDTTransferOrMultiDCDTTransfer key marshaledTx)
    else
      -- transaction is intra-shard, invalid or cross-shard destination me
      .ok (Mutation.index key marshaledTx)

/-- Modelled from the spec: the declaration of `data.Transaction` (its JSON
tags) is not among the sources. This marshaller writes the fields section 3
lists for a TransactionDocument; the hash is the document id and is not part
of the body. It never fails. -/
def marshalTransaction (tx : Transaction) : Except String Doc :=
  .ok [("senderShard", JVal.num tx.SenderShard),
       ("receiverShard", JVal.num tx.ReceiverShard),
       ("status", JVal.str tx.Status),
       ("fee", JVal.str tx.Fee),
       ("gasUsed", JVal.num tx.GasUsed),
       ("operation", JVal.str tx.Operation),
       ("function", JVal.str tx.Function),
       ("timestamp", JVal.num tx.Timestamp),
       ("hasLogs", JVal.bool tx.HasLogs),
       ("hasOperations", JVal.bool tx.HasOperations)]

/-- A serializer environment for examples: the marshaller above, an escape that
leaves hexadecimal hashes as they are, and four as the minimum number of
arguments. -/
def exampleTxSerializer : TxSerializer :=
  { jsonMarshal := marshalTransaction
    JsonEscape := fun s => s
    minNumOfArgumentsNFTTransferORMultiTransfer := 4 }

/-- A cross-shard transaction as its source shard (shard 0) builds it. -/
def exampleTxAtSource : Transaction :=
  { Hash := "6162", SenderShard := 0, ReceiverShard := 1, Status := "pending", Timestamp := 5040 }

/-- The same transaction as its destination shard (shard 1) builds it. -/
def exampleTxAtDestination : Transaction :=
  { Hash := "6162", SenderShard := 0, ReceiverShard := 1, Status := "success", Timestamp := 5046,
    GasUsed := 50000, Fee := "1000" }

/-! ## Logs and events: `process/elasticproc/logsevents/logsAndEventsProcessor.go` -/

/-- The sub-event `data.Event` of a log document, as `prepareLogsForDB` fills it. -/
structure Event where
  Address : String := ""
  Identifier : String := ""
  Topics : List Bytes := []
  Data : Bytes := []
  AdditionalData : List Bytes := []
  Order : Int := 0
  deriving DecidableEq, Repr

/-- The log document `data.Logs`, as `prepareLogsForDB` fills it. -/
structure Logs where
  ID : String := ""
  OriginalTxHash : String := ""
  Address : String := ""
  Timestamp : Int := 0
  Events : List Event := []
  deriving DecidableEq, Repr

/-- The event document `data.LogEvent`, as `prepareLogEvent` fills it. -/
structure LogEvent where
  ID : String := ""
  TxHash : String := ""
  OriginalTxHash : String := ""
  LogAddress : String := ""
  Address : String := ""
  Identifier : String := ""
  Data : String := ""
  AdditionalData : List String := []
  Topics : List String := []
  Order : Int := 0
  ShardID : Nat := 0
  Timestamp : Int := 0
  deriving DecidableEq, Repr

/-- One lower-case hexadecimal digit. -/
def hexDigit (n : Nat) : Char :=
  ['0', '1', '2', '3', '4', '5', '6', '7', '8', '9', 'a', 'b', 'c', 'd', 'e', 'f'].getD n '0'

/-- The characters of Go `hex.EncodeToString`: two digits per byte. -/
def hexChars : Bytes → List Char
  | [] => []
  | b :: rest => hexDigit ((b % 256) / 16) :: hexDigit (b % 16) :: hexChars rest

/-- Go `hex.EncodeToString`. -/
def hexEncodeToString (b : Bytes) : String := String.mk (hexChars b)

/-- The function `hexEncodeSlice`: every element hex-encoded; an empty result is
returned as nil, which is `[]` here as well. -/
def hexEncodeSlice (input : List Bytes) : List String :=
  let hexEncoded := input.map hexEncodeToString
  if hexEncoded.length = 0 then [] else hexEncoded

/-- The function `prepareLogEvent`. `jsonMarshal` is `json.Marshal` on a
`data.LogEvent` (whose declaration is not among the sources) and `hasher` is
`lep.hasher.Compute`. When marshalling fails the code logs a warning and goes on
with nil bytes, the empty text. The original transaction hash, the timestamp
and the id are assigned after the bytes are taken. -/
def prepareLogEvent (jsonMarshal : LogEvent → Except String String) (hasher : String → Bytes)
    (dbLog : Logs) (event : Event) (shardID : Nat) : LogEvent × Bool :=
  let dbEvent : LogEvent :=
    { TxHash := dbLog.ID
      LogAddress := dbLog.Address
      Address := event.Address
      Identifier := event.Identifier
      Data := hexEncodeToString event.Data
      AdditionalData := hexEncodeSlice event.AdditionalData
      Topics := hexEncodeSlice event.Topics
      Order := event.Order
      ShardID := shardID }
  let dbEventBytes : String :=
    match jsonMarshal dbEvent with
    | .ok bytes => bytes
    | .error _ => ""
  ({ dbEvent with
      OriginalTxHash := dbLog.OriginalTxHash
      Timestamp := dbLog.Timestamp
      ID := hexEncodeToString (hasher dbEventBytes) }, true)

/-- A JSON text field `"key":"value",` (the values written here are hexadecimal
or plain identifiers, which need no escaping). -/
def jsonTextField (key value : String) : String :=
  "\"" ++ key ++ "\":\"" ++ value ++ "\","

/-- A JSON array of texts. -/
def jsonTextArray (items : List String) : String :=
  "[" ++ String.intercalate "," (items.map fun x => "\"" ++ x ++ "\"") ++ "]"

/-- Modelled from the spec: the declaration of `data.LogEvent` (its JSON tags)
is not among the sources. This marshaller writes every field `prepareLogEvent`
has set when it calls `json.Marshal`, the indexing shard included (the
cross-shard integration test expects different ids for the same event indexed on
shard 0 and on shard 1), and leaves out the id and the fields that are empty:
original transaction hash, data, additional data, timestamp. It never fails. -/
def marshalLogEvent (e : LogEvent) : Except String String :=
  .ok ("\x7b" ++ jsonTextField "txHash" e.TxHash ++
    (if e.OriginalTxHash = "" then "" else jsonTextField "originalTxHash" e.OriginalTxHash) ++
    jsonTextField "logAddress" e.LogAddress ++
    jsonTextField "address" e.Address ++
    jsonTextField "identifier" e.Identifier ++
    (if e.Data = "" then "" else jsonTextField "data" e.Data) ++
    (if e.AdditionalData = [] then ""
      else "\"additionalData\":" ++ jsonTextArray e.AdditionalData ++ ",") ++
    "\"topics\":" ++ (if e.Topics = [] then "null" else jsonTextArray e.Topics) ++ "," ++
    "\"order\":" ++ toString e.Order ++ "," ++
    "\"shardID\":" ++ toString e.ShardID ++
    (if e.Timestamp = 0 then "" else ",\"timestamp\":" ++ toString e.Timestamp) ++ "\x7d")

/-- A hasher for examples that keeps its input: the bytes of the text. -/
def exampleHasher (s : String) : Bytes := strBytes s

/-- The log of the cross-shard integration test, as indexed on shard 0. -/
def exampleLogAtSource : Logs :=
  { ID := "6c6f67", Address := "moa1ju8",
    Timestamp := 5040 }

/-- The same log as indexed on shard 1, one second later and with an original
transaction hash. -/
def exampleLogAtDestination : Logs :=
  { ID := "6c6f67", Address := "moa1ju8",
    OriginalTxHash := "6f726967", Timestamp := 6040 }

/-- The transfer event of the cross-shard integration test: topics "DCDT-abcd",
the empty nonce and the value 1. -/
def exampleEvent : Event :=
  { Address := "moa1ju8",
    Identifier := "DCDTTransfer",
    Topics := [[68, 67, 68, 84, 45, 97, 98, 99, 100], [], [1]],
    Order := 0 }

/-! ### Records the handlers produce -/

/-- The prepared token metadata `data.TokenMetaData`. -/
structure TokenMetaData where
  Name : String := ""
  Creator : String := ""
  Royalties : Nat := 0
  Hash : Bytes := []
  URIs : List Bytes := []
  Attributes : Bytes := []
  Tags : List String := []
  MetaData : String := ""
  NonEmptyURIs : Bool := false
  WhiteListedStorage : Bool := false
  deriving DecidableEq, Repr

/-- An entry `data.OwnerData` of a token's owner history. -/
structure OwnerData where
  Address : String := ""
  Timestamp : Int := 0
  deriving DecidableEq, Repr

/-- The token document `data.TokenInfo`, with the fields of `TestSerializeTokens`
and those the NFT handler and the accounts processor fill. -/
structure TokenInfo where
  Name : String := ""
  Ticker : String := ""
  Token : String := ""
  Issuer : String := ""
  CurrentOwner : String := ""
  NumDecimals : Nat := 0
  Type_ : String := ""
  Timestamp : Int := 0
  OwnersHistory : List OwnerData := []
  TransferOwnership : Bool := false
  Identifier : String := ""
  Nonce : Nat := 0
  Data : Option TokenMetaData := none
  deriving DecidableEq, Repr

/-- A raw event `transaction.Event` of the chain. -/
structure TxEvent where
  Address : Bytes := []
  Identifier : Bytes := []
  Topics : List Bytes := []
  Data : Bytes := []
  AdditionalData : List Bytes := []
  deriving DecidableEq, Repr

/-- A delegator record `data.Delegator`. -/
structure Delegator where
  Address : String := ""
  Contract : String := ""
  ActiveStake : String := ""
  Timestamp : Int := 0
  ShouldDelete : Bool := false
  deriving DecidableEq, Repr

/-- An NFT update `data.NFTDataUpdate`, as `nftsPropertiesProc` fills it. -/
structure NFTDataUpdate where
  Identifier : String := ""
  Address : String := ""
  NewAttributes : Bytes := []
  URIsToAdd : List Bytes := []
  Freeze : Bool := false
  UnFreeze : Bool := false
  Pause : Bool := false
  UnPause : Bool := false
  deriving DecidableEq, Repr

/-! ### The event dispatcher -/

/-- A Go map with text keys, as an association list; lookup. -/
def mapGet? {α : Type} (m : List (String × α)) (k : String) : Option α :=
  match m with
  | [] => none
  | (k', v) :: rest => if k' = k then some v else mapGet? rest k

/-- Go map assignment `m[k] = v`. -/
def mapSet {α : Type} (m : List (String × α)) (k : String) (v : α) : List (String × α) :=
  match m with
  | [] => [(k, v)]
  | (k', v') :: rest => if k' = k then (k, v) :: rest else (k', v') :: mapSet rest k v

/-- The per-block data `logsData` of the log processor. The collections the
handlers write through the references they are handed (tokens, tokensSupply,
scDeploys, tokenRolesAndProperties, txHashStatusInfoProc,
changeOwnerOperations) are the component `shared`, of a type `S` left open. -/
structure logsData (S : Type) where
  timestamp : Nat
  txsMap : List (String × Transaction)
  scrsMap : List (String × ScResult)
  tokensInfo : List TokenInfo
  delegators : List (String × Delegator)
  nftsDataUpdates : List NFTDataUpdate
  shared : S

/-- The arguments `argsProcessEvent` a handler receives; `txs`, `scrs` and
`shared` are handed over by reference. -/
structure argsProcessEvent (S : Type) where
  event : TxEvent
  txHashHexEncoded : String
  logAddress : Bytes
  timestamp : Nat
  txs : List (String × Transaction)
  scrs : List (String × ScResult)
  selfShardID : Nat
  numOfShards : Nat
  shared : S

/-- The result `argOutputProcessEvent` of a handler. -/
structure argOutputProcessEvent where
  tokenInfo : Option TokenInfo := none
  delegator : Option Delegator := none
  updatePropNFT : Option NFTDataUpdate := none
  processed : Bool := false
  deriving DecidableEq, Repr

/-- A handler, the method `processEvent` of an `eventsProcessor`: it returns its
result together with the arguments as it leaves them (what it wrote through the
references); `error` is a panic. -/
abbrev Handler (S : Type) := argsProcessEvent S → Except String (argOutputProcessEvent × argsProcessEvent S)

/-- The method `logsAndEventsProcessor.processEvent`: the loop over the ordered
handlers `lep.eventsProcessors` for one event. After a handler has run and its
results are stored, a log hash found in the transaction map (or else in the
smart-contract-result map) marks that entry and goes on with the next handler
(`continue`); only otherwise is `res.processed` looked at. -/
def processEvent {S : Type} (eventsProcessors : List (Handler S)) (ld : logsData S)
    (logHashHexEncoded : String) (logAddress : Bytes) (event : TxEvent)
    (shardID numOfShards : Nat) : Except String (logsData S) :=
  match eventsProcessors with
  | [] => .ok ld
  | proc :: rest =>
    match proc { event := event, txHashHexEncoded := logHashHexEncoded, logAddress := logAddress,
                 timestamp := ld.timestamp, txs := ld.txsMap, scrs := ld.scrsMap,
                 selfShardID := shardID, numOfShards := numOfShards, shared := ld.shared } with
    | .error e => .error e
    | .ok (res, args) =>
      let ld0 : logsData S := { ld with txsMap := args.txs, scrsMap := args.scrs, shared := args.shared }
      let ld1 : logsData S :=
        match res.tokenInfo with
        | some tokenInfo => { ld0 with tokensInfo := ld0.tokensInfo ++ [tokenInfo] }
        | none => ld0
      let ld2 : logsData S :=
        match res.delegator with
        | some delegator =>
          { ld1 with delegators := mapSet ld1.delegators (delegator.Address ++ delegator.Contract) delegator }
        | none => ld1
      let ld3 : logsData S :=
        match res.updatePropNFT with
        | some updatePropNFT => { ld2 with nftsDataUpdates := ld2.nftsDataUpdates ++ [updatePropNFT] }
        | none => ld2
      match mapGet? ld3.txsMap logHashHexEncoded with
      | some tx =>
        processEvent rest
          { ld3 with txsMap := mapSet ld3.txsMap logHashHexEncoded { tx with HasOperations := true } }
          logHashHexEncoded logAddress event shardID numOfShards
      | none =>
        match mapGet? ld3.scrsMap logHashHexEncoded with
        | some scr =>
          processEvent rest
            { ld3 with scrsMap := mapSet ld3.scrsMap logHashHexEncoded { scr with HasOperations := true } }
            logHashHexEncoded logAddress event shardID numOfShards
        | none =>
          if res.processed then .ok ld3
          else processEvent rest ld3 logHashHexEncoded logAddress event shardID numOfShards

/-- The arguments `ArgsLogsAndEventsProcessor`; the four collaborators are
interfaces, of types left open. -/
structure ArgsLogsAndEventsProcessor (PK M BC H : Type) where
  PubKeyConverter : PK
  Marshalizer : M
  BalanceConverter : BC
  Hasher : H

/-- The handlers an `eventsProcessor` can be, each with the collaborators its
constructor is given. -/
inductive eventsProcessor (PK M BC : Type) where
  -- newSCDeploysProcessor(pubKeyConverter)
  | scDeploysProc (pubKeyConverter : PK) : eventsProcessor PK M BC
  -- newInformativeLogsProcessor()
  | informativeLogsProc : eventsProcessor PK M BC
  -- newNFTsPropertiesProcessor(pubKeyConverter)
  | nftsPropertiesProc (pubKeyConverter : PK) : eventsProcessor PK M BC
  -- newDcdtPropertiesProcessor(pubKeyConverter)
  | dcdtPropertiesProc (pubKeyConverter : PK) : eventsProcessor PK M BC
  -- newDCDTIssueProcessor(pubKeyConverter)
  | dcdtIssueProc (pubKeyConverter : PK) : eventsProcessor PK M BC
  -- newDelegatorsProcessor(pubKeyConverter, balanceConverter)
  | delegatorsProc (pubKeyConverter : PK) (balanceConverter : BC) : eventsProcessor PK M BC
  -- newNFTsProcessor(pubKeyConverter, marshalizer)
  | nftsProc (pubKeyConverter : PK) (marshalizer : M) : eventsProcessor PK M BC

/-- The handler families of section 4.1. -/
inductive HandlerKind where
  | contractDeploy
  | informative
  | nftProperty
  | tokenRoleProperty
  | tokenIssue
  | delegator
  | nftLifecycle
  deriving DecidableEq, Repr

/-- The family of a handler. -/
def eventsProcessor.kind {PK M BC : Type} : eventsProcessor PK M BC → HandlerKind
  | .scDeploysProc _ => .contractDeploy
  | .informativeLogsProc => .informative
  | .nftsPropertiesProc _ => .nftProperty
  | .dcdtPropertiesProc _ => .tokenRoleProperty
  | .dcdtIssueProc _ => .tokenIssue
  | .delegatorsProc _ _ => .delegator
  | .nftsProc _ _ => .nftLifecycle

/-- The function `createEventsProcessors`. -/
def createEventsProcessors {PK M BC H : Type} (args : ArgsLogsAndEventsProcessor PK M BC H) :
    List (eventsProcessor PK M BC) :=
  let nftsProc := eventsProcessor.nftsProc args.PubKeyConverter args.Marshalizer
  let scDeploysProc := eventsProcessor.scDeploysProc args.PubKeyConverter
  let informativeProc := eventsProcessor.informativeLogsProc
  let updateNFTProc := eventsProcessor.nftsPropertiesProc args.PubKeyConverter
  let dcdtPropProc := eventsProcessor.dcdtPropertiesProc args.PubKeyConverter
  let dcdtIssueProc := eventsProcessor.dcdtIssueProc args.PubKeyConverter
  let delegatorsProcessor := eventsProcessor.delegatorsProc args.PubKeyConverter args.BalanceConverter
  [scDeploysProc, informativeProc, updateNFTProc, dcdtPropProc, dcdtIssueProc,
   delegatorsProcessor, nftsProc]

/-- An example handler that writes its name to the shared record of calls and
returns the given `processed` flag. -/
def recordingHandler (name : String) (processed : Bool) : Handler (List String) :=
  fun args => .ok ({ processed := processed }, { args with shared := args.shared ++ [name] })

/-- Example per-block data: the given transaction map and nothing else. -/
def exampleLogsData (txsMap : List (String × Transaction)) : logsData (List String) :=
  { timestamp := 5040, txsMap := txsMap, scrsMap := [], tokensInfo := [], delegators := [],
    nftsDataUpdates := [], shared := [] }

/-- An example event. -/
def exampleTxEvent : TxEvent :=
  { Address := [1, 2, 3], Identifier := strBytes "writeLog", Topics := [[1], [2]] }

/-! ## Accounts: `process/elasticproc/accounts/accountsProcessor.go` -/

/-- The record `alteredAccount.AdditionalAccountData`. -/
structure AdditionalAccountData where
  IsSender : Bool := false
  BalanceChanged : Bool := false
  CurrentOwner : String := ""
  UserName : String := ""
  DeveloperRewards : String := ""
  CodeHash : Bytes := []
  RootHash : Bytes := []
  CodeMetadata : Bytes := []
  deriving DecidableEq, Repr

/-- The record `alteredAccount.AdditionalAccountTokenData`. -/
structure AdditionalAccountTokenData where
  IsNFTCreate : Bool := false
  deriving DecidableEq, Repr

/-- The record `alteredAccount.TokenMetaData`. -/
structure AlteredTokenMetaData where
  Nonce : Nat := 0
  Name : String := ""
  Creator : String := ""
  Royalties : Nat := 0
  Hash : Bytes := []
  URIs : List Bytes := []
  Attributes : Bytes := []
  deriving DecidableEq, Repr

/-- The record `alteredAccount.AccountTokenData`. -/
structure AccountTokenData where
  Nonce : Nat := 0
  Identifier : String := ""
  Balance : String := ""
  Properties : String := ""
  MetaData : Option AlteredTokenMetaData := none
  AdditionalData : Option AdditionalAccountTokenData := none
  deriving DecidableEq, Repr

/-- The record `alteredAccount.AlteredAccount`. -/
structure AlteredAccount where
  Nonce : Nat := 0
  Address : String := ""
  Balance : String := ""
  Tokens : List AccountTokenData := []
  AdditionalData : Option AdditionalAccountData := none
  deriving DecidableEq, Repr

/-- The plain-balance record `data.Account`. -/
structure Account where
  UserAccount : AlteredAccount
  IsSender : Bool := false
  deriving DecidableEq, Repr

/-- The token record `data.AccountDCDT`. -/
structure AccountDCDT where
  Account : AlteredAccount
  TokenIdentifier : String := ""
  NFTNonce : Nat := 0
  IsSender : Bool := false
  IsNFTOperation : Bool := false
  IsNFTCreate : Bool := false
  deriving DecidableEq, Repr

/-- The function `notZeroBalance`: `len(balance) > 0 && balance != "0"` (a text
has positive length in bytes exactly when it has a character). -/
def notZeroBalance (balance : String) : Bool :=
  decide (balance.length > 0) && decide (balance ≠ "0")

/-- The function `splitAlteredAccounts`. -/
def splitAlteredAccounts (account : AlteredAccount) : List Account × List AccountDCDT :=
  let (isSender, balanceChanged) :=
    match account.AdditionalData with
    | some additionalData => (additionalData.IsSender, additionalData.BalanceChanged)
    | none => (false, false)
  -- if the balance of the DCDT receiver is 0 the receiver is a new account most probably,
  -- and we should index it
  let ignoreAddress := !balanceChanged && notZeroBalance account.Balance && !isSender
  let regularAccountsToIndex : List Account :=
    if !ignoreAddress then [{ UserAccount := account, IsSender := isSender }] else []
  let accountsToIndexDCDT : List AccountDCDT :=
    account.Tokens.map fun info =>
      { Account := account
        TokenIdentifier := info.Identifier
        NFTNonce := info.Nonce
        IsSender := isSender
        IsNFTCreate :=
          match info.AdditionalData with
          | some additionalData => additionalData.IsNFTCreate
          | none => false }
  (regularAccountsToIndex, accountsToIndexDCDT)

/-! ## Serialization of logs and tokens (`SerializeLogs`, `SerializeTokens`) -/

/-- The alphabet of the standard base64 encoding. -/
def base64Alphabet : List Char :=
  "ABCDEFGHIJKLMNOPQRSTUVWXYZabcdefghijklmnopqrstuvwxyz0123456789+/".toList

/-- One base64 digit. -/
def base64Digit (n : Nat) : Char := base64Alphabet.getD n 'A'

/-- The characters of the standard padded base64 encoding of a byte slice. -/
def base64Chars : Bytes → List Char
  | [] => []
  | [a] => [base64Digit ((a % 256) / 4), base64Digit (((a % 256) % 4) * 16), '=', '=']
  | [a, b] =>
    [base64Digit ((a % 256) / 4), base64Digit (((a % 256) % 4) * 16 + (b % 256) / 16),
     base64Digit (((b % 256) % 16) * 4), '=']
  | a :: b :: c :: rest =>
    base64Digit ((a % 256) / 4) :: base64Digit (((a % 256) % 4) * 16 + (b % 256) / 16) ::
      base64Digit (((b % 256) % 16) * 4 + (c % 256) / 64) :: base64Digit ((c % 256) % 64) ::
      base64Chars rest

/-- Go `base64.StdEncoding.EncodeToString`, which `json.Marshal` applies to a
byte slice. -/
def base64Encode (b : Bytes) : String := String.mk (base64Chars b)

/-- The JSON value `json.Marshal` gives a byte slice: `null` for nil, else the
base64 text. -/
def marshalBytes (b : Bytes) : JVal :=
  if b = [] then JVal.null else JVal.str (base64Encode b)

/-- The JSON value `json.Marshal` gives a slice of byte slices. -/
def marshalBytesSlice (l : List Bytes) : JVal :=
  if l = [] then JVal.null else JVal.arr (l.map fun b => JVal.str (base64Encode b))

/-- Modelled from the spec: the declaration of `data.Event` (its JSON tags) is
not among the sources; the keys are those of the expected output of
`TestLogsAndEventsProcessor_SerializeLogs`, where empty additional data is
left out. -/
def marshalEvent (e : Event) : JVal :=
  JVal.obj
    ([("address", JVal.str e.Address), ("identifier", JVal.str e.Identifier),
      ("topics", marshalBytesSlice e.Topics), ("data", marshalBytes e.Data)] ++
     (if e.AdditionalData = [] then [] else [("additionalData", marshalBytesSlice e.AdditionalData)]) ++
     [("order", JVal.num e.Order)])

/-- Modelled from the spec: the declaration of `data.Logs` (its JSON tags) is
not among the sources; the keys are those of the expected output of
`TestLogsAndEventsProcessor_SerializeLogs`: the id is not part of the body and
an empty original transaction hash is left out. It never fails. -/
def marshalLogs (l : Logs) : Except String Doc :=
  .ok ((if l.OriginalTxHash = "" then [] else [("originalTxHash", JVal.str l.OriginalTxHash)]) ++
    [("address", JVal.str l.Address), ("events", JVal.arr (l.Events.map marshalEvent)),
     ("timestamp", JVal.num l.Timestamp)])

/-- Modelled from the spec: `SerializeLogs` is not among the sources. Per log it
emits what its unit test expects: an `update` action under the log id and the
body `scripted_upsert: true`, the log merge program with `params.log` the
marshalled log, and an empty upsert (section 4.4: seed when absent, overwrite
when the stored document has no timestamp or an older or equal one). -/
def serializeLog (jsonMarshal : Logs → Except String Doc) (JsonEscape : String → String)
    (index : String) (lg : Logs) : Except String Mutation :=
  match jsonMarshal lg with
  | .error err => .error err
  | .ok marshaledLog =>
    .ok (Mutation.update { index := index, id := JsonEscape lg.ID } true
      (Script.logMerge marshaledLog) [])

/-- Modelled from the spec: `SerializeLogs` over a list of logs, one mutation
per log in order, stopping at the first failure. -/
def SerializeLogs (jsonMarshal : Logs → Except String Doc) (JsonEscape : String → String)
    (logs : List Logs) (index : String) : Except String (List Mutation) :=
  logs.mapM (serializeLog jsonMarshal JsonEscape index)

/-- Modelled from the spec: the declaration of `data.TokenInfo` (its JSON tags)
is not among the sources; the keys and their order are those of the expected
output of `TestSerializeTokens`. It never fails. -/
def marshalTokenInfo (t : TokenInfo) : Except String Doc :=
  .ok [("name", JVal.str t.Name), ("ticker", JVal.str t.Ticker), ("token", JVal.str t.Token),
       ("issuer", JVal.str t.Issuer), ("currentOwner", JVal.str t.CurrentOwner),
       ("numDecimals", JVal.num t.NumDecimals), ("type", JVal.str t.Type_),
       ("timestamp", JVal.num t.Timestamp),
       ("ownersHistory", JVal.arr (t.OwnersHistory.map fun o =>
          JVal.obj [("address", JVal.str o.Address), ("timestamp", JVal.num o.Timestamp)]))]

/-- Modelled from the spec: `SerializeTokens` is not among the sources. For a
token without `TransferOwnership` it emits what `TestSerializeTokens` expects:
an `update` action under the token identifier and a body without
`scripted_upsert`, the token merge program with `params.token` the marshalled
token, and the marshalled token as upsert. -/
def serializeToken (jsonMarshal : TokenInfo → Except String Doc) (JsonEscape : String → String)
    (index : String) (tokenData : TokenInfo) : Except String Mutation :=
  match jsonMarshal tokenData with
  | .error err => .error err
  | .ok serializedTokenData =>
    .ok (Mutation.update { index := index, id := JsonEscape tokenData.Token } false
      (Script.tokenMerge serializedTokenData) serializedTokenData)

/-! ## Token metadata and NFT updates: `process/elasticproc/converters/tokenMetaData.go` -/

/-- A Go string made of the given bytes, one character per byte. -/
def bytesToString (b : Bytes) : String := String.mk (b.map fun x => Char.ofNat (x % 256))

/-- The functions of package `converters` that `tokenMetaData.go`, the handlers
and the accounts processor call and the sources do not define. -/
structure Converters where
  ComputeTokenIdentifier : String → Nat → String
  TruncateFieldIfExceedsMaxLength : String → String
  TruncateFieldIfExceedsMaxLengthBase64 : String → String
  TruncateSliceElementsIfExceedsMaxLength : List String → List String
  ExtractTagsFromAttributes : Bytes → List String
  ExtractMetaDataFromAttributes : Bytes → String

/-- The constant `ipfsURL`. -/
def ipfsURL : String := "https://ipfs.io/ipfs/"

/-- The constant `ipfsNoSecurePrefix`. -/
def ipfsNoSecurePrefix : String := "ipfs://"

/-- The constant `dwebPrefixURL`. -/
def dwebPrefixURL : String := "https://dweb.link/ipfs"

/-- The constant `pinataCloud`. -/
def pinataCloud : String := ".pinata.cloud/ipfs"

/-- The constant `secureURL`. -/
def secureURL : String := "https://"

/-- Go `strings.HasPrefix`, on the bytes of the text. -/
def stringsHasPrefix (s : Bytes) (start : String) : Bool :=
  (strBytes start).isPrefixOf s

/-- Go `strings.Contains`, on the bytes of the text. -/
def stringsContains (s : Bytes) (substr : String) : Bool :=
  match s with
  | [] => (strBytes substr).isPrefixOf []
  | b :: rest => (strBytes substr).isPrefixOf (b :: rest) || stringsContains rest substr

/-- The function `nonEmptyURIs`. -/
def nonEmptyURIs : List Bytes → Bool
  | [] => false
  | uri :: rest => if uri.length > 0 then true else nonEmptyURIs rest

/-- The function `whiteListedStorage`. -/
def whiteListedStorage (uris : List Bytes) : Bool :=
  match uris with
  | [] => false
  | uri :: _ =>
    let whiteListed := stringsHasPrefix uri ipfsURL
    let whiteListed := whiteListed || stringsHasPrefix uri ipfsNoSecurePrefix
    let whiteListed := whiteListed || stringsHasPrefix uri dwebPrefixURL
    let whiteListed := whiteListed || (stringsContains uri pinataCloud && stringsHasPrefix uri secureURL)
    whiteListed

/-- The function `PrepareTokenMetaData`. -/
def PrepareTokenMetaData (conv : Converters) (tokenMetadata : Option AlteredTokenMetaData) :
    Option TokenMetaData :=
  match tokenMetadata with
  | none => none
  | some tokenMetadata =>
    let uris := tokenMetadata.URIs.map fun uri =>
      strBytes (conv.TruncateFieldIfExceedsMaxLengthBase64 (bytesToString uri))
    let tags := conv.ExtractTagsFromAttributes tokenMetadata.Attributes
    let attributes := conv.TruncateFieldIfExceedsMaxLengthBase64 (bytesToString tokenMetadata.Attributes)
    some
      { Name := conv.TruncateFieldIfExceedsMaxLength tokenMetadata.Name
        Creator := tokenMetadata.Creator
        Royalties := tokenMetadata.Royalties
        Hash := tokenMetadata.Hash
        URIs := uris
        Attributes := strBytes attributes
        Tags := conv.TruncateSliceElementsIfExceedsMaxLength tags
        MetaData := conv.ExtractMetaDataFromAttributes tokenMetadata.Attributes
        NonEmptyURIs := nonEmptyURIs tokenMetadata.URIs
        WhiteListedStorage := whiteListedStorage tokenMetadata.URIs }

/-- The bulk buffer `data.BufferSlice`, as the mutations put into it so far. -/
abbrev BufferSlice := List Mutation

/-- The JSON value `json.Marshal` gives a slice of texts: `null` for nil. -/
def marshalStrings (l : List String) : JVal :=
  if l = [] then JVal.null else JVal.arr (l.map JVal.str)

/-- The function `prepareSerializeDataForFreezeAndUnFreeze`; the action line
(`key`) is the caller's `metaData`. -/
def prepareSerializeDataForFreezeAndUnFreeze (key : DocKey) (nftUpdateData : NFTDataUpdate) :
    Mutation :=
  let frozen := nftUpdateData.Freeze
  Mutation.update key false (Script.freeze frozen) []

/-- The function `prepareSerializedDataForPauseAndUnPause`; the action line
(`key`) is the caller's `metaData`. -/
def prepareSerializedDataForPauseAndUnPause (key : DocKey) (nftUpdateData : NFTDataUpdate) :
    Mutation :=
  let paused := nftUpdateData.Pause
  Mutation.update key false (Script.pause paused) []

/-- The body `serializedData` built in one turn of the loop of
`PrepareNFTUpdateData` for an update that is not a freeze or a pause on the
tokens index: the update-attributes program, replaced by the add-URIs program
when there are URIs to add. `json.Marshal` of a slice of texts does not fail. -/
def nftUpdateSerializedData (conv : Converters) (key : DocKey) (nftUpdate : NFTDataUpdate) :
    Mutation :=
  let truncatedAttributes :=
    conv.TruncateFieldIfExceedsMaxLengthBase64 (bytesToString nftUpdate.NewAttributes)
  let base64Attr := base64Encode (strBytes truncatedAttributes)
  let newTags :=
    conv.TruncateSliceElementsIfExceedsMaxLength (conv.ExtractTagsFromAttributes nftUpdate.NewAttributes)
  let newMetadata := conv.ExtractMetaDataFromAttributes nftUpdate.NewAttributes
  let marshalizedTags := marshalStrings newTags
  let serializedData :=
    Mutation.update key false (Script.updateAttributes base64Attr newMetadata marshalizedTags) []
  if nftUpdate.URIsToAdd.length ≠ 0 then
    let uris := nftUpdate.URIsToAdd.map base64Encode
    Mutation.update key false (Script.addURIs (conv.TruncateSliceElementsIfExceedsMaxLength uris)) []
  else serializedData

/-- The function `PrepareNFTUpdateData`. `PutData` is `buffSlice.PutData`, which
may fail; the result is the buffer when the function returns nil, or the error.
A freeze or unfreeze, and a pause or unpause, for the tokens index returns what
`PutData` returns, from inside the loop. -/
def PrepareNFTUpdateData (conv : Converters)
    (PutData : BufferSlice → Mutation → Except String BufferSlice)
    (buffSlice : BufferSlice) (updateNFTData : List NFTDataUpdate) (isAccountsDCDTIndex : Bool)
    (index : String) : Except String BufferSlice :=
  match updateNFTData with
  | [] => .ok buffSlice
  | nftUpdate :: rest =>
    let id :=
      if isAccountsDCDTIndex then nftUpdate.Address ++ "-" ++ nftUpdate.Identifier
      else nftUpdate.Identifier
    let metaData : DocKey := { index := index, id := id }
    let freezeOrUnfreezeTokenIndex := (nftUpdate.Freeze || nftUpdate.UnFreeze) && !isAccountsDCDTIndex
    if freezeOrUnfreezeTokenIndex then
      PutData buffSlice (prepareSerializeDataForFreezeAndUnFreeze metaData nftUpdate)
    else
      let pauseOrUnPauseTokenIndex := (nftUpdate.Pause || nftUpdate.UnPause) && !isAccountsDCDTIndex
      if pauseOrUnPauseTokenIndex then
        PutData buffSlice (prepareSerializedDataForPauseAndUnPause metaData nftUpdate)
      else
        match PutData buffSlice (nftUpdateSerializedData conv metaData nftUpdate) with
        | .error err => .error err
        | .ok buffSlice1 =>
          PrepareNFTUpdateData conv PutData buffSlice1 rest isAccountsDCDTIndex index

/-- A buffer write that never fails: the mutation is appended. -/
def appendPutData (buffSlice : BufferSlice) (m : Mutation) : Except String BufferSlice :=
  .ok (buffSlice ++ [m])

/-- Converters for examples: identifiers as `token-nonce` in decimal, no
truncation, no tags and no metadata extracted. -/
def exampleConverters : Converters :=
  { ComputeTokenIdentifier := fun token nonce => token ++ "-" ++ toString nonce
    TruncateFieldIfExceedsMaxLength := fun x => x
    TruncateFieldIfExceedsMaxLengthBase64 := fun x => x
    TruncateSliceElementsIfExceedsMaxLength := fun x => x
    ExtractTagsFromAttributes := fun _ => []
    ExtractMetaDataFromAttributes := fun _ => "" }

/-- An NFT update that adds two URIs, "uri1" and "uri2". -/
def exampleAddURIsUpdate : NFTDataUpdate :=
  { Identifier := "NFT-abcd-01", Address := "moa1abc",
    URIsToAdd := [[117, 114, 105, 49], [117, 114, 105, 50]] }

/-- A stored NFT document whose data object already holds "uri2" (in base64)
and one other URI. -/
def exampleStoredNftDoc : Doc :=
  [("identifier", JVal.str "NFT-abcd-01"),
   ("data", JVal.obj [("name", JVal.str "nft"),
                      ("uris", JVal.arr [JVal.str "b3RoZXI=", JVal.str "dXJpMg=="])])]

/-- The log of `TestLogsAndEventsProcessor_SerializeLogs`, at timestamp 1234. -/
def exampleLogEarly : Logs :=
  { ID := "747848617368", Address := "61646472657373", Timestamp := 1234,
    Events := [{ Address := "61646472", Identifier := "DCDTNFTTransfer",
                 Topics := [[109, 121, 45, 116, 111, 107, 101, 110], [1],
                            [114, 101, 99, 101, 105, 118, 101, 114]],
                 Data := [100, 97, 116, 97], Order := 0 }] }

/-- A later write to the same log id, at timestamp 6040, with a second event. -/
def exampleLogLate : Logs :=
  { ID := "747848617368", Address := "61646472657373", Timestamp := 6040,
    Events := [{ Address := "61646472", Identifier := "DCDTNFTTransfer",
                 Topics := [[109, 121, 45, 116, 111, 107, 101, 110], [1],
                            [114, 101, 99, 101, 105, 118, 101, 114]],
                 Data := [100, 97, 116, 97], Order := 0 },
               { Address := "61646472", Identifier := "doSomething", Order := 1 }] }

/-- The first token of `TestSerializeTokens`. -/
def exampleToken : TokenInfo :=
  { Name := "TokenName", Ticker := "TKN", Token := "TKN-01234", Timestamp := 50000,
    Issuer := "moa123", Type_ := "SemiFungibleDCDT", CurrentOwner := "moa123",
    OwnersHistory := [{ Address := "moa123", Timestamp := 50000 }] }

/-- The document `marshalTokenInfo` gives for `exampleToken`. -/
def exampleTokenDoc : Doc :=
  [("name", JVal.str "TokenName"), ("ticker", JVal.str "TKN"), ("token", JVal.str "TKN-01234"),
   ("issuer", JVal.str "moa123"), ("currentOwner", JVal.str "moa123"),
   ("numDecimals", JVal.num 0), ("type", JVal.str "SemiFungibleDCDT"),
   ("timestamp", JVal.num 50000),
   ("ownersHistory", JVal.arr
      [JVal.obj [("address", JVal.str "moa123"), ("timestamp", JVal.num 50000)]])]

/-- A stored token document that holds only roles (the role events were indexed
before the issue event). -/
def exampleStoredRolesOnly : Doc :=
  [("roles", JVal.obj [("DCDTRoleNFTCreate", JVal.arr [JVal.str "moa1abc"])])]

/-- A stored token document without a roles field, from an earlier issue of the
token under another name. -/
def exampleStoredNoRoles : Doc :=
  [("name", JVal.str "OldName"), ("ticker", JVal.str "TKN"), ("token", JVal.str "TKN-01234"),
   ("timestamp", JVal.num 40000)]

/-- The document `marshalTransaction` gives for `exampleTxAtSource`. -/
def exampleDocAtSource : Doc :=
  [("senderShard", JVal.num 0), ("receiverShard", JVal.num 1), ("status", JVal.str "pending"),
   ("fee", JVal.str ""), ("gasUsed", JVal.num 0), ("operation", JVal.str ""),
   ("function", JVal.str ""), ("timestamp", JVal.num 5040), ("hasLogs", JVal.bool false),
   ("hasOperations", JVal.bool false)]

/-- The document `marshalTransaction` gives for `exampleTxAtDestination`. -/
def exampleDocAtDestination : Doc :=
  [("senderShard", JVal.num 0), ("receiverShard", JVal.num 1), ("status", JVal.str "success"),
   ("fee", JVal.str "1000"), ("gasUsed", JVal.num 50000), ("operation", JVal.str ""),
   ("function", JVal.str ""), ("timestamp", JVal.num 5046), ("hasLogs", JVal.bool false),
   ("hasOperations", JVal.bool false)]

/-- An intra-shard NFT transfer (sender and receiver on shard 1), built at
timestamp 5000 with status "pending". -/
def exampleNftTransferTx : Transaction :=
  { Hash := "6e6674", SenderShard := 1, ReceiverShard := 1, Status := "pending", Timestamp := 5000,
    Data := strBytes "DCDTNFTTransfer@4e4654@01@01@aabb" }

/-- The document `marshalTransaction` gives for `exampleNftTransferTx`. -/
def exampleNftTransferDoc : Doc :=
  [("senderShard", JVal.num 1), ("receiverShard", JVal.num 1), ("status", JVal.str "pending"),
   ("fee", JVal.str ""), ("gasUsed", JVal.num 0), ("operation", JVal.str ""),
   ("function", JVal.str ""), ("timestamp", JVal.num 5000), ("hasLogs", JVal.bool false),
   ("hasOperations", JVal.bool false)]

/-- A stored transaction document newer than `exampleNftTransferTx`: timestamp
6000, status "success", fee and gas filled in. -/
def exampleStoredNftTransferDoc : Doc :=
  [("senderShard", JVal.num 1), ("receiverShard", JVal.num 1), ("status", JVal.str "success"),
   ("fee", JVal.str "2000"), ("gasUsed", JVal.num 70000), ("operation", JVal.str ""),
   ("function", JVal.str ""), ("timestamp", JVal.num 6000), ("hasLogs", JVal.bool true),
   ("hasOperations", JVal.bool true)]

/-- A stored transaction document as `exampleStoredNftTransferDoc` that also
carries the flags errorEvent and completedEvent, both true. -/
def exampleStoredNftTransferDocWithEvents : Doc :=
  [("senderShard", JVal.num 1), ("receiverShard", JVal.num 1), ("status", JVal.str "success"),
   ("fee", JVal.str "2000"), ("gasUsed", JVal.num 70000), ("operation", JVal.str ""),
   ("function", JVal.str ""), ("timestamp", JVal.num 6000), ("hasLogs", JVal.bool true),
   ("hasOperations", JVal.bool true), ("errorEvent", JVal.bool true),
   ("completedEvent", JVal.bool true)]

/-! ## The handlers: `nftsProcessor.go`, `nftsPropertiesProcessor.go`, `dcdtPropertiesProcessor.go` -/

/-- The constant `core.BuiltInFunctionDCDTNFTBurn`. -/
def BuiltInFunctionDCDTNFTBurn : String := "DCDTNFTBurn"

/-- The constant `core.BuiltInFunctionDCDTNFTCreate`. -/
def BuiltInFunctionDCDTNFTCreate : String := "DCDTNFTCreate"

/-- The constant `core.BuiltInFunctionDCDTWipe`. -/
def BuiltInFunctionDCDTWipe : String := "DCDTWipe"

/-- The constant `core.BuiltInFunctionDCDTNFTAddURI`. -/
def BuiltInFunctionDCDTNFTAddURI : String := "DCDTNFTAddURI"

/-- The constant `core.BuiltInFunctionDCDTNFTUpdateAttributes`. -/
def BuiltInFunctionDCDTNFTUpdateAttributes : String := "DCDTNFTUpdateAttributes"

/-- The constant `core.BuiltInFunctionDCDTFreeze`. -/
def BuiltInFunctionDCDTFreeze : String := "DCDTFreeze"

/-- The constant `core.BuiltInFunctionDCDTUnFreeze`. -/
def BuiltInFunctionDCDTUnFreeze : String := "DCDTUnFreeze"

/-- The constant `core.BuiltInFunctionDCDTPause`. -/
def BuiltInFunctionDCDTPause : String := "DCDTPause"

/-- The constant `core.BuiltInFunctionDCDTUnPause`. -/
def BuiltInFunctionDCDTUnPause : String := "DCDTUnPause"

/-- The constant `core.BuiltInFunctionSetDCDTRole`. -/
def BuiltInFunctionSetDCDTRole : String := "DCDTSetRole"

/-- The constant `core.BuiltInFunctionUnSetDCDTRole`. -/
def BuiltInFunctionUnSetDCDTRole : String := "DCDTUnSetRole"

/-- The constant `core.BuiltInFunctionDCDTNFTCreateRoleTransfer`. -/
def BuiltInFunctionDCDTNFTCreateRoleTransfer : String := "DCDTNFTCreateRoleTransfer"

/-- The constant `vmcommon.BuiltInFunctionDCDTSetBurnRoleForAll`. -/
def BuiltInFunctionDCDTSetBurnRoleForAll : String := "DCDTSetBurnRoleForAll"

/-- The constant `vmcommon.BuiltInFunctionDCDTUnSetBurnRoleForAll`. -/
def BuiltInFunctionDCDTUnSetBurnRoleForAll : String := "DCDTUnSetBurnRoleForAll"

/-- The constant `vmcommon.DCDTRoleBurnForAll`. -/
def DCDTRoleBurnForAll : String := "DCDTRoleBurnForAll"

/-- The constant `core.DCDTRoleNFTCreate`. -/
def DCDTRoleNFTCreate : String := "DCDTRoleNFTCreate"

/-- The constant `upgradePropertiesEvent`. -/
def upgradePropertiesEvent : String := "upgradeProperties"

/-- The constant `tokenTopicsIndex`. -/
def tokenTopicsIndex : Nat := 0

/-- The constant `dcdtPropertiesStartIndex`. -/
def dcdtPropertiesStartIndex : Nat := 2

/-- The constant `minTopicsPropertiesAndRoles`. -/
def minTopicsPropertiesAndRoles : Nat := 4

/-- The constant `minTopicsUpdate`. -/
def minTopicsUpdate : Nat := 4

/-- The constant `numTopicsWithReceiverAddress`. -/
def numTopicsWithReceiverAddress : Nat := 4

/-- The interface `core.PubkeyConverter`: `SilentEncode` gives the empty text when
it fails, `Encode` is read for its text only (its error is logged and dropped). -/
structure PubkeyConverter where
  SilentEncode : Bytes → String
  Encode : Bytes → String
  Decode : String → Except String Bytes

/-- The record `dcdt.MetaData` carried by a created token. -/
structure DcdtMetaData where
  Nonce : Nat := 0
  Name : Bytes := []
  Creator : Bytes := []
  Royalties : Nat := 0
  Hash : Bytes := []
  URIs : List Bytes := []
  Attributes : Bytes := []
  deriving DecidableEq, Repr

/-- The record `dcdt.DCDigitalToken`. -/
structure DCDigitalToken where
  Type_ : Nat := 0
  Value : Bytes := []
  Properties : Bytes := []
  TokenMetaData : Option DcdtMetaData := none
  deriving DecidableEq, Repr

/-- The interface `marshal.Marshalizer`, for its use on a `DCDigitalToken`. -/
structure Marshalizer where
  Unmarshal : Bytes → Except String DCDigitalToken

/-- What the handlers and the accounts processor call and the sources do not
define: `sharding.ComputeShardID`, `core.IsSmartContractAddress`, the code points
a `range` over a Go string yields (`runes`) with `unicode.IsLetter` on them, and
the helpers `bytesToBool` and `isFrozen` of this repository. -/
structure Externals where
  ComputeShardID : Bytes → Nat → Nat
  IsSmartContractAddress : Bytes → Bool
  runes : Bytes → List Nat
  IsLetter : Nat → Bool
  bytesToBool : Bytes → Bool
  isFrozen : String → Bool

/-- A role change handed to `AddRole`. -/
structure RoleData where
  Role : String := ""
  Token : String := ""
  Address : String := ""
  Set : Bool := false
  deriving DecidableEq, Repr

/-- A property change handed to `AddProperties`; the Go map of properties is an
association list. -/
structure PropertiesData where
  Token : String := ""
  Properties : List (String × Bool) := []
  deriving DecidableEq, Repr

/-- Modelled from the spec: the package `tokeninfo` is not among the sources.
The collection `tokenRolesAndProperties` is kept as the role changes and the
property changes it was handed, in the order of the calls (the unit tests of
`dcdtPropertiesProc` read them back with Token, Address and Set per role and
Token and Properties per property change). -/
structure TokenRolesAndProperties where
  roles : List RoleData := []
  properties : List PropertiesData := []
  deriving DecidableEq, Repr

/-- The call `AddRole(token, address, role, set)`. -/
def TokenRolesAndProperties.AddRole (t : TokenRolesAndProperties) (token address role : String)
    (set : Bool) : TokenRolesAndProperties :=
  { t with roles := t.roles ++ [{ Role := role, Token := token, Address := address, Set := set }] }

/-- The call `AddProperties(token, properties)`. -/
def TokenRolesAndProperties.AddProperties (t : TokenRolesAndProperties) (token : String)
    (properties : List (String × Bool)) : TokenRolesAndProperties :=
  { t with properties := t.properties ++ [{ Token := token, Properties := properties }] }

/-- The collections the three handlers write through the references in their
arguments. The token collections (`data.TokensHandler`, not among the sources)
are kept as the records handed to `Add`, in the order of the calls. The other
references of `argsProcessEvent` (scDeploys, txHashStatusInfoProc,
changeOwnerOperations) are not used by these handlers. -/
structure SharedCollections where
  tokens : List TokenInfo := []
  tokensSupply : List TokenInfo := []
  tokenRolesAndProperties : TokenRolesAndProperties := {}
  deriving DecidableEq, Repr

/-- Go indexing `topics[i]`: a panic when the index is out of range. -/
def topicAt (topics : List Bytes) (i : Nat) : Except String Bytes :=
  match topics[i]? with
  | some t => .ok t
  | none => .error "index out of range"

/-- Go slicing `topics[i:]`: a panic when the bound is out of range. -/
def topicsFrom (topics : List Bytes) (i : Nat) : Except String (List Bytes) :=
  if i ≤ topics.length then .ok (topics.drop i) else .error "slice bounds out of range"

/-- Go `big.NewInt(0).SetBytes(b)`: the bytes read as a big-endian unsigned
integer. -/
def bigIntSetBytes (b : Bytes) : Nat :=
  b.foldl (fun acc x => acc * 256 + x % 256) 0

/-- Go `(*big.Int).Uint64()` on a non-negative integer: its low 64 bits. -/
def bigIntUint64 (n : Nat) : Nat := n % 2 ^ 64

/-- Go `time.Duration(t)` on an unsigned 64-bit value: the same bits read as a
signed 64-bit integer. -/
def timeDuration (t : Nat) : Int :=
  if t % 2 ^ 64 < 2 ^ 63 then ((t % 2 ^ 64 : Nat) : Int) else ((t % 2 ^ 64 : Nat) : Int) - 2 ^ 64

/-- The handler `nftsProcessor`. -/
structure nftsProcessor where
  pubKeyConverter : PubkeyConverter
  nftOperationsIdentifiers : List String
  marshalizer : Marshalizer

/-- The function `newNFTsProcessor`. -/
def newNFTsProcessor (pubKeyConverter : PubkeyConverter) (marshalizer : Marshalizer) :
    nftsProcessor :=
  { pubKeyConverter := pubKeyConverter
    marshalizer := marshalizer
    nftOperationsIdentifiers :=
      [BuiltInFunctionDCDTNFTBurn, BuiltInFunctionDCDTNFTCreate, BuiltInFunctionDCDTWipe] }

/-- The method `nftsProcessor.convertMetaData`. -/
def nftsProcessor.convertMetaData (np : nftsProcessor) (metaData : Option DcdtMetaData) :
    Option AlteredTokenMetaData :=
  match metaData with
  | none => none
  | some metaData =>
    let encodedCreatorAddr := np.pubKeyConverter.Encode metaData.Creator
    some
      { Nonce := metaData.Nonce
        Name := bytesToString metaData.Name
        Creator := encodedCreatorAddr
        Royalties := metaData.Royalties
        Hash := metaData.Hash
        URIs := metaData.URIs
        Attributes := metaData.Attributes }

/-- The method `nftsProcessor.shouldAddReceiverData`. -/
def nftsProcessor.shouldAddReceiverData (event : TxEvent) : Bool :=
  let eventIdentifier := bytesToString event.Identifier
  let isWrongIdentifier :=
    decide (eventIdentifier ≠ BuiltInFunctionDCDTNFTTransfer) &&
    decide (eventIdentifier ≠ BuiltInFunctionMultiDCDTNFTTransfer) &&
    decide (eventIdentifier ≠ BuiltInFunctionDCDTWipe)
  if isWrongIdentifier || decide (event.Topics.length < numTopicsWithReceiverAddress) then false
  else true

/-- The method `nftsProcessor.processNFTEventOnSender`, returning the two token
collections as it leaves them. -/
def nftsProcessor.processNFTEventOnSender (np : nftsProcessor) (conv : Converters)
    (event : TxEvent) (tokensCreateInfo tokensSupply : List TokenInfo) (timestamp : Nat) :
    Except String (List TokenInfo × List TokenInfo) :=
  let topics := event.Topics
  match topicAt topics 0 with
  | .error e => .error e
  | .ok topic0 =>
    let token := bytesToString topic0
    match topicAt topics 1 with
    | .error e => .error e
    | .ok topic1 =>
      let nonceBig := bigIntSetBytes topic1
      let eventIdentifier := bytesToString event.Identifier
      let tokensSupply1 :=
        if eventIdentifier = BuiltInFunctionDCDTNFTBurn ∨ eventIdentifier = BuiltInFunctionDCDTWipe then
          tokensSupply ++
            [{ Token := token
               Identifier := conv.ComputeTokenIdentifier token (bigIntUint64 nonceBig)
               Timestamp := timeDuration timestamp
               Nonce := bigIntUint64 nonceBig }]
        else tokensSupply
      let isNFTCreate := decide (eventIdentifier = BuiltInFunctionDCDTNFTCreate)
      let shouldReturn := !isNFTCreate || decide (topics.length < numTopicsWithReceiverAddress)
      if shouldReturn then .ok (tokensCreateInfo, tokensSupply1)
      else
        match topicAt topics 3 with
        | .error e => .error e
        | .ok dcdtTokenBytes =>
          match np.marshalizer.Unmarshal dcdtTokenBytes with
          | .error _ => .ok (tokensCreateInfo, tokensSupply1)
          | .ok dcdtToken =>
            let tokenMetaData :=
              PrepareTokenMetaData conv (np.convertMetaData dcdtToken.TokenMetaData)
            .ok (tokensCreateInfo ++
                  [{ Token := token
                     Identifier := conv.ComputeTokenIdentifier token (bigIntUint64 nonceBig)
                     Timestamp := timeDuration timestamp
                     Data := tokenMetaData
                     Nonce := bigIntUint64 nonceBig }],
                 tokensSupply1)

/-- The method `nftsProcessor.processEvent`. -/
def nftsProcessor.processEvent (np : nftsProcessor) (ext : Externals) (conv : Converters) :
    Handler SharedCollections := fun args =>
  let eventIdentifier := bytesToString args.event.Identifier
  if !(np.nftOperationsIdentifiers.contains eventIdentifier) then .ok ({}, args)
  else
    let topics := args.event.Topics
    match topicAt topics 1 with
    | .error e => .error e
    | .ok topic1 =>
      let nonceBig := bigIntSetBytes topic1
      if bigIntUint64 nonceBig = 0 then
        -- this is a fungible token so we should return
        .ok ({}, args)
      else
        let sender := args.event.Address
        let senderShardID := ext.ComputeShardID sender args.numOfShards
        let onSender : Except String (List TokenInfo × List TokenInfo) :=
          if senderShardID = args.selfShardID then
            np.processNFTEventOnSender conv args.event args.shared.tokens args.shared.tokensSupply
              args.timestamp
          else .ok (args.shared.tokens, args.shared.tokensSupply)
        match onSender with
        | .error e => .error e
        | .ok (tokens1, tokensSupply1) =>
          let args1 : argsProcessEvent SharedCollections :=
            { args with shared := { args.shared with tokens := tokens1, tokensSupply := tokensSupply1 } }
          match topicAt topics 0 with
          | .error e => .error e
          | .ok topic0 =>
            let token := bytesToString topic0
            let identifier := conv.ComputeTokenIdentifier token (bigIntUint64 nonceBig)
            if !(nftsProcessor.shouldAddReceiverData args.event) then .ok ({ processed := true }, args1)
            else
              match topicAt topics 3 with
              | .error e => .error e
              | .ok receiver =>
                let receiverShardID := ext.ComputeShardID receiver args.numOfShards
                if receiverShardID ≠ args.selfShardID then .ok ({ processed := true }, args1)
                else if eventIdentifier = BuiltInFunctionDCDTWipe then
                  let wiped : TokenInfo :=
                    { Token := token
                      Identifier := identifier
                      Timestamp := timeDuration args.timestamp
                      Nonce := bigIntUint64 nonceBig }
                  let tokensSupply2 := args1.shared.tokensSupply ++ [wiped]
                  .ok ({ processed := true },
                    { args1 with shared := { args1.shared with tokensSupply := tokensSupply2 } })
                else .ok ({ processed := true }, args1)

/-- The handler `nftsPropertiesProc`. -/
structure nftsPropertiesProc where
  pubKeyConverter : PubkeyConverter
  propertiesChangeOperations : List String

/-- The function `newNFTsPropertiesProcessor`. -/
def newNFTsPropertiesProcessor (pubKeyConverter : PubkeyConverter) : nftsPropertiesProc :=
  { pubKeyConverter := pubKeyConverter
    propertiesChangeOperations :=
      [BuiltInFunctionDCDTNFTAddURI, BuiltInFunctionDCDTNFTUpdateAttributes,
       BuiltInFunctionDCDTFreeze, BuiltInFunctionDCDTUnFreeze, BuiltInFunctionDCDTPause,
       BuiltInFunctionDCDTUnPause] }

/-- The method `nftsPropertiesProc.processPauseAndUnPauseEvent`. -/
def nftsPropertiesProc.processPauseAndUnPauseEvent (eventIdentifier token : String) :
    argOutputProcessEvent :=
  let updateNFT : Option NFTDataUpdate :=
    if eventIdentifier = BuiltInFunctionDCDTPause then some { Identifier := token, Pause := true }
    else if eventIdentifier = BuiltInFunctionDCDTUnPause then
      some { Identifier := token, UnPause := true }
    else none
  { processed := true, updatePropNFT := updateNFT }

/-- The method `nftsPropertiesProc.processEvent`. -/
def nftsPropertiesProc.processEvent (npp : nftsPropertiesProc) (conv : Converters) :
    Handler SharedCollections := fun args =>
  let eventIdentifier := bytesToString args.event.Identifier
  if !(npp.propertiesChangeOperations.contains eventIdentifier) then .ok ({}, args)
  else
    let callerAddress := npp.pubKeyConverter.SilentEncode args.event.Address
    if callerAddress = "" then .ok ({ processed := true }, args)
    else
      let topics := args.event.Topics
      if topics.length = 1 then
        match topicAt topics 0 with
        | .error e => .error e
        | .ok topic0 =>
          .ok (nftsPropertiesProc.processPauseAndUnPauseEvent eventIdentifier (bytesToString topic0),
               args)
      else if topics.length < minTopicsUpdate then .ok ({ processed := true }, args)
      else
        let callerAddress := npp.pubKeyConverter.SilentEncode args.event.Address
        if callerAddress = "" then .ok ({ processed := true }, args)
        else
          match topicAt topics 1 with
          | .error e => .error e
          | .ok topic1 =>
            let nonceBig := bigIntSetBytes topic1
            if bigIntUint64 nonceBig = 0 then
              -- this is a fungible token so we should return
              .ok ({}, args)
            else
              match topicAt topics 0 with
              | .error e => .error e
              | .ok topic0 =>
                let token := bytesToString topic0
                let identifier := conv.ComputeTokenIdentifier token (bigIntUint64 nonceBig)
                let updateNFT : NFTDataUpdate := { Identifier := identifier, Address := callerAddress }
                let switched : Except String NFTDataUpdate :=
                  if eventIdentifier = BuiltInFunctionDCDTNFTUpdateAttributes then
                    match topicAt topics 3 with
                    | .error e => .error e
                    | .ok topic3 => .ok { updateNFT with NewAttributes := topic3 }
                  else if eventIdentifier = BuiltInFunctionDCDTNFTAddURI then
                    match topicsFrom topics 3 with
                    | .error e => .error e
                    | .ok rest => .ok { updateNFT with URIsToAdd := rest }
                  else if eventIdentifier = BuiltInFunctionDCDTFreeze then
                    .ok { updateNFT with Freeze := true }
                  else if eventIdentifier = BuiltInFunctionDCDTUnFreeze then
                    .ok { updateNFT with UnFreeze := true }
                  else .ok updateNFT
                match switched with
                | .error e => .error e
                | .ok updateNFT1 => .ok ({ processed := true, updatePropNFT := some updateNFT1 }, args)

/-- The handler `dcdtPropertiesProc`. -/
structure dcdtPropertiesProc where
  pubKeyConverter : PubkeyConverter
  rolesOperationsIdentifiers : List String

/-- The function `newDcdtPropertiesProcessor`. -/
def newDcdtPropertiesProcessor (pubKeyConverter : PubkeyConverter) : dcdtPropertiesProc :=
  { pubKeyConverter := pubKeyConverter
    rolesOperationsIdentifiers :=
      [BuiltInFunctionSetDCDTRole, BuiltInFunctionUnSetDCDTRole,
       BuiltInFunctionDCDTNFTCreateRoleTransfer, upgradePropertiesEvent,
       BuiltInFunctionDCDTUnSetBurnRoleForAll, BuiltInFunctionDCDTSetBurnRoleForAll] }

/-- The loop of `containsNonLetterChars` over the characters of the text: false
at the first character that is not a letter, true at the end. -/
def lettersLoop (ext : Externals) : List Nat → Bool
  | [] => true
  | c :: rest => if !(ext.IsLetter c) then false else lettersLoop ext rest

/-- The function `containsNonLetterChars`: despite its name, true when every
character of the text is a letter. -/
def containsNonLetterChars (ext : Externals) (data : Bytes) : Bool :=
  lettersLoop ext (ext.runes data)

/-- The function `checkRolesBytes`. -/
def checkRolesBytes (ext : Externals) : List Bytes → Bool
  | [] => true
  | role :: rest => if !(containsNonLetterChars ext role) then false else checkRolesBytes ext rest

/-- The loop of `extractTokenProperties` over `properties`, two topics a turn:
the name `properties[i]` and the value `properties[i+1]`. -/
def propertiesLoop (ext : Externals) (propertiesMap : List (String × Bool)) :
    List Bytes → Except String (List (String × Bool))
  | [] => .ok propertiesMap
  | [_] => .error "index out of range"
  | property :: value :: rest =>
    propertiesLoop ext (mapSet propertiesMap (bytesToString property) (ext.bytesToBool value)) rest

/-- The method `dcdtPropertiesProc.extractTokenProperties`. -/
def dcdtPropertiesProc.extractTokenProperties (ext : Externals) :
    Handler SharedCollections := fun args =>
  let topics := args.event.Topics
  match topicsFrom topics dcdtPropertiesStartIndex with
  | .error e => .error e
  | .ok properties =>
    match propertiesLoop ext [] properties with
    | .error e => .error e
    | .ok propertiesMap =>
      match topicAt topics tokenTopicsIndex with
      | .error e => .error e
      | .ok tokenTopic =>
        let roles :=
          args.shared.tokenRolesAndProperties.AddProperties (bytesToString tokenTopic) propertiesMap
        .ok ({ processed := true },
          { args with shared := { args.shared with tokenRolesAndProperties := roles } })

/-- The method `dcdtPropertiesProc.extractDataNFTCreateRoleTransfer`. -/
def dcdtPropertiesProc.extractDataNFTCreateRoleTransfer (epp : dcdtPropertiesProc)
    (ext : Externals) : Handler SharedCollections := fun args =>
  let topics := args.event.Topics
  let addrBech := epp.pubKeyConverter.SilentEncode args.event.Address
  match topicAt topics 3 with
  | .error e => .error e
  | .ok topic3 =>
    let shouldAddCreateRole := ext.bytesToBool topic3
    match topicAt topics tokenTopicsIndex with
    | .error e => .error e
    | .ok tokenTopic =>
      let roles :=
        args.shared.tokenRolesAndProperties.AddRole (bytesToString tokenTopic) addrBech
          DCDTRoleNFTCreate shouldAddCreateRole
      .ok ({ processed := true },
        { args with shared := { args.shared with tokenRolesAndProperties := roles } })

/-- The loop of `dcdtPropertiesProc.processEvent` over the role topics: one
`AddRole` a turn, the address left empty for the burn-for-all role. -/
def addRolesLoop (topics : List Bytes) (addrBech : String) (shouldAddRole : Bool)
    (t : TokenRolesAndProperties) : List Bytes → Except String TokenRolesAndProperties
  | [] => .ok t
  | roleBytes :: rest =>
    let addr := if bytesToString roleBytes = DCDTRoleBurnForAll then "" else addrBech
    match topicAt topics tokenTopicsIndex with
    | .error e => .error e
    | .ok tokenTopic =>
      addRolesLoop topics addrBech shouldAddRole
        (t.AddRole (bytesToString tokenTopic) addr (bytesToString roleBytes) shouldAddRole) rest

/-- The method `dcdtPropertiesProc.processEvent`. -/
def dcdtPropertiesProc.processEvent (epp : dcdtPropertiesProc) (ext : Externals) :
    Handler SharedCollections := fun args =>
  let identifier := bytesToString args.event.Identifier
  if !(epp.rolesOperationsIdentifiers.contains identifier) then .ok ({}, args)
  else
    let topics := args.event.Topics
    if topics.length < minTopicsPropertiesAndRoles then .ok ({ processed := true }, args)
    else if identifier = upgradePropertiesEvent then dcdtPropertiesProc.extractTokenProperties ext args
    else if identifier = BuiltInFunctionDCDTNFTCreateRoleTransfer then
      epp.extractDataNFTCreateRoleTransfer ext args
    else
      match topicsFrom topics 3 with
      | .error e => .error e
      | .ok rolesBytes =>
        if !(checkRolesBytes ext rolesBytes) then .ok ({ processed := true }, args)
        else
          let shouldAddRole :=
            decide (identifier = BuiltInFunctionSetDCDTRole) ||
            decide (identifier = BuiltInFunctionDCDTSetBurnRoleForAll)
          let addrBech := epp.pubKeyConverter.SilentEncode args.event.Address
          match addRolesLoop topics addrBech shouldAddRole args.shared.tokenRolesAndProperties
              rolesBytes with
          | .error e => .error e
          | .ok roles =>
            .ok ({ processed := true },
              { args with shared := { args.shared with tokenRolesAndProperties := roles } })

/-- A public-key converter for examples: hexadecimal encoding (as the mock of
the unit tests), decoding left out. -/
def examplePubkeyConverter : PubkeyConverter :=
  { SilentEncode := hexEncodeToString
    Encode := hexEncodeToString
    Decode := fun s => if s = "" then .error "empty address" else .ok (strBytes s) }

/-- A marshalizer for examples: every non-empty input unmarshals as a token
whose metadata holds the input as attributes. -/
def exampleMarshalizer : Marshalizer :=
  { Unmarshal := fun b =>
      if b = [] then .error "empty input"
      else .ok { TokenMetaData := some { Nonce := 2, Name := [110, 102, 116], Attributes := b } } }

/-- The metadata of the token of `exampleCreatedToken`. -/
def exampleCreatedMetaData : DcdtMetaData :=
  { Nonce := 2, Name := [110, 102, 116], Creator := [1, 2], Royalties := 500, Hash := [7],
    URIs := [[105, 112, 102, 115, 58, 47, 47, 120]], Attributes := [9, 9] }

/-- A created token: the name "nft", the creator 01 02, royalties 500, the hash
07, the URI "ipfs://x" and the attributes 09 09. -/
def exampleCreatedToken : DCDigitalToken :=
  { TokenMetaData := some exampleCreatedMetaData }

/-- A marshalizer for examples that reads the bytes 09 09 as
`exampleCreatedToken` and fails on everything else. -/
def exampleMetaDataMarshalizer : Marshalizer :=
  { Unmarshal := fun b => if b = [9, 9] then .ok exampleCreatedToken else .error "not a token" }

/-- Externals for examples: the shard of an address is its last byte modulo the
number of shards, texts are read byte by byte, the letters are the ASCII
letters, "true" is the only true text, nothing is frozen. -/
def exampleExternals : Externals :=
  { ComputeShardID := fun address numOfShards =>
      if numOfShards = 0 then 0 else address.getLastD 0 % numOfShards
    IsSmartContractAddress := fun _ => false
    runes := fun b => b
    IsLetter := fun c => (65 ≤ c && c ≤ 90) || (97 ≤ c && c ≤ 122)
    bytesToBool := fun b => b == strBytes "true"
    isFrozen := fun _ => false }

/-- Handler arguments for examples: the event, block timestamp 5040, this shard
is shard 1 of 3, nothing collected so far. -/
def exampleArgs (event : TxEvent) : argsProcessEvent SharedCollections :=
  { event := event, txHashHexEncoded := "6162", logAddress := [1, 2, 3], timestamp := 5040,
    txs := [], scrs := [], selfShardID := 1, numOfShards := 3, shared := {} }

/-- A burn event cut short: the identifier and no topic at all. -/
def exampleBurnNoTopics : TxEvent :=
  { Address := [1], Identifier := strBytes "DCDTNFTBurn", Topics := [] }

/-- A create event cut short: only the token topic. -/
def exampleCreateOneTopic : TxEvent :=
  { Address := [1], Identifier := strBytes "DCDTNFTCreate", Topics := [strBytes "NFT-abcd"] }

/-- An upgradeProperties event with five topics: the token, one more topic, the
pair canMint/true and the name canBurn without a value. -/
def exampleUpgradeOddTopics : TxEvent :=
  { Address := strBytes "addr", Identifier := strBytes "upgradeProperties",
    Topics := [strBytes "MYTOKEN-abcd", [], strBytes "canMint", strBytes "true",
               strBytes "canBurn"] }

/-- A set-role event cut short: three topics, no role. -/
def exampleSetRoleThreeTopics : TxEvent :=
  { Address := strBytes "addr", Identifier := strBytes "DCDTSetRole",
    Topics := [strBytes "MYTOKEN-abcd", [], []] }

/-- A freeze event cut short: two topics. -/
def exampleFreezeTwoTopics : TxEvent :=
  { Address := strBytes "addr", Identifier := strBytes "DCDTFreeze",
    Topics := [strBytes "MYTOKEN-abcd", [1]] }

/-- A set-role event with one well-formed role and one role that is not made of
letters (the byte 1). -/
def exampleSetRoleBadRole : TxEvent :=
  { Address := strBytes "addr", Identifier := strBytes "DCDTSetRole",
    Topics := [strBytes "MYTOKEN-abcd", [], [], strBytes "DCDTRoleNFTCreate", [1]] }

/-- A burn event with four topics whose nonce topic is nine bytes long: the
byte 1 followed by eight zero bytes, the integer 2^64. -/
def exampleBurnLongNonce : TxEvent :=
  { Address := [1], Identifier := strBytes "DCDTNFTBurn",
    Topics := [strBytes "NFT-abcd", [1, 0, 0, 0, 0, 0, 0, 0, 0], [1], [9, 9]] }

/-- A create event with four topics and nonce 2, emitted by an address of
shard 1. -/
def exampleCreateEvent : TxEvent :=
  { Address := [1], Identifier := strBytes "DCDTNFTCreate",
    Topics := [strBytes "NFT-abcd", [2], [1], [9, 9]] }

/-- An add-URI event with four topics and nonce 2. -/
def exampleAddURIEvent : TxEvent :=
  { Address := strBytes "addr", Identifier := strBytes "DCDTNFTAddURI",
    Topics := [strBytes "NFT-abcd", [2], [1], [117, 114, 105, 49]] }

/-! ## Token balances: `PrepareAccountsMapDCDT` and `getDCDTInfo` -/

/-- The account document `data.AccountInfo`, without its floating-point
projections (`BalanceNum`, `DeveloperRewardsNum`). -/
structure AccountInfo where
  Address : String := ""
  Nonce : Nat := 0
  Balance : String := ""
  TokenName : String := ""
  TokenIdentifier : String := ""
  TokenNonce : Nat := 0
  Properties : String := ""
  Frozen : Bool := false
  IsSender : Bool := false
  IsSmartContract : Bool := false
  Data : Option TokenMetaData := none
  Timestamp : Int := 0
  ShardID : Nat := 0
  Type_ : String := ""
  UserName : String := ""
  CurrentOwner : String := ""
  DeveloperRewards : String := ""
  deriving DecidableEq, Repr

/-- The constant `core.FungibleDCDT`. -/
def FungibleDCDT : String := "FungibleDCDT"

/-- The value of a run of decimal digits. -/
def decimalValue (digits : List Char) : Nat :=
  digits.foldl (fun acc c => acc * 10 + (c.toNat - 48)) 0

/-- A run of characters read as an unsigned decimal number: at least one
character, all of them digits. -/
def parseDecimal (digits : List Char) : Option Nat :=
  if digits ≠ [] ∧ digits.all Char.isDigit = true then some (decimalValue digits) else none

/-- Go `big.NewInt(0).SetString(s, 10)`: an optional sign followed by at least
one decimal digit and nothing else; `none` is the nil result of a text that is
not a base-10 integer. -/
def bigIntSetString (s : String) : Option Int :=
  match s.toList with
  | '-' :: rest => (parseDecimal rest).map fun n => -(n : Int)
  | '+' :: rest => (parseDecimal rest).map fun n => (n : Int)
  | digits => (parseDecimal digits).map fun n => (n : Int)

/-- Go `(*big.Int).String()`: the decimal text of the integer. -/
def bigIntString (x : Int) : String := toString x

/-- The loop of `getDCDTInfo` over the account's tokens: the last entry with the
identifier and nonce of the record, or the empty entry it starts from. -/
def findAccountTokenData (accountDCDT : AccountDCDT) : AccountTokenData :=
  accountDCDT.Account.Tokens.foldl
    (fun accountTokenData tokenData =>
      if tokenData.Identifier = accountDCDT.TokenIdentifier ∧ tokenData.Nonce = accountDCDT.NFTNonce
      then tokenData else accountTokenData)
    {}

/-- The method `getDCDTInfo`: balance, properties and token metadata, or an
error. -/
def getDCDTInfo (conv : Converters) (accountDCDT : AccountDCDT) :
    Except String (Int × String × Option TokenMetaData) :=
  if accountDCDT.TokenIdentifier = "" then .ok (0, "", none)
  else if accountDCDT.IsNFTOperation && decide (accountDCDT.NFTNonce = 0) then .ok (0, "", none)
  else
    let accountTokenData := findAccountTokenData accountDCDT
    match bigIntSetString accountTokenData.Balance with
    | none => .ok (0, "", none)
    | some value =>
      let tokenMetaData := PrepareTokenMetaData conv accountTokenData.MetaData
      .ok (value, accountTokenData.Properties, tokenMetaData)

/-- What the loop of `PrepareAccountsMapDCDT` builds: the map of account-token
entries, the tokens handed to `tokensData.Add` and the tag lists handed to
`tagsCount.ParseTags`, both in the order of the calls. -/
structure AccountsDCDTState where
  accountsDCDTMap : List (String × AccountInfo) := []
  tokensData : List TokenInfo := []
  tagsCount : List (List String) := []
  deriving DecidableEq, Repr

/-- The key `fmt.Sprintf("%s-%s-%d", address, tokenName, nonce)` of an entry. -/
def accountDCDTKey (accountDCDT : AccountDCDT) : String :=
  accountDCDT.Account.Address ++ "-" ++ accountDCDT.TokenIdentifier ++ "-" ++
    toString accountDCDT.NFTNonce

/-- The entry `acc` built in one turn of the loop of `PrepareAccountsMapDCDT`,
from the decoded address and the results of `getDCDTInfo`; a record with nonce
zero gets the fungible type. -/
def accountDCDTEntry (ext : Externals) (conv : Converters) (timestamp : Nat) (shardID : Nat)
    (accountDCDT : AccountDCDT) (addressBytes : Bytes) (balance : Int) (properties : String)
    (tokenMetaData : Option TokenMetaData) : AccountInfo :=
  let tokenIdentifier := conv.ComputeTokenIdentifier accountDCDT.TokenIdentifier accountDCDT.NFTNonce
  let acc : AccountInfo :=
    { Address := accountDCDT.Account.Address
      TokenName := accountDCDT.TokenIdentifier
      TokenIdentifier := tokenIdentifier
      TokenNonce := accountDCDT.NFTNonce
      Balance := bigIntString balance
      Properties := properties
      Frozen := ext.isFrozen properties
      IsSender := accountDCDT.IsSender
      IsSmartContract := ext.IsSmartContractAddress addressBytes
      Data := tokenMetaData
      Timestamp := timeDuration timestamp
      ShardID := shardID }
  if acc.TokenNonce = 0 then { acc with Type_ := FungibleDCDT } else acc

/-- One turn of the loop of `PrepareAccountsMapDCDT`. -/
def accountsMapDCDTTurn (pubKeyConverter : PubkeyConverter) (ext : Externals) (conv : Converters)
    (timestamp : Nat) (shardID : Nat) (st : AccountsDCDTState) (accountDCDT : AccountDCDT) :
    AccountsDCDTState :=
  let address := accountDCDT.Account.Address
  match pubKeyConverter.Decode address with
  | .error _ => st
  | .ok addressBytes =>
    match getDCDTInfo conv accountDCDT with
    | .error _ => st
    | .ok (balance, properties, tokenMetaData) =>
      let tagsCount :=
        match tokenMetaData with
        | some metaData => if accountDCDT.IsNFTCreate then st.tagsCount ++ [metaData.Tags] else st.tagsCount
        | none => st.tagsCount
      let tokenIdentifier := conv.ComputeTokenIdentifier accountDCDT.TokenIdentifier accountDCDT.NFTNonce
      let acc :=
        accountDCDTEntry ext conv timestamp shardID accountDCDT addressBytes balance properties
          tokenMetaData
      let keyInMap := accountDCDTKey accountDCDT
      let accountsDCDTMap := mapSet st.accountsDCDTMap keyInMap acc
      if acc.Balance = "0" ∨ acc.Balance = "" then
        { accountsDCDTMap := accountsDCDTMap, tokensData := st.tokensData, tagsCount := tagsCount }
      else
        { accountsDCDTMap := accountsDCDTMap
          tokensData := st.tokensData ++
            [{ Token := accountDCDT.TokenIdentifier, Identifier := tokenIdentifier }]
          tagsCount := tagsCount }

/-- The method `PrepareAccountsMapDCDT`: the loop over the token records, from an
empty map and an empty token collection. -/
def PrepareAccountsMapDCDT (pubKeyConverter : PubkeyConverter) (ext : Externals)
    (conv : Converters) (timestamp : Nat) (accounts : List AccountDCDT)
    (tagsCount : List (List String)) (shardID : Nat) : AccountsDCDTState :=
  accounts.foldl (accountsMapDCDTTurn pubKeyConverter ext conv timestamp shardID)
    { accountsDCDTMap := [], tokensData := [], tagsCount := tagsCount }

/-- An altered account with one token entry whose balance is not a number. -/
def exampleAccountBadBalance : AlteredAccount :=
  { Address := "moa1rcv", Balance := "1000",
    Tokens := [{ Identifier := "SEMI-abcd", Nonce := 2, Balance := "12x" }] }

/-- The token record of `exampleAccountBadBalance` for its token entry. -/
def exampleRecordBadBalance : AccountDCDT :=
  { Account := exampleAccountBadBalance, TokenIdentifier := "SEMI-abcd", NFTNonce := 2 }

/-! ## Field length caps: `data/consts.go` and the truncation helpers -/

/-- The constant `data.MaxFieldLength`. -/
def MaxFieldLength : Nat := 30000

/-- The constant `data.MaxKeywordFieldLengthBeforeBase64Encoding`. -/
def MaxKeywordFieldLengthBeforeBase64Encoding : Nat := 22500

/-- Modelled from the spec: `converters.TruncateFieldIfExceedsMaxLength` is
called by `tokenMetaData.go` and is not among the sources. Section 6: generic
keyword-like fields are truncated to a fixed maximum length, the constant
`MaxFieldLength` of `data/consts.go`; a shorter text is left as it is. -/
def TruncateFieldIfExceedsMaxLength (field : String) : String :=
  if field.length > MaxFieldLength then String.mk (field.toList.take MaxFieldLength) else field

/-- Modelled from the spec: `converters.TruncateFieldIfExceedsMaxLengthBase64` is
called by `tokenMetaData.go` and is not among the sources. Section 6: fields
destined for base64 encoding are truncated to a smaller maximum before encoding,
the constant `MaxKeywordFieldLengthBeforeBase64Encoding` of `data/consts.go`. -/
def TruncateFieldIfExceedsMaxLengthBase64 (field : String) : String :=
  if field.length > MaxKeywordFieldLengthBeforeBase64Encoding then
    String.mk (field.toList.take MaxKeywordFieldLengthBeforeBase64Encoding)
  else field

/-- Modelled from the spec: `converters.TruncateSliceElementsIfExceedsMaxLength`
is called by `tokenMetaData.go` and is not among the sources; it truncates each
element of the slice to the field cap. -/
def TruncateSliceElementsIfExceedsMaxLength (fields : List String) : List String :=
  fields.map TruncateFieldIfExceedsMaxLength

/-- Converters whose three truncation helpers are the ones above; the other
helpers are those of `conv`. -/
def cappedConverters (conv : Converters) : Converters :=
  { conv with
    TruncateFieldIfExceedsMaxLength := TruncateFieldIfExceedsMaxLength
    TruncateFieldIfExceedsMaxLengthBase64 := TruncateFieldIfExceedsMaxLengthBase64
    TruncateSliceElementsIfExceedsMaxLength := TruncateSliceElementsIfExceedsMaxLength }

/-- A set-role event with five topics: the token, two more topics and the roles
`DCDTRoleNFTCreate` and `DCDTRoleBurnForAll`. -/
def exampleSetRolesEvent : TxEvent :=
  { Address := strBytes "addr", Identifier := strBytes "DCDTSetRole",
    Topics := [strBytes "MYTOKEN-abcd", [], [], strBytes "DCDTRoleNFTCreate",
               strBytes "DCDTRoleBurnForAll"] }

/-- An upgradeProperties event with eight topics: the token, one more topic and
the pairs canMint/true, canBurn/true, canMint/false. -/
def exampleUpgradeProperties : TxEvent :=
  { Address := strBytes "addr", Identifier := strBytes "upgradeProperties",
    Topics := [strBytes "MYTOKEN-abcd", [], strBytes "canMint", strBytes "true",
               strBytes "canBurn", strBytes "true", strBytes "canMint", strBytes "false"] }

/-- An NFT update that freezes the token "NFT-abcd-01". -/
def exampleFreezeUpdate : NFTDataUpdate :=
  { Identifier := "NFT-abcd-01", Address := "moa1abc", Freeze := true }

/-- An altered account holding the token "SEMI-abcd" under the nonces 2 and
10. -/
def exampleAccountSemi : AlteredAccount :=
  { Address := "moa1rcv", Balance := "1000",
    Tokens := [{ Identifier := "SEMI-abcd", Nonce := 2, Balance := "1" },
               { Identifier := "SEMI-abcd", Nonce := 10, Balance := "1" }] }

/-- The token record of `exampleAccountSemi` for the nonce 2. -/
def exampleRecordNonce2 : AccountDCDT :=
  { Account := exampleAccountSemi, TokenIdentifier := "SEMI-abcd", NFTNonce := 2 }

/-- The token record of `exampleAccountSemi` for the nonce 10. -/
def exampleRecordNonce10 : AccountDCDT :=
  { Account := exampleAccountSemi, TokenIdentifier := "SEMI-abcd", NFTNonce := 10 }

/-! ## Building a transaction document: `process/elasticproc/transactions/transactionDBBuilder.go` -/

/-- The mini-block types `block.Type` of the core library. -/
inductive BlockType where
  | TxBlock
  | StateBlock
  | PeerBlock
  | SmartContractResultBlock
  | InvalidBlock
  | ReceiptBlock
  | RewardsBlock
  deriving DecidableEq, Repr

/-- The record `block.MiniBlock`. -/
structure MiniBlock where
  TxHashes : List Bytes := []
  ReceiverShardID : Nat := 0
  SenderShardID : Nat := 0
  Type_ : BlockType := BlockType.TxBlock
  deriving DecidableEq, Repr

/-- The record `transaction.Transaction` of the core library, with the fields
`prepareTransaction` reads. -/
structure CoreTransaction where
  Nonce : Nat := 0
  Value : Int := 0
  RcvAddr : Bytes := []
  RcvUserName : Bytes := []
  SndAddr : Bytes := []
  SndUserName : Bytes := []
  GasPrice : Nat := 0
  GasLimit : Nat := 0
  Data : Bytes := []
  Version : Nat := 0
  Signature : Bytes := []
  GuardianAddr : Bytes := []
  GuardianSignature : Bytes := []
  deriving DecidableEq, Repr

/-- The record `outport.FeeInfo`. -/
structure FeeInfo where
  GasUsed : Nat := 0
  Fee : Int := 0
  InitialPaidFee : Int := 0
  deriving DecidableEq, Repr

/-- The record `outport.TxInfo`. -/
structure TxInfo where
  Transaction : CoreTransaction := {}
  FeeInfo : FeeInfo := {}
  deriving DecidableEq, Repr

/-- What `prepareTransaction` reads of the header: `GetRound()` and
`GetTimeStamp()`. -/
structure HeaderHandler where
  Round : Nat := 0
  TimeStamp : Nat := 0
  deriving DecidableEq, Repr

/-- The result `ResponseParseData` of the data-field parser. -/
structure ResponseParseData where
  Operation : String := ""
  Function : String := ""
  DCDTValues : List String := []
  Tokens : List String := []
  Receivers : List Bytes := []
  ReceiversShardID : List Nat := []
  IsRelayed : Bool := false
  deriving DecidableEq, Repr

/-- The builder `dbTransactionBuilder`, with what it calls and the sources do
not define: the address converter and its `EncodeSlice` (read for its texts
only, the error is dropped), the data-field parser, and the functions
`getFeeInfo` and `areDCDTValuesOK` of the package. The balance converter only
feeds the floating-point projections, which are left out. -/
structure dbTransactionBuilder where
  addressPubkeyConverter : PubkeyConverter
  EncodeSlice : List Bytes → List String
  Parse : Bytes → Bytes → Bytes → Nat → ResponseParseData
  getFeeInfo : TxInfo → FeeInfo
  areDCDTValuesOK : List String → Bool

/-- The method `dbTransactionBuilder.prepareTransaction`. -/
def dbTransactionBuilder.prepareTransaction (dtb : dbTransactionBuilder) (ext : Externals)
    (conv : Converters) (txInfo : TxInfo) (txHash mbHash : Bytes) (mb : MiniBlock)
    (header : HeaderHandler) (txStatus : String) (numOfShards : Nat) : Transaction :=
  let tx := txInfo.Transaction
  let isScCall := ext.IsSmartContractAddress tx.RcvAddr
  let res := dtb.Parse tx.Data tx.SndAddr tx.RcvAddr numOfShards
  let receiverAddr := dtb.addressPubkeyConverter.SilentEncode tx.RcvAddr
  let senderAddr := dtb.addressPubkeyConverter.SilentEncode tx.SndAddr
  let receiversAddr := dtb.EncodeSlice res.Receivers
  let receiverShardID :=
    if mb.Type_ = BlockType.InvalidBlock then ext.ComputeShardID tx.RcvAddr numOfShards
    else mb.ReceiverShardID
  let feeInfo := dtb.getFeeInfo txInfo
  let dcdtValues := if dtb.areDCDTValuesOK res.DCDTValues then res.DCDTValues else []
  let guardianAddress :=
    if tx.GuardianAddr.length > 0 then dtb.addressPubkeyConverter.SilentEncode tx.GuardianAddr
    else ""
  let senderUserName := conv.TruncateFieldIfExceedsMaxLengthBase64 (bytesToString tx.SndUserName)
  let receiverUserName := conv.TruncateFieldIfExceedsMaxLengthBase64 (bytesToString tx.RcvUserName)
  { Hash := hexEncodeToString txHash
    MBHash := hexEncodeToString mbHash
    Nonce := tx.Nonce
    Round := header.Round
    Value := bigIntString tx.Value
    Receiver := receiverAddr
    Sender := senderAddr
    ReceiverShard := receiverShardID
    SenderShard := mb.SenderShardID
    GasPrice := tx.GasPrice
    GasLimit := tx.GasLimit
    Data := tx.Data
    Signature := hexEncodeToString tx.Signature
    Timestamp := timeDuration header.TimeStamp
    Status := txStatus
    GasUsed := feeInfo.GasUsed
    InitialPaidFee := bigIntString feeInfo.InitialPaidFee
    Fee := bigIntString feeInfo.Fee
    ReceiverUserName := strBytes receiverUserName
    SenderUserName := strBytes senderUserName
    IsScCall := isScCall
    Operation := res.Operation
    Function := conv.TruncateFieldIfExceedsMaxLength res.Function
    DCDTValues := dcdtValues
    Tokens := conv.TruncateSliceElementsIfExceedsMaxLength res.Tokens
    Receivers := receiversAddr
    ReceiversShardIDs := res.ReceiversShardID
    IsRelayed := res.IsRelayed
    Version := tx.Version
    GuardianAddress := guardianAddress
    GuardianSignature := hexEncodeToString tx.GuardianSignature }

/-- A builder for examples: hexadecimal addresses, a parser that finds nothing,
the fee record of the transaction as it is, every value list accepted. -/
def exampleTxBuilder : dbTransactionBuilder :=
  { addressPubkeyConverter := examplePubkeyConverter
    EncodeSlice := fun l => l.map hexEncodeToString
    Parse := fun _ _ _ _ => {}
    getFeeInfo := fun txInfo => txInfo.FeeInfo
    areDCDTValuesOK := fun _ => true }

/-- A transaction whose receiver address ends in the byte 5. -/
def exampleTxInfo : TxInfo :=
  { Transaction := { Nonce := 7, Value := 1000, RcvAddr := [9, 5], SndAddr := [9, 1] } }

/-- A mini-block of invalid transactions sent from shard 1, whose receiver
shard field also holds shard 1. -/
def exampleInvalidMiniBlock : MiniBlock :=
  { ReceiverShardID := 1, SenderShardID := 1, Type_ := BlockType.InvalidBlock }

/-- A mini-block of transactions from shard 1 to shard 0. -/
def exampleTxMiniBlock : MiniBlock :=
  { ReceiverShardID := 0, SenderShardID := 1, Type_ := BlockType.TxBlock }

/-! ## The balance checker tool: `tools/accounts-balance-checker/pkg/check/checker_balance_dcdt.go` -/

/-- The constant `accountsdcdtIndex`. -/
def accountsdcdtIndex : String := "accountsdcdt"

/-- Go `delete(m, k)` on a map. -/
def mapDelete {α : Type} (m : List (String × α)) (k : String) : List (String × α) :=
  m.filter fun kv => decide (kv.1 ≠ k)

/-- A call of `compareBalances` that changes the store. The methods
`deleteExtraBalance` and `fixWrongBalance` are not among the sources; they are
kept as the calls made, with their arguments. -/
inductive StoreCall where
  | deleteExtraBalance (address tokenIdentifier : String) (timestamp : Nat) (index : String)
  | fixWrongBalance (address tokenIdentifier : String) (timestamp : Nat) (balance : String)
      (index : String)
  deriving DecidableEq, Repr

/-- The checker `balanceChecker`, for what `compareBalances` reads through it:
the method `getLasTimeWhenBalanceWasChanged(identifier, address)`, a query to the
store that returns a timestamp and a document id. -/
structure balanceChecker where
  getLasTimeWhenBalanceWasChanged : String → String → Int × String

/-- Go `uint64(t)` on a signed 64-bit value: the same bits read unsigned. -/
def uint64OfInt (t : Int) : Nat := (t % 2 ^ 64).toNat

/-- Where the first loop of `compareBalances` stands: whether it executed
`return true`, the local map `copyBalancesProxy` and the store calls made so
far. -/
structure CompareLoopState where
  returned : Bool
  copyBalancesProxy : List (String × String)
  storeCalls : List StoreCall
  deriving DecidableEq, Repr

/-- The loop of `compareBalances` over `balancesFromES`, a Go map given as the
list of its entries in the order the loop visits them. -/
def compareBalancesLoop (bc : balanceChecker) (address : String) (firstCompare : Bool) :
    List (String × String) → List (String × String) → List StoreCall → CompareLoopState
  | [], copyBalancesProxy, storeCalls =>
    { returned := false, copyBalancesProxy := copyBalancesProxy, storeCalls := storeCalls }
  | (tokenIdentifier, balanceES) :: rest, copyBalancesProxy, storeCalls =>
    match mapGet? copyBalancesProxy tokenIdentifier with
    | none =>
      if firstCompare then
        { returned := true, copyBalancesProxy := copyBalancesProxy, storeCalls := storeCalls }
      else
        let timestampLast := (bc.getLasTimeWhenBalanceWasChanged tokenIdentifier address).1
        compareBalancesLoop bc address firstCompare rest copyBalancesProxy
          (storeCalls ++ [StoreCall.deleteExtraBalance address tokenIdentifier
            (uint64OfInt timestampLast) accountsdcdtIndex])
    | some balanceProxy =>
      let copyBalancesProxy1 := mapDelete copyBalancesProxy tokenIdentifier
      if balanceES ≠ balanceProxy ∧ firstCompare = true then
        { returned := true, copyBalancesProxy := copyBalancesProxy1, storeCalls := storeCalls }
      else if balanceES ≠ balanceProxy then
        let timestampLast := (bc.getLasTimeWhenBalanceWasChanged tokenIdentifier address).1
        compareBalancesLoop bc address firstCompare rest copyBalancesProxy1
          (storeCalls ++ [StoreCall.fixWrongBalance address tokenIdentifier
            (uint64OfInt timestampLast) balanceProxy accountsdcdtIndex])
      else compareBalancesLoop bc address firstCompare rest copyBalancesProxy1 storeCalls

/-- What a call of `compareBalances` leaves: its result `tryAgain`, the store
calls it made, and the map `balancesFromProxy` of the caller as the call leaves
it. -/
structure CompareResult where
  tryAgain : Bool
  storeCalls : List StoreCall
  balancesFromProxy : List (String × String)
  deriving DecidableEq, Repr

/-- The method `balanceChecker.compareBalances`. The Go maps are given as the
lists of their entries, in the order a `range` visits them. The function fills
and shrinks its own map `copyBalancesProxy` and never writes to
`balancesFromProxy`; its last loop only logs. -/
def balanceChecker.compareBalances (bc : balanceChecker)
    (balancesFromES balancesFromProxy : List (String × String)) (address : String)
    (firstCompare : Bool) : CompareResult :=
  let copyBalancesProxy :=
    balancesFromProxy.foldl (fun copy kv => mapSet copy kv.1 kv.2) []
  let st := compareBalancesLoop bc address firstCompare balancesFromES copyBalancesProxy []
  if st.returned then
    { tryAgain := true, storeCalls := st.storeCalls, balancesFromProxy := balancesFromProxy }
  else if decide (st.copyBalancesProxy.length > 0) && firstCompare then
    { tryAgain := true, storeCalls := st.storeCalls, balancesFromProxy := balancesFromProxy }
  else
    { tryAgain := false, storeCalls := st.storeCalls, balancesFromProxy := balancesFromProxy }

/-- A checker for examples: every balance was last changed at the time 1700,
by the document "tx1". -/
def exampleBalanceChecker : balanceChecker :=
  { getLasTimeWhenBalanceWasChanged := fun _ _ => (1700, "tx1") }

/-- A store map with one token balance. -/
def exampleBalancesES : List (String × String) := [("TKN-1", "5")]

/-- A gateway map with the same balance and one more token, with balance "0". -/
def exampleBalancesProxy : List (String × String) := [("TKN-1", "5"), ("TKN-2", "0")]

/-! ## The document id of an account-token entry -/

/-- Modelled from the spec: the helper that renders a nonce for a document id
is not among the sources. Section 4.2 renders the nonce in hexadecimal, and the
scenario of section 5 and the integration tests read the entry of nonce 2 back
under an id that ends in "-02": the hexadecimal digits of the nonce, with a
leading "0" when their number is odd. -/
def hexNonce (nonce : Nat) : String :=
  let hexEncodedNonce := Nat.toDigits 16 nonce
  String.mk (if hexEncodedNonce.length % 2 ≠ 0 then '0' :: hexEncodedNonce else hexEncodedNonce)

/-- Modelled from the spec: the serializer of the account-token entries is not
among the sources. Section 5: token balance rows use
`address-tokenIdentifier-nonce` as document id, and the integration tests read
the entry of address A for token SEMI-abcd with nonce 2 back under
"A-SEMI-abcd-02". The id is formed from the entry's own address, token name and
nonce, not from the key the entry has in the Go map. -/
def accountDCDTDocumentID (account : AccountInfo) : String :=
  account.Address ++ "-" ++ account.TokenName ++ "-" ++ hexNonce account.TokenNonce

/-- Modelled from the spec: the document key under which the entries of the map
`PrepareAccountsMapDCDT` returns are stored in the index, one per entry, in the
order of the map. -/
def accountsDCDTDocumentKeys (index : String) (accountsDCDTMap : List (String × AccountInfo)) :
    List DocKey :=
  accountsDCDTMap.map fun entry => { index := index, id := accountDCDTDocumentID entry.2 }

/-! ## Theorems -/

theorem Store.set_same (s : Store) (k : DocKey) (d : Doc) : (s.set k d) k = some d := by
  simp [Store.set]

theorem Doc.get?_put_same (d : Doc) (k : String) (v : JVal) : (d.put k v).get? k = some v := by
  induction d with
  | nil => simp [Doc.put, Doc.get?]
  | cons p rest ih =>
    obtain ⟨k', v'⟩ := p
    by_cases h : k' = k
    · simp [Doc.put, Doc.get?, h]
    · simp [Doc.put, Doc.get?, h, ih]

theorem Doc.get?_put_other (d : Doc) (k k2 : String) (v : JVal) (h2 : k2 ≠ k) :
    (d.put k v).get? k2 = d.get? k2 := by
  induction d with
  | nil =>
    have : ¬ k = k2 := fun e => h2 e.symm
    simp [Doc.put, Doc.get?, this]
  | cons p rest ih =>
    obtain ⟨k', v'⟩ := p
    by_cases h : k' = k
    · have : ¬ k = k2 := fun e => h2 e.symm
      subst h
      simp [Doc.put, Doc.get?, this]
    · by_cases h3 : k' = k2
      · subst h3
        simp [Doc.put, Doc.get?, h]
      · simp [Doc.put, Doc.get?, h, h3, ih]

/-- C1. A cross-shard transaction is serialized on its source shard as an
update with the program `return` and the source document as upsert, and on its
destination shard as a plain index of the destination document; applied to any
store (in particular one with no document under the hash) in either order, the
two mutations leave the same store, which holds the destination document under
the transaction hash. -/
theorem cross_shard_tx_order_independent (env : TxSerializer) (txS txD : Transaction)
    (index : String) (dS dD : Doc) (s : Store)
    (hHash : txD.Hash = txS.Hash)
    (hCross : txS.SenderShard ≠ txS.ReceiverShard)
    (hSnd : txD.SenderShard = txS.SenderShard)
    (hRcv : txD.ReceiverShard = txS.ReceiverShard)
    (hmS : env.jsonMarshal txS = .ok dS)
    (hmD : env.jsonMarshal txD = .ok dD) :
    prepareSerializedDataForATransaction env txS txS.SenderShard index
        = .ok (Mutation.update { index := index, id := env.JsonEscape txS.Hash } false Script.ret dS) ∧
    prepareSerializedDataForATransaction env txD txD.ReceiverShard index
        = .ok (Mutation.index { index := index, id := env.JsonEscape txS.Hash } dD) ∧
    applyMutation (Mutation.index { index := index, id := env.JsonEscape txS.Hash } dD)
        (applyMutation
          (Mutation.update { index := index, id := env.JsonEscape txS.Hash } false Script.ret dS) s)
      = applyMutation
          (Mutation.update { index := index, id := env.JsonEscape txS.Hash } false Script.ret dS)
          (applyMutation (Mutation.index { index := index, id := env.JsonEscape txS.Hash } dD) s) ∧
    applyMutation (Mutation.index { index := index, id := env.JsonEscape txS.Hash } dD)
        (applyMutation
          (Mutation.update { index := index, id := env.JsonEscape txS.Hash } false Script.ret dS) s)
        { index := index, id := env.JsonEscape txS.Hash } = some dD := by
  have hne : ¬ (txS.ReceiverShard = txS.SenderShard) := fun e => hCross e.symm
  refine ⟨?_, ?_, ?_, ?_⟩
  · simp [prepareSerializedDataForATransaction, hmS, isCrossShardOnSourceShard, hCross]
  · simp [prepareSerializedDataForATransaction, hmD, isCrossShardOnSourceShard,
      isNFTTransferOrMultiTransfer, hSnd, hRcv, hHash, hCross]
  · funext k
    by_cases hk : k = { index := index, id := env.JsonEscape txS.Hash }
    · subst hk
      cases hs : s { index := index, id := env.JsonEscape txS.Hash } <;>
        simp [applyMutation, Store.set, Script.run, hs]
    · cases hs : s { index := index, id := env.JsonEscape txS.Hash } <;>
        simp [applyMutation, Store.set, Script.run, hs, hk]
  · simp [applyMutation, Store.set]

/-- Witness of C1: the example transaction, built on shard 0 and on shard 1,
applied to the empty store. -/
theorem cross_shard_tx_order_independent_witness :
    (exampleTxAtDestination.Hash = exampleTxAtSource.Hash ∧
      exampleTxAtSource.SenderShard ≠ exampleTxAtSource.ReceiverShard ∧
      exampleTxSerializer.jsonMarshal exampleTxAtSource = .ok exampleDocAtSource ∧
      exampleTxSerializer.jsonMarshal exampleTxAtDestination = .ok exampleDocAtDestination) ∧
    applyMutation (Mutation.index { index := "transactions", id := "6162" } exampleDocAtDestination)
        (applyMutation
          (Mutation.update { index := "transactions", id := "6162" } false Script.ret
            exampleDocAtSource) Store.empty)
        { index := "transactions", id := "6162" } = some exampleDocAtDestination :=
  ⟨⟨rfl, by decide, rfl, rfl⟩,
    (cross_shard_tx_order_independent exampleTxSerializer exampleTxAtSource
      exampleTxAtDestination "transactions" exampleDocAtSource exampleDocAtDestination
      Store.empty rfl (by decide) rfl rfl rfl rfl).2.2.2⟩

/-- C3, as stated, fails: for the example cross-shard transaction observed on
its source shard (shard 0) the emitted update carries the marshalled
transaction as upsert body, not the empty object. -/
theorem source_shard_upsert_not_empty_counterexample :
    isCrossShardOnSourceShard exampleTxAtSource 0 = true ∧
    prepareSerializedDataForATransaction exampleTxSerializer exampleTxAtSource 0 "transactions"
      = .ok (Mutation.update { index := "transactions", id := "6162" } false Script.ret
          exampleDocAtSource) ∧
    exampleDocAtSource ≠ [] ∧
    ¬ (∃ key scriptedUpsert script,
        prepareSerializedDataForATransaction exampleTxSerializer exampleTxAtSource 0 "transactions"
          = .ok (Mutation.update key scriptedUpsert script [])) := by
  have h : prepareSerializedDataForATransaction exampleTxSerializer exampleTxAtSource 0
      "transactions"
      = .ok (Mutation.update { index := "transactions", id := "6162" } false Script.ret
          exampleDocAtSource) := rfl
  refine ⟨rfl, h, by simp [exampleDocAtSource], ?_⟩
  rintro ⟨key, su, sc, he⟩
  rw [h] at he
  simp [exampleDocAtSource] at he

/-- C3, amended: for every transaction that is cross-shard and observed on its
source shard and that marshals, the serializer emits an update action under the
escaped hash, without `scripted_upsert`, whose script is the no-op `return`
and whose upsert body is the marshalled transaction. -/
theorem source_shard_update_is_return_with_tx_upsert (env : TxSerializer) (tx : Transaction)
    (selfShardID : Nat) (index : String) (marshaledTx : Doc)
    (hSrc : isCrossShardOnSourceShard tx selfShardID = true)
    (hm : env.jsonMarshal tx = .ok marshaledTx) :
    prepareSerializedDataForATransaction env tx selfShardID index
        = .ok (Mutation.update { index := index, id := env.JsonEscape tx.Hash } false Script.ret
            marshaledTx) ∧
    Script.source Script.ret = "return" := by
  refine ⟨?_, rfl⟩
  simp [prepareSerializedDataForATransaction, hm, hSrc]

/-- Witness of the amended C3 at the example transaction on shard 0. -/
theorem source_shard_update_is_return_with_tx_upsert_witness :
    (isCrossShardOnSourceShard exampleTxAtSource 0 = true ∧
      exampleTxSerializer.jsonMarshal exampleTxAtSource = .ok exampleDocAtSource) ∧
    prepareSerializedDataForATransaction exampleTxSerializer exampleTxAtSource 0 "transactions"
        = .ok (Mutation.update
            { index := "transactions", id := exampleTxSerializer.JsonEscape exampleTxAtSource.Hash }
            false Script.ret exampleDocAtSource) :=
  ⟨⟨rfl, rfl⟩,
    (source_shard_update_is_return_with_tx_upsert exampleTxSerializer exampleTxAtSource 0
      "transactions" exampleDocAtSource rfl rfl).1⟩

/-! ### The log merge program -/

theorem logMerge_update_absent (key : DocKey) (w : Doc) (s : Store) (hs : s key = none) :
    applyMutation (Mutation.update key true (Script.logMerge w) []) s key = some w := by
  simp [applyMutation, hs, Script.run, Store.set]

theorem logMerge_update_no_timestamp (key : DocKey) (w d : Doc) (s : Store)
    (hs : s key = some d) (hd : d.containsKey "timestamp" = false) :
    applyMutation (Mutation.update key true (Script.logMerge w) []) s key = some w := by
  simp [applyMutation, hs, Script.run, Store.set, hd]

theorem logMerge_update_timestamp (key : DocKey) (w d : Doc) (T t : Int) (s : Store)
    (hw : w.get? "timestamp" = some (JVal.num T))
    (hs : s key = some d) (hd : d.get? "timestamp" = some (JVal.num t)) :
    applyMutation (Mutation.update key true (Script.logMerge w) []) s key
      = some (if t ≤ T then w else d) := by
  by_cases h : t ≤ T
  · simp [applyMutation, hs, Script.run, Store.set, Doc.containsKey, Doc.field, hd, hw, JVal.le, h]
  · simp [applyMutation, hs, Script.run, Store.set, Doc.containsKey, Doc.field, hd, hw, JVal.le, h]

/-- C2. Two writes to the same log id whose marshalled logs carry timestamps
T1 < T2 are serialized by `SerializeLogs` as scripted upserts with the log merge
program. Delivered as T2 first and T1 second to a store where the T2 write
lands (no document under the id, or a document without timestamp, or one with a
timestamp at most T2), they leave the T2 write stored. And whatever document
with a numeric timestamp is stored, applying either write leaves a document
whose timestamp is not smaller. -/
theorem log_merge_last_writer_wins (jsonMarshal : Logs → Except String Doc)
    (JsonEscape : String → String) (index : String) (lg1 lg2 : Logs) (w1 w2 : Doc) (s : Store)
    (hid : lg1.ID = lg2.ID)
    (hm1 : jsonMarshal lg1 = .ok w1) (hm2 : jsonMarshal lg2 = .ok w2)
    (ht1 : w1.get? "timestamp" = some (JVal.num lg1.Timestamp))
    (ht2 : w2.get? "timestamp" = some (JVal.num lg2.Timestamp))
    (hlt : lg1.Timestamp < lg2.Timestamp)
    (hInit : s { index := index, id := JsonEscape lg2.ID } = none ∨
      ∃ d, s { index := index, id := JsonEscape lg2.ID } = some d ∧
        (d.containsKey "timestamp" = false ∨
          ∃ t, d.get? "timestamp" = some (JVal.num t) ∧ t ≤ lg2.Timestamp)) :
    ∃ m1 m2,
      serializeLog jsonMarshal JsonEscape index lg1 = .ok m1 ∧
      serializeLog jsonMarshal JsonEscape index lg2 = .ok m2 ∧
      applyMutation m1 (applyMutation m2 s) { index := index, id := JsonEscape lg2.ID } = some w2 ∧
      ∀ (s' : Store) (d : Doc) (t : Int),
        s' { index := index, id := JsonEscape lg2.ID } = some d →
        d.get? "timestamp" = some (JVal.num t) →
        (∃ d' t', applyMutation m1 s' { index := index, id := JsonEscape lg2.ID } = some d' ∧
          d'.get? "timestamp" = some (JVal.num t') ∧ t ≤ t') ∧
        (∃ d' t', applyMutation m2 s' { index := index, id := JsonEscape lg2.ID } = some d' ∧
          d'.get? "timestamp" = some (JVal.num t') ∧ t ≤ t') := by
  refine ⟨Mutation.update { index := index, id := JsonEscape lg2.ID } true (Script.logMerge w1) [],
    Mutation.update { index := index, id := JsonEscape lg2.ID } true (Script.logMerge w2) [],
    ?_, ?_, ?_, ?_⟩
  · simp [serializeLog, hm1, hid]
  · simp [serializeLog, hm2]
  · have hfirst : applyMutation
        (Mutation.update { index := index, id := JsonEscape lg2.ID } true (Script.logMerge w2) []) s
        { index := index, id := JsonEscape lg2.ID } = some w2 := by
      rcases hInit with h0 | ⟨d, hd, hno | ⟨t, hdt, hle⟩⟩
      · exact logMerge_update_absent _ w2 s h0
      · exact logMerge_update_no_timestamp _ w2 d s hd hno
      · rw [logMerge_update_timestamp _ w2 d lg2.Timestamp t s ht2 hd hdt]
        simp [hle]
    rw [logMerge_update_timestamp _ w1 w2 lg1.Timestamp lg2.Timestamp _ ht1 hfirst ht2]
    have : ¬ lg2.Timestamp ≤ lg1.Timestamp := not_le.mpr hlt
    simp [this]
  · intro s' d t hs' hd
    constructor
    · rw [logMerge_update_timestamp _ w1 d lg1.Timestamp t s' ht1 hs' hd]
      by_cases h : t ≤ lg1.Timestamp
      · exact ⟨w1, lg1.Timestamp, by simp [h], ht1, h⟩
      · exact ⟨d, t, by simp [h], hd, le_refl t⟩
    · rw [logMerge_update_timestamp _ w2 d lg2.Timestamp t s' ht2 hs' hd]
      by_cases h : t ≤ lg2.Timestamp
      · exact ⟨w2, lg2.Timestamp, by simp [h], ht2, h⟩
      · exact ⟨d, t, by simp [h], hd, le_refl t⟩

/-- Witness of C2: the log of the serializer's unit test written at timestamp
1234 and again at 6040, delivered late-first to the empty store. -/
theorem log_merge_last_writer_wins_witness :
    (exampleLogEarly.ID = exampleLogLate.ID ∧
      exampleLogEarly.Timestamp < exampleLogLate.Timestamp ∧
      (∃ w1, marshalLogs exampleLogEarly = .ok w1 ∧ w1.get? "timestamp" = some (JVal.num 1234)) ∧
      (∃ w2, marshalLogs exampleLogLate = .ok w2 ∧ w2.get? "timestamp" = some (JVal.num 6040))) ∧
    ∃ m1 m2 w2,
      serializeLog marshalLogs (fun x => x) "logs" exampleLogEarly = .ok m1 ∧
      serializeLog marshalLogs (fun x => x) "logs" exampleLogLate = .ok m2 ∧
      marshalLogs exampleLogLate = .ok w2 ∧
      applyMutation m1 (applyMutation m2 Store.empty) { index := "logs", id := "747848617368" }
        = some w2 := by
  refine ⟨⟨rfl, by decide, ⟨_, rfl, rfl⟩, ⟨_, rfl, rfl⟩⟩, ?_⟩
  obtain ⟨m1, m2, h1, h2, h3, _⟩ :=
    log_merge_last_writer_wins marshalLogs (fun x => x) "logs" exampleLogEarly exampleLogLate
      _ _ Store.empty rfl rfl rfl rfl rfl (by decide) (Or.inl rfl)
  exact ⟨m1, m2, _, h1, h2, rfl, h3⟩

/-! ### Event document ids -/

set_option maxRecDepth 100000 in
/-- C4, as stated, fails: the same event of the same log, indexed on shard 0 and
on shard 1 with the same marshaller and hasher, gets two different ids, because
the shard id is set on the event before it is marshalled and hashed. -/
theorem event_id_differs_across_shards_counterexample :
    (prepareLogEvent marshalLogEvent exampleHasher exampleLogAtSource exampleEvent 0).1.ID
      ≠ (prepareLogEvent marshalLogEvent exampleHasher exampleLogAtSource exampleEvent 1).1.ID := by
  decide

/-- C4, amended: the event document id is the hexadecimal hash of the
marshalled event whose fields are the tx hash, log address, event address,
identifier, hex data, hex additional data, hex topics, order and the indexing
shard id; so two calls that agree on these nine inputs return the same ID,
whatever else differs in the two logs. -/
theorem event_id_function_of_marshalled_fields
    (jsonMarshal : LogEvent → Except String String) (hasher : String → Bytes)
    (dbLog1 dbLog2 : Logs) (event1 event2 : Event) (shardID1 shardID2 : Nat)
    (hTx : dbLog1.ID = dbLog2.ID) (hLogAddr : dbLog1.Address = dbLog2.Address)
    (hAddr : event1.Address = event2.Address) (hIdent : event1.Identifier = event2.Identifier)
    (hTopics : event1.Topics = event2.Topics) (hData : event1.Data = event2.Data)
    (hAdd : event1.AdditionalData = event2.AdditionalData) (hOrder : event1.Order = event2.Order)
    (hShard : shardID1 = shardID2) :
    (prepareLogEvent jsonMarshal hasher dbLog1 event1 shardID1).1.ID
      = (prepareLogEvent jsonMarshal hasher dbLog2 event2 shardID2).1.ID ∧
    (prepareLogEvent jsonMarshal hasher dbLog1 event1 shardID1).1.ID
      = hexEncodeToString (hasher
          (match jsonMarshal
              { TxHash := dbLog1.ID, LogAddress := dbLog1.Address, Address := event1.Address,
                Identifier := event1.Identifier, Data := hexEncodeToString event1.Data,
                AdditionalData := hexEncodeSlice event1.AdditionalData,
                Topics := hexEncodeSlice event1.Topics, Order := event1.Order,
                ShardID := shardID1 } with
            | .ok bytes => bytes
            | .error _ => "")) := by
  constructor
  · simp [prepareLogEvent, hTx, hLogAddr, hAddr, hIdent, hTopics, hData, hAdd, hOrder, hShard]
  · rfl

/-- Witness of the amended C4: the example event in the source-shard log and in
the destination-shard log (another timestamp and original hash), both indexed on
shard 1. -/
theorem event_id_function_of_marshalled_fields_witness :
    (exampleLogAtSource.ID = exampleLogAtDestination.ID ∧
      exampleLogAtSource.Address = exampleLogAtDestination.Address ∧
      exampleLogAtSource.Timestamp ≠ exampleLogAtDestination.Timestamp) ∧
    (prepareLogEvent marshalLogEvent exampleHasher exampleLogAtSource exampleEvent 1).1.ID
      = (prepareLogEvent marshalLogEvent exampleHasher exampleLogAtDestination exampleEvent 1).1.ID :=
  ⟨⟨rfl, rfl, by decide⟩,
    (event_id_function_of_marshalled_fields marshalLogEvent exampleHasher exampleLogAtSource
      exampleLogAtDestination exampleEvent exampleEvent 1 1 rfl rfl rfl rfl rfl rfl rfl rfl rfl).1⟩

/-- C5. The ID returned by `prepareLogEvent` does not depend on the block
timestamp or on the original transaction hash of the log: both are assigned to
the event after the hashed serialization is taken, so two calls that differ only
in those return the same ID (whatever the marshaller and the hasher), while the
returned event carries the timestamp and original hash it was given. -/
theorem event_id_independent_of_timestamp_and_original_hash
    (jsonMarshal : LogEvent → Except String String) (hasher : String → Bytes)
    (dbLog : Logs) (event : Event) (shardID : Nat)
    (timestamp1 timestamp2 : Int) (originalTxHash1 originalTxHash2 : String) :
    (prepareLogEvent jsonMarshal hasher
        { dbLog with Timestamp := timestamp1, OriginalTxHash := originalTxHash1 } event shardID).1.ID
      = (prepareLogEvent jsonMarshal hasher
        { dbLog with Timestamp := timestamp2, OriginalTxHash := originalTxHash2 } event shardID).1.ID ∧
    (prepareLogEvent jsonMarshal hasher
        { dbLog with Timestamp := timestamp1, OriginalTxHash := originalTxHash1 } event shardID).1.Timestamp
      = timestamp1 ∧
    (prepareLogEvent jsonMarshal hasher
        { dbLog with Timestamp := timestamp1, OriginalTxHash := originalTxHash1 } event shardID).1.OriginalTxHash
      = originalTxHash1 ∧
    (prepareLogEvent jsonMarshal hasher
        { dbLog with Timestamp := timestamp1, OriginalTxHash := originalTxHash1 } event shardID).2
      = true := by
  refine ⟨rfl, rfl, rfl, rfl⟩

/-! ### The token merge program -/

theorem castHashMap_ok_eq (v r : JVal) (h : v.castHashMap = .ok r) : r = v := by
  cases v <;> simp [JVal.castHashMap] at h <;> simp [h]

theorem tokenMerge_update_no_roles (key : DocKey) (token d : Doc) (s : Store)
    (hs : s key = some d) (hd : d.containsKey "roles" = false) :
    applyMutation (Mutation.update key false (Script.tokenMerge token) token) s key = some d := by
  simp [applyMutation, hs, Script.run, Store.set, hd]

theorem tokenMerge_update_roles (key : DocKey) (token d : Doc) (r : JVal) (s : Store)
    (hs : s key = some d) (hd : d.get? "roles" = some r) :
    applyMutation (Mutation.update key false (Script.tokenMerge token) token) s key
      = some (match r.castHashMap with
              | .ok roles => Doc.put token "roles" roles
              | .error _ => d) := by
  cases hc : r.castHashMap <;>
    simp [applyMutation, hs, Script.run, Store.set, Doc.containsKey, Doc.field, hd, hc]

/-- C6. A token without `TransferOwnership` is serialized by `SerializeTokens`
as an update with the token merge program; applied to a store whose document
under the token id has a roles field, it leaves a document under that id whose
roles field equals the stored roles. -/
theorem token_merge_preserves_roles (jsonMarshal : TokenInfo → Except String Doc)
    (JsonEscape : String → String) (index : String) (tokenData : TokenInfo) (token d : Doc)
    (s : Store)
    (hm : jsonMarshal tokenData = .ok token)
    (hs : s { index := index, id := JsonEscape tokenData.Token } = some d)
    (hroles : d.containsKey "roles" = true) :
    ∃ m d',
      serializeToken jsonMarshal JsonEscape index tokenData = .ok m ∧
      applyMutation m s { index := index, id := JsonEscape tokenData.Token } = some d' ∧
      d'.get? "roles" = d.get? "roles" := by
  obtain ⟨r, hr⟩ : ∃ r, d.get? "roles" = some r := by
    cases h : d.get? "roles" with
    | none => simp [Doc.containsKey, h] at hroles
    | some r => exact ⟨r, rfl⟩
  refine ⟨Mutation.update { index := index, id := JsonEscape tokenData.Token } false
    (Script.tokenMerge token) token, _, by simp [serializeToken, hm],
    tokenMerge_update_roles _ token d r s hs hr, ?_⟩
  cases hc : r.castHashMap with
  | error e => simp
  | ok roles =>
    have := castHashMap_ok_eq r roles hc
    subst this
    simp [Doc.get?_put_same, hr]

/-- Witness of C6: the token of the serializer's unit test merged into a stored
document that holds roles only. -/
theorem token_merge_preserves_roles_witness :
    (marshalTokenInfo exampleToken = .ok exampleTokenDoc ∧
      exampleStoredRolesOnly.containsKey "roles" = true) ∧
    ∃ m d',
      serializeToken marshalTokenInfo (fun x => x) "tokens" exampleToken = .ok m ∧
      applyMutation m (Store.empty.set { index := "tokens", id := "TKN-01234" } exampleStoredRolesOnly)
        { index := "tokens", id := "TKN-01234" } = some d' ∧
      d'.get? "roles" = exampleStoredRolesOnly.get? "roles" :=
  ⟨⟨rfl, rfl⟩,
    token_merge_preserves_roles marshalTokenInfo (fun x => x) "tokens" exampleToken exampleTokenDoc
      exampleStoredRolesOnly
      (Store.empty.set { index := "tokens", id := "TKN-01234" } exampleStoredRolesOnly)
      rfl (Store.set_same _ _ _) rfl⟩

/-- C7, as stated, fails: a stored token document without a roles field is left
as it is by the token merge program; its name stays "OldName" although the
incoming token is named "TokenName". -/
theorem token_merge_without_roles_counterexample :
    exampleStoredNoRoles.containsKey "roles" = false ∧
    serializeToken marshalTokenInfo (fun x => x) "tokens" exampleToken
      = .ok (Mutation.update { index := "tokens", id := "TKN-01234" } false
          (Script.tokenMerge exampleTokenDoc) exampleTokenDoc) ∧
    applyMutation
        (Mutation.update { index := "tokens", id := "TKN-01234" } false
          (Script.tokenMerge exampleTokenDoc) exampleTokenDoc)
        (Store.empty.set { index := "tokens", id := "TKN-01234" } exampleStoredNoRoles)
        { index := "tokens", id := "TKN-01234" } = some exampleStoredNoRoles ∧
    exampleStoredNoRoles.get? "name" = some (JVal.str "OldName") ∧
    exampleTokenDoc.get? "name" = some (JVal.str "TokenName") ∧
    exampleStoredNoRoles.get? "name" ≠ exampleTokenDoc.get? "name" := by
  refine ⟨rfl, rfl, ?_, rfl, rfl, ?_⟩
  · exact tokenMerge_update_no_roles _ exampleTokenDoc exampleStoredNoRoles _
      (Store.set_same _ _ _) rfl
  · simp [exampleStoredNoRoles, exampleTokenDoc, Doc.get?]

/-- C7, amended: applied to a stored token document whose roles field holds a
map (or null), the token merge program replaces every field other than roles by
the incoming token's content and keeps the stored roles; applied to a stored
document without a roles field, it leaves the document unchanged. -/
theorem token_merge_overwrites_only_with_roles (jsonMarshal : TokenInfo → Except String Doc)
    (JsonEscape : String → String) (index : String) (tokenData : TokenInfo) (token d : Doc)
    (s : Store)
    (hm : jsonMarshal tokenData = .ok token)
    (hs : s { index := index, id := JsonEscape tokenData.Token } = some d) :
    ∃ m,
      serializeToken jsonMarshal JsonEscape index tokenData = .ok m ∧
      (((∃ l, d.get? "roles" = some (JVal.obj l)) ∨ d.get? "roles" = some JVal.null) →
        ∃ d', applyMutation m s { index := index, id := JsonEscape tokenData.Token } = some d' ∧
          d'.get? "roles" = d.get? "roles" ∧
          ∀ k, k ≠ "roles" → d'.get? k = token.get? k) ∧
      (d.containsKey "roles" = false →
        applyMutation m s { index := index, id := JsonEscape tokenData.Token } = some d) := by
  refine ⟨Mutation.update { index := index, id := JsonEscape tokenData.Token } false
    (Script.tokenMerge token) token, by simp [serializeToken, hm], ?_, ?_⟩
  · rintro (⟨l, hr⟩ | hr)
    · refine ⟨_, tokenMerge_update_roles _ token d _ s hs hr, ?_, ?_⟩
      · simp [JVal.castHashMap, Doc.get?_put_same, hr]
      · intro k hk
        simp [JVal.castHashMap, Doc.get?_put_other _ _ _ _ hk]
    · refine ⟨_, tokenMerge_update_roles _ token d _ s hs hr, ?_, ?_⟩
      · simp [JVal.castHashMap, Doc.get?_put_same, hr]
      · intro k hk
        simp [JVal.castHashMap, Doc.get?_put_other _ _ _ _ hk]
  · intro hno
    exact tokenMerge_update_no_roles _ token d s hs hno

/-- Witness of the amended C7: the token of the serializer's unit test merged
into a stored document that holds roles only; the name becomes the token's. -/
theorem token_merge_overwrites_only_with_roles_witness :
    (marshalTokenInfo exampleToken = .ok exampleTokenDoc ∧
      exampleStoredRolesOnly.get? "roles"
        = some (JVal.obj [("DCDTRoleNFTCreate", JVal.arr [JVal.str "moa1abc"])])) ∧
    ∃ d',
      applyMutation
        (Mutation.update { index := "tokens", id := "TKN-01234" } false
          (Script.tokenMerge exampleTokenDoc) exampleTokenDoc)
        (Store.empty.set { index := "tokens", id := "TKN-01234" } exampleStoredRolesOnly)
        { index := "tokens", id := "TKN-01234" } = some d' ∧
      d'.get? "name" = some (JVal.str "TokenName") := by
  refine ⟨⟨rfl, rfl⟩, ?_⟩
  obtain ⟨m, hser, hwith, _⟩ :=
    token_merge_overwrites_only_with_roles marshalTokenInfo (fun x => x) "tokens" exampleToken
      exampleTokenDoc exampleStoredRolesOnly
      (Store.empty.set { index := "tokens", id := "TKN-01234" } exampleStoredRolesOnly)
      rfl (Store.set_same _ _ _)
  have hm : m = Mutation.update { index := "tokens", id := "TKN-01234" } false
      (Script.tokenMerge exampleTokenDoc) exampleTokenDoc := by
    have h2 : serializeToken marshalTokenInfo (fun x => x) "tokens" exampleToken
        = .ok (Mutation.update { index := "tokens", id := "TKN-01234" } false
            (Script.tokenMerge exampleTokenDoc) exampleTokenDoc) := rfl
    rw [h2] at hser
    exact (Except.ok.inj hser).symm
  subst hm
  obtain ⟨d', hd', _, hrest⟩ := hwith (Or.inl ⟨_, rfl⟩)
  exact ⟨d', hd', by rw [hrest "name" (by decide)]; rfl⟩

/-! ### The event dispatcher -/

/-- C8, evaluated where it fails. Three handlers: the first passes, the second
claims the event (`processed = true`), the third records its call. When the log
hash is not a key of the transaction map the loop stops after the second
handler; when it is a key, the `continue` taken after marking the transaction
skips the test of `processed`, and the third handler is invoked as well. -/
theorem processEvent_claimed_event_reaches_later_handler :
    (processEvent
        [recordingHandler "scDeploys" false, recordingHandler "informative" true,
         recordingHandler "nftsProperties" false]
        (exampleLogsData []) "6162" [1, 2, 3] exampleTxEvent 0 3).map (fun ld => ld.shared)
      = .ok ["scDeploys", "informative"] ∧
    (processEvent
        [recordingHandler "scDeploys" false, recordingHandler "informative" true,
         recordingHandler "nftsProperties" false]
        (exampleLogsData [("6162", exampleTxAtSource)]) "6162" [1, 2, 3] exampleTxEvent 0 3).map
        (fun ld => ld.shared)
      = .ok ["scDeploys", "informative", "nftsProperties"] := by
  constructor <;> rfl

/-- C9. Whatever its arguments, `createEventsProcessors` returns exactly seven
handlers, in the order contract-deploy, informative, NFT-property,
token-role/property, token-issue, delegator, NFT-lifecycle. -/
theorem createEventsProcessors_fixed_order {PK M BC H : Type}
    (args : ArgsLogsAndEventsProcessor PK M BC H) :
    (createEventsProcessors args).length = 7 ∧
    (createEventsProcessors args).map eventsProcessor.kind
      = [HandlerKind.contractDeploy, HandlerKind.informative, HandlerKind.nftProperty,
         HandlerKind.tokenRoleProperty, HandlerKind.tokenIssue, HandlerKind.delegator,
         HandlerKind.nftLifecycle] ∧
    createEventsProcessors args
      = [eventsProcessor.scDeploysProc args.PubKeyConverter,
         eventsProcessor.informativeLogsProc,
         eventsProcessor.nftsPropertiesProc args.PubKeyConverter,
         eventsProcessor.dcdtPropertiesProc args.PubKeyConverter,
         eventsProcessor.dcdtIssueProc args.PubKeyConverter,
         eventsProcessor.delegatorsProc args.PubKeyConverter args.BalanceConverter,
         eventsProcessor.nftsProc args.PubKeyConverter args.Marshalizer] := by
  refine ⟨rfl, rfl, rfl⟩

/-! ### Altered accounts -/

theorem notZeroBalance_eq_false_iff (balance : String) :
    notZeroBalance balance = false ↔ (balance = "0" ∨ balance = "") := by
  have hlen : balance.length = 0 ↔ balance = "" := by
    constructor
    · intro h
      have : balance.data = [] := List.length_eq_zero.mp h
      exact String.ext this
    · intro h
      subst h
      rfl
  unfold notZeroBalance
  by_cases h0 : balance = "0"
  · simp [h0]
  · by_cases he : balance = ""
    · simp [he]
    · have : balance.length ≠ 0 := fun h => he (hlen.mp h)
      have hpos : 0 < balance.length := Nat.pos_of_ne_zero this
      simp [h0, he, hpos]

/-- C10. For every altered account, with the sender flag and the
balance-changed flag read from its additional data (both false when the
additional data is nil), `splitAlteredAccounts` returns exactly one
plain-balance record, holding the account and the sender flag, when the account
is the sender, or its balance changed, or its Balance text is "0" or empty; and
it returns no plain-balance record otherwise. -/
theorem splitAlteredAccounts_plain_record (account : AlteredAccount) :
    (splitAlteredAccounts account).1 =
      if (match account.AdditionalData with
            | some additionalData => additionalData.IsSender
            | none => false) = true ∨
         (match account.AdditionalData with
            | some additionalData => additionalData.BalanceChanged
            | none => false) = true ∨
         account.Balance = "0" ∨ account.Balance = ""
      then [{ UserAccount := account,
              IsSender := match account.AdditionalData with
                | some additionalData => additionalData.IsSender
                | none => false }]
      else [] := by
  have hz := notZeroBalance_eq_false_iff account.Balance
  cases hb : notZeroBalance account.Balance
  · have hor : account.Balance = "0" ∨ account.Balance = "" := hz.mp hb
    cases had : account.AdditionalData with
    | none => simp [splitAlteredAccounts, had, hb, hor]
    | some ad => simp [splitAlteredAccounts, had, hb, hor]
  · have hnor : ¬ (account.Balance = "0" ∨ account.Balance = "") := by
      intro h
      have := hz.mpr h
      rw [hb] at this
      exact Bool.noConfusion this
    cases had : account.AdditionalData with
    | none => simp [splitAlteredAccounts, had, hb, hnor]
    | some ad =>
      cases hs : ad.IsSender <;> cases hc : ad.BalanceChanged <;>
        simp [splitAlteredAccounts, had, hb, hnor, hs, hc]

/-- C11. For every altered account, `splitAlteredAccounts` returns as many token
records as the account has token entries, and the record at position i is built
from the entry at position i: the account, the entry's Identifier and Nonce, the
account's sender flag (false when the additional data is nil) and IsNFTCreate
read from the entry's additional data (false when that is nil). The plain-balance
list plays no part in it. -/
theorem splitAlteredAccounts_token_records (account : AlteredAccount) :
    (splitAlteredAccounts account).2.length = account.Tokens.length ∧
    ∀ (i : Nat) (info : AccountTokenData), account.Tokens[i]? = some info →
      (splitAlteredAccounts account).2[i]? = some
        { Account := account
          TokenIdentifier := info.Identifier
          NFTNonce := info.Nonce
          IsSender := match account.AdditionalData with
            | some additionalData => additionalData.IsSender
            | none => false
          IsNFTOperation := false
          IsNFTCreate := match info.AdditionalData with
            | some additionalData => additionalData.IsNFTCreate
            | none => false } := by
  constructor
  · simp [splitAlteredAccounts]
  · intro i info hi
    cases had : account.AdditionalData <;>
      simp [splitAlteredAccounts, had, List.getElem?_map, hi]

/-! ### The NFT transfer merge program -/

theorem get?_putIfNotNull_other (d : Doc) (k k2 : String) (v : JVal) (h2 : k2 ≠ k) :
    (putIfNotNull d k v).get? k2 = d.get? k2 := by
  cases v <;> simp [putIfNotNull, Doc.get?_put_other _ _ _ _ h2]

theorem get?_putIfNotNull_same (d : Doc) (k : String) (v : JVal) (hv : v ≠ JVal.null) :
    (putIfNotNull d k v).get? k = some v := by
  cases v <;> simp [putIfNotNull, Doc.get?_put_same] at hv ⊢

theorem putIfNotNull_null (d : Doc) (k : String) : putIfNotNull d k JVal.null = d := rfl

theorem nftTransfer_update_existing (key : DocKey) (tx stored : Doc) (st : String) (s : Store)
    (hs : s key = some stored) (hst : stored.get? "status" = some (JVal.str st)) :
    applyMutation (Mutation.update key true (Script.nftTransfer tx) []) s key
      = some (putIfNotNull
          (putIfNotNull (if st = "" then tx else Doc.put tx "status" (JVal.str st))
            "errorEvent" (stored.field "errorEvent"))
          "completedEvent" (stored.field "completedEvent")) := by
  by_cases h : st = ""
  · simp [applyMutation, hs, Script.run, Store.set, Doc.field, hst, JVal.isEmptyCall, h]
  · simp [applyMutation, hs, Script.run, Store.set, Doc.field, hst, JVal.isEmptyCall, h]

/-- C20, as stated, fails: the example intra-shard NFT transfer, built at
timestamp 5000, is serialized with the NFT transfer merge program; applied to a
store whose document under the hash has timestamp 6000, it does not leave that
document unchanged: the stored timestamp becomes 5000 and the fee is reset. -/
theorem nft_transfer_merge_ignores_timestamp_counterexample :
    isNFTTransferOrMultiTransfer exampleTxSerializer exampleNftTransferTx = true ∧
    prepareSerializedDataForATransaction exampleTxSerializer exampleNftTransferTx 1 "transactions"
      = .ok (Mutation.update { index := "transactions", id := "6e6674" } true
          (Script.nftTransfer exampleNftTransferDoc) []) ∧
    exampleStoredNftTransferDoc.get? "timestamp" = some (JVal.num 6000) ∧
    exampleNftTransferDoc.get? "timestamp" = some (JVal.num 5000) ∧
    ∃ d',
      applyMutation
        (Mutation.update { index := "transactions", id := "6e6674" } true
          (Script.nftTransfer exampleNftTransferDoc) [])
        (Store.empty.set { index := "transactions", id := "6e6674" } exampleStoredNftTransferDoc)
        { index := "transactions", id := "6e6674" } = some d' ∧
      d'.get? "timestamp" = some (JVal.num 5000) ∧
      d'.get? "fee" = some (JVal.str "") ∧
      d'.get? "status" = some (JVal.str "success") := by
  refine ⟨by decide, rfl, rfl, rfl, ?_⟩
  refine ⟨_, nftTransfer_update_existing _ exampleNftTransferDoc exampleStoredNftTransferDoc
      "success" _ (Store.set_same _ _ _) rfl, ?_, ?_, ?_⟩
  · rfl
  · rfl
  · rfl

/-- C20, amended: the merge emitted for an intra-shard NFT-transfer transaction
has no timestamp rule. On a missing document it stores the incoming
transaction. On a stored document with a text status it writes the incoming
transaction over it whatever the two timestamps are: every field other than
status, errorEvent and completedEvent (the timestamp among them) becomes the
incoming transaction's; a non-empty stored status is kept and an empty one gives
way to the incoming status; a stored errorEvent that is not null is kept, and so
is a stored completedEvent that is not null, while a missing or null one leaves
the field as the incoming transaction has it. -/
theorem nft_transfer_merge_overwrites_keeping_status (env : TxSerializer) (tx : Transaction)
    (selfShardID : Nat) (index : String) (marshaledTx stored : Doc) (st : String) (s s0 : Store)
    (hIntra : tx.SenderShard = tx.ReceiverShard)
    (hNft : isNFTTransferOrMultiTransfer env tx = true)
    (hm : env.jsonMarshal tx = .ok marshaledTx)
    (hs : s { index := index, id := env.JsonEscape tx.Hash } = some stored)
    (hst : stored.get? "status" = some (JVal.str st))
    (hs0 : s0 { index := index, id := env.JsonEscape tx.Hash } = none) :
    prepareSerializedDataForATransaction env tx selfShardID index
      = .ok (Mutation.update { index := index, id := env.JsonEscape tx.Hash } true
          (Script.nftTransfer marshaledTx) []) ∧
    applyMutation (Mutation.update { index := index, id := env.JsonEscape tx.Hash } true
        (Script.nftTransfer marshaledTx) []) s0 { index := index, id := env.JsonEscape tx.Hash }
      = some marshaledTx ∧
    ∃ d',
      applyMutation (Mutation.update { index := index, id := env.JsonEscape tx.Hash } true
        (Script.nftTransfer marshaledTx) []) s { index := index, id := env.JsonEscape tx.Hash }
        = some d' ∧
      (∀ k, k ≠ "status" → k ≠ "errorEvent" → k ≠ "completedEvent" →
        d'.get? k = marshaledTx.get? k) ∧
      (st ≠ "" → d'.get? "status" = some (JVal.str st)) ∧
      (st = "" → d'.get? "status" = marshaledTx.get? "status") ∧
      (∀ v, stored.get? "errorEvent" = some v → v ≠ JVal.null →
        d'.get? "errorEvent" = some v) ∧
      ((stored.get? "errorEvent" = none ∨ stored.get? "errorEvent" = some JVal.null) →
        d'.get? "errorEvent" = marshaledTx.get? "errorEvent") ∧
      (∀ v, stored.get? "completedEvent" = some v → v ≠ JVal.null →
        d'.get? "completedEvent" = some v) ∧
      ((stored.get? "completedEvent" = none ∨ stored.get? "completedEvent" = some JVal.null) →
        d'.get? "completedEvent" = marshaledTx.get? "completedEvent") := by
  refine ⟨?_, ?_, ?_⟩
  · simp [prepareSerializedDataForATransaction, hm, isCrossShardOnSourceShard, hIntra, hNft,
      prepareNFTDCDTTransferOrMultiDCDTTransfer]
  · simp [applyMutation, hs0, Script.run, Store.set]
  have hsrc1 : ∀ k, k ≠ "status" →
      (if st = "" then marshaledTx else Doc.put marshaledTx "status" (JVal.str st)).get? k =
        marshaledTx.get? k := by
    intro k hk
    by_cases h : st = ""
    · simp [h]
    · simp [h, Doc.get?_put_other _ _ _ _ hk]
  refine ⟨_, nftTransfer_update_existing _ marshaledTx stored st s hs hst, ?_, ?_, ?_, ?_, ?_, ?_, ?_⟩
  · intro k h1 h2 h3
    rw [get?_putIfNotNull_other _ _ _ _ h3, get?_putIfNotNull_other _ _ _ _ h2]
    exact hsrc1 k h1
  · intro h
    rw [get?_putIfNotNull_other _ _ _ _ (by decide), get?_putIfNotNull_other _ _ _ _ (by decide)]
    simp [h, Doc.get?_put_same]
  · intro h
    rw [get?_putIfNotNull_other _ _ _ _ (by decide), get?_putIfNotNull_other _ _ _ _ (by decide)]
    simp [h]
  · intro v hv hnull
    have hf : stored.field "errorEvent" = v := by simp [Doc.field, hv]
    rw [get?_putIfNotNull_other _ _ _ _ (by decide), hf]
    exact get?_putIfNotNull_same _ _ _ hnull
  · intro h
    have hf : stored.field "errorEvent" = JVal.null := by
      rcases h with h | h <;> simp [Doc.field, h]
    rw [get?_putIfNotNull_other _ _ _ _ (by decide), hf, putIfNotNull_null]
    exact hsrc1 _ (by decide)
  · intro v hv hnull
    have hf : stored.field "completedEvent" = v := by simp [Doc.field, hv]
    rw [hf]
    exact get?_putIfNotNull_same _ _ _ hnull
  · intro h
    have hf : stored.field "completedEvent" = JVal.null := by
      rcases h with h | h <;> simp [Doc.field, h]
    rw [hf, putIfNotNull_null, get?_putIfNotNull_other _ _ _ _ (by decide)]
    exact hsrc1 _ (by decide)

/-- Witness of the amended C20: the example NFT transfer (timestamp 5000, status
"pending", no errorEvent and no completedEvent) merged into the newer stored
document that carries status "success" and both flags: the timestamp becomes
5000 while the stored status and the two stored flags stay. -/
theorem nft_transfer_merge_overwrites_keeping_status_witness :
    (exampleNftTransferTx.SenderShard = exampleNftTransferTx.ReceiverShard ∧
      isNFTTransferOrMultiTransfer exampleTxSerializer exampleNftTransferTx = true ∧
      exampleTxSerializer.jsonMarshal exampleNftTransferTx = .ok exampleNftTransferDoc ∧
      exampleStoredNftTransferDocWithEvents.get? "status" = some (JVal.str "success") ∧
      exampleStoredNftTransferDocWithEvents.get? "timestamp" = some (JVal.num 6000)) ∧
    ∃ d',
      applyMutation (Mutation.update { index := "transactions", id := "6e6674" } true
        (Script.nftTransfer exampleNftTransferDoc) [])
        (Store.empty.set { index := "transactions", id := "6e6674" }
          exampleStoredNftTransferDocWithEvents)
        { index := "transactions", id := "6e6674" } = some d' ∧
      d'.get? "timestamp" = some (JVal.num 5000) ∧
      d'.get? "status" = some (JVal.str "success") ∧
      d'.get? "errorEvent" = some (JVal.bool true) ∧
      d'.get? "completedEvent" = some (JVal.bool true) := by
  refine ⟨⟨rfl, by decide, rfl, rfl, rfl⟩, ?_⟩
  obtain ⟨_, _, d', hd', hrest, hstatus, _, herr, _, hcompl, _⟩ :=
    nft_transfer_merge_overwrites_keeping_status exampleTxSerializer exampleNftTransferTx 1
      "transactions" exampleNftTransferDoc exampleStoredNftTransferDocWithEvents "success"
      (Store.empty.set { index := "transactions", id := "6e6674" }
        exampleStoredNftTransferDocWithEvents)
      Store.empty rfl (by decide) rfl (Store.set_same _ _ _) rfl rfl
  refine ⟨d', hd', ?_, hstatus (by decide), herr _ rfl (fun h => JVal.noConfusion h),
    hcompl _ rfl (fun h => JVal.noConfusion h)⟩
  rw [hrest "timestamp" (by decide) (by decide) (by decide)]
  rfl

/-! ### The add-URIs merge program -/

theorem Doc.put_eq_self (d : Doc) (k : String) (v : JVal) (h : d.get? k = some v) :
    d.put k v = d := by
  induction d with
  | nil => simp [Doc.get?] at h
  | cons p rest ih =>
    obtain ⟨k', v'⟩ := p
    by_cases hk : k' = k
    · subst hk
      simp [Doc.get?] at h
      simp [Doc.put, h]
    · simp [Doc.get?, hk] at h
      simp [Doc.put, hk, ih h]

theorem any_eqStr_addURIIfMissing (stored : List JVal) (u v : String)
    (h : stored.any (fun x => x.eqStr u) = true) :
    (addURIIfMissing stored v).any (fun x => x.eqStr u) = true := by
  unfold addURIIfMissing
  split
  · exact h
  · simp [List.any_append, h]

theorem any_eqStr_addURIIfMissing_self (stored : List JVal) (u : String) :
    (addURIIfMissing stored u).any (fun x => x.eqStr u) = true := by
  unfold addURIIfMissing
  split
  · assumption
  · simp [List.any_append, JVal.eqStr]

theorem any_eqStr_mergeURIs (uris : List String) (stored : List JVal) (u : String)
    (h : stored.any (fun x => x.eqStr u) = true) :
    (mergeURIs stored uris).any (fun x => x.eqStr u) = true := by
  induction uris generalizing stored with
  | nil => simpa [mergeURIs] using h
  | cons v vs ih =>
    simp only [mergeURIs, List.foldl_cons]
    exact ih _ (any_eqStr_addURIIfMissing stored u v h)

theorem mergeURIs_all_present (uris : List String) (stored : List JVal) :
    ∀ u ∈ uris, (mergeURIs stored uris).any (fun x => x.eqStr u) = true := by
  induction uris generalizing stored with
  | nil => intro u hu; cases hu
  | cons v vs ih =>
    intro u hu
    simp only [mergeURIs, List.foldl_cons]
    rcases List.mem_cons.mp hu with h | h
    · subst h
      exact any_eqStr_mergeURIs vs _ u (any_eqStr_addURIIfMissing_self stored u)
    · exact ih _ u h

theorem mergeURIs_eq_self (uris : List String) (stored : List JVal)
    (h : ∀ u ∈ uris, stored.any (fun x => x.eqStr u) = true) :
    mergeURIs stored uris = stored := by
  induction uris with
  | nil => rfl
  | cons v vs ih =>
    have hv := h v (List.mem_cons_self v vs)
    simp only [mergeURIs, List.foldl_cons]
    have : addURIIfMissing stored v = stored := by simp [addURIIfMissing, hv]
    rw [this]
    exact ih (fun u hu => h u (List.mem_cons_of_mem v hu))

theorem mergeURIs_idempotent (uris : List String) (stored : List JVal) :
    mergeURIs (mergeURIs stored uris) uris = mergeURIs stored uris :=
  mergeURIs_eq_self uris _ (mergeURIs_all_present uris stored)

theorem mergeURIs_of_params (uris : List String) :
    mergeURIs (uris.map JVal.str) uris = uris.map JVal.str := by
  apply mergeURIs_eq_self
  intro u hu
  simp only [List.any_eq_true]
  exact ⟨JVal.str u, List.mem_map.mpr ⟨u, hu, rfl⟩, by simp [JVal.eqStr]⟩

theorem mergeURIs_extends (uris : List String) (stored : List JVal) :
    ∃ added, mergeURIs stored uris = stored ++ added := by
  induction uris generalizing stored with
  | nil => exact ⟨[], by simp [mergeURIs]⟩
  | cons v vs ih =>
    simp only [mergeURIs, List.foldl_cons]
    obtain ⟨added, hadd⟩ := ih (addURIIfMissing stored v)
    unfold mergeURIs at hadd
    rw [hadd]
    unfold addURIIfMissing
    split
    · exact ⟨added, rfl⟩
    · exact ⟨[JVal.str v] ++ added, by simp⟩

theorem addURIsToData_idempotent (data data1 : Doc) (uris : List String)
    (h : addURIsToData data uris = .ok data1) : addURIsToData data1 uris = .ok data1 := by
  have hne : ("uris" : String) ≠ "nonEmptyURIs" := by decide
  cases hu : data.get? "uris" with
  | none =>
    simp [addURIsToData, Doc.containsKey, hu] at h
    subst h
    have h1 : (Doc.put (Doc.put data "uris" (JVal.arr (uris.map JVal.str))) "nonEmptyURIs"
        (JVal.bool true)).get? "uris" = some (JVal.arr (uris.map JVal.str)) := by
      rw [Doc.get?_put_other _ _ _ _ hne, Doc.get?_put_same]
    simp only [addURIsToData, Doc.containsKey, Doc.field, h1, Option.isSome_some, Bool.not_true,
      Bool.false_eq_true, if_false, Option.getD_some, mergeURIs_of_params]
    rw [Doc.put_eq_self _ _ _ h1, Doc.put_eq_self _ _ _ (Doc.get?_put_same _ _ _)]
  | some v =>
    cases v with
    | arr stored =>
      simp [addURIsToData, Doc.containsKey, Doc.field, hu] at h
      subst h
      have h1 : (Doc.put (Doc.put data "uris" (JVal.arr (mergeURIs stored uris))) "nonEmptyURIs"
          (JVal.bool true)).get? "uris" = some (JVal.arr (mergeURIs stored uris)) := by
        rw [Doc.get?_put_other _ _ _ _ hne, Doc.get?_put_same]
      simp only [addURIsToData, Doc.containsKey, Doc.field, h1, Option.isSome_some, Bool.not_true,
        Bool.false_eq_true, if_false, Option.getD_some, mergeURIs_idempotent]
      rw [Doc.put_eq_self _ _ _ h1, Doc.put_eq_self _ _ _ (Doc.get?_put_same _ _ _)]
    | null | bool _ | num _ | str _ | obj _ =>
      by_cases he : uris = []
      · simp [addURIsToData, Doc.containsKey, Doc.field, hu, he] at h
        subst h
        subst he
        have h1 : (Doc.put data "nonEmptyURIs" (JVal.bool true)).get? "uris" = data.get? "uris" :=
          Doc.get?_put_other _ _ _ _ hne
        simp only [addURIsToData, Doc.containsKey, Doc.field, h1, hu, Option.isSome_some,
          Bool.not_true, Bool.false_eq_true, if_false, Option.getD_some, if_true]
        rw [Doc.put_eq_self _ _ _ (Doc.get?_put_same _ _ _)]
      · simp [addURIsToData, Doc.containsKey, Doc.field, hu, he] at h

theorem run_addURIs_idempotent (uris : List String) (d : Doc) (c : Ctx)
    (h : Script.run (Script.addURIs uris) { op := "index", source := d } = .ok c) :
    c.op = "index" ∧
    Script.run (Script.addURIs uris) { op := "index", source := c.source }
      = .ok { op := "index", source := c.source } := by
  cases hd : d.get? "data" with
  | none =>
    simp [Script.run, Doc.containsKey, hd] at h
    subst h
    simp [Script.run, Doc.containsKey, hd]
  | some v =>
    cases v with
    | obj data =>
      cases ha : addURIsToData data uris with
      | error e => simp [Script.run, Doc.containsKey, Doc.field, hd, ha] at h
      | ok data1 =>
        simp [Script.run, Doc.containsKey, Doc.field, hd, ha] at h
        subst h
        refine ⟨rfl, ?_⟩
        simp [Script.run, Doc.containsKey, Doc.field, Doc.get?_put_same,
          addURIsToData_idempotent data data1 uris ha,
          Doc.put_eq_self _ _ _ (Doc.get?_put_same d "data" (JVal.obj data1))]
    | null | bool _ | num _ | str _ | arr _ =>
      simp [Script.run, Doc.containsKey, Doc.field, hd] at h

theorem Store.set_set (s : Store) (k : DocKey) (d : Doc) : (s.set k d).set k d = s.set k d := by
  funext k'
  by_cases h : k' = k <;> simp [Store.set, h]

theorem addURIs_update_idempotent (key : DocKey) (uris : List String) (s : Store) :
    applyMutation (Mutation.update key false (Script.addURIs uris) [])
        (applyMutation (Mutation.update key false (Script.addURIs uris) []) s)
      = applyMutation (Mutation.update key false (Script.addURIs uris) []) s := by
  cases hs : s key with
  | none =>
    have h1 : applyMutation (Mutation.update key false (Script.addURIs uris) []) s
        = s.set key [] := by
      simp [applyMutation, hs]
    rw [h1]
    simp [applyMutation, Store.set_same, Script.run, Doc.containsKey, Doc.get?, Store.set_set]
  | some d =>
    cases hr : Script.run (Script.addURIs uris) { op := "index", source := d } with
    | error e =>
      have h1 : applyMutation (Mutation.update key false (Script.addURIs uris) []) s = s := by
        simp [applyMutation, hs, hr]
      rw [h1, h1]
    | ok c =>
      obtain ⟨hop, hrun⟩ := run_addURIs_idempotent uris d c hr
      have h1 : applyMutation (Mutation.update key false (Script.addURIs uris) []) s
          = s.set key c.source := by
        simp [applyMutation, hs, hr, hop]
      rw [h1]
      simp [applyMutation, Store.set_same, hrun, Store.set_set]

theorem addURIs_update_extends (key : DocKey) (uris : List String) (s : Store)
    (d data : Doc) (stored : List JVal)
    (hs : s key = some d) (hd : d.get? "data" = some (JVal.obj data))
    (hu : data.get? "uris" = some (JVal.arr stored)) :
    ∃ (d' data' : Doc) (added : List JVal),
      applyMutation (Mutation.update key false (Script.addURIs uris) []) s key = some d' ∧
      d'.get? "data" = some (JVal.obj data') ∧
      data'.get? "uris" = some (JVal.arr (stored ++ added)) := by
  obtain ⟨added, hadd⟩ := mergeURIs_extends uris stored
  refine ⟨Doc.put d "data" (JVal.obj (Doc.put (Doc.put data "uris" (JVal.arr (mergeURIs stored uris)))
      "nonEmptyURIs" (JVal.bool true))),
    Doc.put (Doc.put data "uris" (JVal.arr (mergeURIs stored uris))) "nonEmptyURIs" (JVal.bool true),
    added, ?_, Doc.get?_put_same _ _ _, ?_⟩
  · simp [applyMutation, hs, Script.run, Doc.containsKey, Doc.field, hd, hu, addURIsToData,
      Store.set]
  · rw [Doc.get?_put_other _ _ _ _ (by decide), Doc.get?_put_same, hadd]

/-- C19. An NFT update with URIs to add (not a freeze or pause for the tokens
index) is serialized by `PrepareNFTUpdateData` as one update with the add-URIs
program on the base64 URIs. Applying that mutation twice to any store leaves the
same store as applying it once, so in particular the same stored uris list; and
when the stored document has a data object with a uris list, the list after the
merge is the stored list followed by the appended URIs, so every stored URI is
still there in the same relative order. -/
theorem add_uris_merge_idempotent (conv : Converters) (nftUpdate : NFTDataUpdate)
    (isAccountsDCDTIndex : Bool) (index : String) (s : Store)
    (hURIs : nftUpdate.URIsToAdd ≠ [])
    (hFreeze : ((nftUpdate.Freeze || nftUpdate.UnFreeze) && !isAccountsDCDTIndex) = false)
    (hPause : ((nftUpdate.Pause || nftUpdate.UnPause) && !isAccountsDCDTIndex) = false) :
    ∃ m key,
      key = ({ index := index,
               id := if isAccountsDCDTIndex then nftUpdate.Address ++ "-" ++ nftUpdate.Identifier
                     else nftUpdate.Identifier } : DocKey) ∧
      m = Mutation.update key false
            (Script.addURIs
              (conv.TruncateSliceElementsIfExceedsMaxLength (nftUpdate.URIsToAdd.map base64Encode)))
            [] ∧
      PrepareNFTUpdateData conv appendPutData [] [nftUpdate] isAccountsDCDTIndex index = .ok [m] ∧
      applyMutation m (applyMutation m s) = applyMutation m s ∧
      ∀ (d data : Doc) (stored : List JVal),
        s key = some d → d.get? "data" = some (JVal.obj data) →
        data.get? "uris" = some (JVal.arr stored) →
        ∃ (d' data' : Doc) (added : List JVal),
          applyMutation m s key = some d' ∧
          d'.get? "data" = some (JVal.obj data') ∧
          data'.get? "uris" = some (JVal.arr (stored ++ added)) ∧
          applyMutation m (applyMutation m s) key = some d' := by
  refine ⟨_, _, rfl, rfl, ?_, addURIs_update_idempotent _ _ s, ?_⟩
  · have hlen : nftUpdate.URIsToAdd.length ≠ 0 := fun h => hURIs (List.length_eq_zero.mp h)
    simp [PrepareNFTUpdateData, hFreeze, hPause, nftUpdateSerializedData, appendPutData, hlen,
      hURIs]
  · intro d data stored hs hd hu
    obtain ⟨d', data', added, h1, h2, h3⟩ := addURIs_update_extends _ _ s d data stored hs hd hu
    refine ⟨d', data', added, h1, h2, h3, ?_⟩
    rw [addURIs_update_idempotent, h1]

/-- Witness of C19: the example update adding "uri1" and "uri2" to a stored
document that already holds "uri2". -/
theorem add_uris_merge_idempotent_witness :
    (exampleAddURIsUpdate.URIsToAdd ≠ [] ∧
      exampleStoredNftDoc.get? "data"
        = some (JVal.obj [("name", JVal.str "nft"),
            ("uris", JVal.arr [JVal.str "b3RoZXI=", JVal.str "dXJpMg=="])])) ∧
    ∃ m,
      PrepareNFTUpdateData exampleConverters appendPutData [] [exampleAddURIsUpdate] true
        "accountsdcdt" = .ok [m] ∧
      applyMutation m (applyMutation m
          (Store.empty.set { index := "accountsdcdt", id := "moa1abc-NFT-abcd-01" }
            exampleStoredNftDoc))
        = applyMutation m
          (Store.empty.set { index := "accountsdcdt", id := "moa1abc-NFT-abcd-01" }
            exampleStoredNftDoc) := by
  refine ⟨⟨by decide, rfl⟩, ?_⟩
  obtain ⟨m, key, _, _, hprep, hidem, _⟩ :=
    add_uris_merge_idempotent exampleConverters exampleAddURIsUpdate true "accountsdcdt"
      (Store.empty.set { index := "accountsdcdt", id := "moa1abc-NFT-abcd-01" }
        exampleStoredNftDoc) (by decide) rfl rfl
  exact ⟨m, hprep, hidem⟩

/-! ### The handlers -/

theorem propertiesLoop_odd (ext : Externals) (n : Nat) :
    ∀ (propertiesMap : List (String × Bool)) (properties : List Bytes),
      properties.length = 2 * n + 1 →
      propertiesLoop ext propertiesMap properties = .error "index out of range" := by
  induction n with
  | zero =>
    intro m l hl
    match l, hl with
    | [_], _ => rfl
  | succ k ih =>
    intro m l hl
    match l, hl with
    | p :: v :: rest, h =>
      simp only [propertiesLoop]
      apply ih
      simp at h
      omega

/-- C13, evaluated where it fails. A burn event without topics and a create
event with one topic make `nftsProcessor.processEvent` read `topics[1]` out of
range; and so does every event with a recognized identifier and fewer than two
topics, whatever the collaborators are. -/
theorem nftsProcessor_truncated_event_panics :
    nftsProcessor.processEvent (newNFTsProcessor examplePubkeyConverter exampleMarshalizer)
        exampleExternals exampleConverters (exampleArgs exampleBurnNoTopics)
      = .error "index out of range" ∧
    nftsProcessor.processEvent (newNFTsProcessor examplePubkeyConverter exampleMarshalizer)
        exampleExternals exampleConverters (exampleArgs exampleCreateOneTopic)
      = .error "index out of range" ∧
    ∀ (np : nftsProcessor) (ext : Externals) (conv : Converters)
      (args : argsProcessEvent SharedCollections),
      np.nftOperationsIdentifiers.contains (bytesToString args.event.Identifier) = true →
      args.event.Topics.length < 2 →
      nftsProcessor.processEvent np ext conv args = .error "index out of range" := by
  refine ⟨?_, ?_, ?_⟩
  · simp [nftsProcessor.processEvent, newNFTsProcessor, exampleArgs, exampleBurnNoTopics,
      topicAt]
    decide
  · simp [nftsProcessor.processEvent, newNFTsProcessor, exampleArgs, exampleCreateOneTopic,
      topicAt]
    decide
  · intro np ext conv args hid hlen
    have h1 : args.event.Topics[1]? = none := List.getElem?_eq_none (by omega)
    have hmem : bytesToString args.event.Identifier ∈ np.nftOperationsIdentifiers := by
      simpa using hid
    simp [nftsProcessor.processEvent, hmem, topicAt, h1]

/-- C14, evaluated where it fails. An upgradeProperties event with five topics
passes the guard on the number of topics and makes `extractTokenProperties` read
the value of its last property name out of range; and so does every
upgradeProperties event with at least four topics and an odd number of them. -/
theorem extractTokenProperties_odd_topics_panics :
    dcdtPropertiesProc.processEvent (newDcdtPropertiesProcessor examplePubkeyConverter)
        exampleExternals (exampleArgs exampleUpgradeOddTopics)
      = .error "index out of range" ∧
    ∀ (pubKeyConverter : PubkeyConverter) (ext : Externals)
      (args : argsProcessEvent SharedCollections) (n : Nat),
      bytesToString args.event.Identifier = upgradePropertiesEvent →
      4 ≤ args.event.Topics.length →
      args.event.Topics.length = 2 * n + 1 →
      dcdtPropertiesProc.processEvent (newDcdtPropertiesProcessor pubKeyConverter) ext args
        = .error "index out of range" := by
  have general : ∀ (pubKeyConverter : PubkeyConverter) (ext : Externals)
      (args : argsProcessEvent SharedCollections) (n : Nat),
      bytesToString args.event.Identifier = upgradePropertiesEvent →
      4 ≤ args.event.Topics.length →
      args.event.Topics.length = 2 * n + 1 →
      dcdtPropertiesProc.processEvent (newDcdtPropertiesProcessor pubKeyConverter) ext args
        = .error "index out of range" := by
    intro pk ext args n hid hlen hodd
    have hnot : ¬ args.event.Topics.length < minTopicsPropertiesAndRoles := by
      simp [minTopicsPropertiesAndRoles]; omega
    have hdrop : (args.event.Topics.drop 2).length = 2 * (n - 1) + 1 := by
      simp [List.length_drop]; omega
    have hloop := propertiesLoop_odd ext (n - 1) [] (args.event.Topics.drop 2) hdrop
    have hle : 2 ≤ args.event.Topics.length := by omega
    simp [dcdtPropertiesProc.processEvent, newDcdtPropertiesProcessor, hid, hnot,
      dcdtPropertiesProc.extractTokenProperties, topicsFrom, dcdtPropertiesStartIndex, hle, hloop]
  refine ⟨?_, general⟩
  exact general examplePubkeyConverter exampleExternals (exampleArgs exampleUpgradeOddTopics) 2
    (by decide) (by decide) (by decide)

/-- C15. A property handler claims a recognized event that carries too few
topics and produces no fact: `dcdtPropertiesProc.processEvent` with fewer than 4
topics, and `nftsPropertiesProc.processEvent` with 0, 2 or 3 topics, return
`processed = true` with no token, delegator or NFT update, and leave the
collections as they were (no role, no property recorded). -/
theorem property_handlers_claim_truncated_events
    (epp : dcdtPropertiesProc) (npp : nftsPropertiesProc) (ext : Externals) (conv : Converters)
    (args1 args2 : argsProcessEvent SharedCollections)
    (hid1 : epp.rolesOperationsIdentifiers.contains (bytesToString args1.event.Identifier) = true)
    (hlen1 : args1.event.Topics.length < 4)
    (hid2 : npp.propertiesChangeOperations.contains (bytesToString args2.event.Identifier) = true)
    (hlen2 : args2.event.Topics.length = 0 ∨ args2.event.Topics.length = 2 ∨
      args2.event.Topics.length = 3) :
    dcdtPropertiesProc.processEvent epp ext args1
      = .ok ({ tokenInfo := none, delegator := none, updatePropNFT := none, processed := true },
             args1) ∧
    nftsPropertiesProc.processEvent npp conv args2
      = .ok ({ tokenInfo := none, delegator := none, updatePropNFT := none, processed := true },
             args2) := by
  have hmem1 : bytesToString args1.event.Identifier ∈ epp.rolesOperationsIdentifiers := by
    simpa using hid1
  have hmem2 : bytesToString args2.event.Identifier ∈ npp.propertiesChangeOperations := by
    simpa using hid2
  constructor
  · simp [dcdtPropertiesProc.processEvent, hmem1, minTopicsPropertiesAndRoles, hlen1]
  · have hne : args2.event.Topics.length ≠ 1 := by omega
    have hlt : args2.event.Topics.length < 4 := by omega
    by_cases hcaller : npp.pubKeyConverter.SilentEncode args2.event.Address = ""
    · simp [nftsPropertiesProc.processEvent, hmem2, hcaller]
    · simp [nftsPropertiesProc.processEvent, hmem2, hcaller, hne, minTopicsUpdate, hlt]

/-- Witness of C15: a set-role event with three topics and a freeze event with
two topics. -/
theorem property_handlers_claim_truncated_events_witness :
    ((newDcdtPropertiesProcessor examplePubkeyConverter).rolesOperationsIdentifiers.contains
        (bytesToString exampleSetRoleThreeTopics.Identifier) = true ∧
      exampleSetRoleThreeTopics.Topics.length < 4 ∧
      (newNFTsPropertiesProcessor examplePubkeyConverter).propertiesChangeOperations.contains
        (bytesToString exampleFreezeTwoTopics.Identifier) = true ∧
      exampleFreezeTwoTopics.Topics.length = 2) ∧
    dcdtPropertiesProc.processEvent (newDcdtPropertiesProcessor examplePubkeyConverter)
        exampleExternals (exampleArgs exampleSetRoleThreeTopics)
      = .ok ({ processed := true }, exampleArgs exampleSetRoleThreeTopics) ∧
    nftsPropertiesProc.processEvent (newNFTsPropertiesProcessor examplePubkeyConverter)
        exampleConverters (exampleArgs exampleFreezeTwoTopics)
      = .ok ({ processed := true }, exampleArgs exampleFreezeTwoTopics) :=
  ⟨⟨by decide, by decide, by decide, by decide⟩,
    property_handlers_claim_truncated_events (newDcdtPropertiesProcessor examplePubkeyConverter)
      (newNFTsPropertiesProcessor examplePubkeyConverter) exampleExternals exampleConverters
      (exampleArgs exampleSetRoleThreeTopics) (exampleArgs exampleFreezeTwoTopics)
      (by decide) (by decide) (by decide) (Or.inr (Or.inl (by decide)))⟩

theorem lettersLoop_eq_true_iff (ext : Externals) (l : List Nat) :
    lettersLoop ext l = true ↔ ∀ c ∈ l, ext.IsLetter c = true := by
  induction l with
  | nil => simp [lettersLoop]
  | cons c rest ih =>
    cases hc : ext.IsLetter c <;> simp [lettersLoop, hc, ih]

theorem checkRolesBytes_eq_true_iff (ext : Externals) (rolesBytes : List Bytes) :
    checkRolesBytes ext rolesBytes = true ↔
      ∀ role ∈ rolesBytes, ∀ c ∈ ext.runes role, ext.IsLetter c = true := by
  induction rolesBytes with
  | nil => simp [checkRolesBytes]
  | cons role rest ih =>
    cases hr : containsNonLetterChars ext role
    · have : ¬ ∀ c ∈ ext.runes role, ext.IsLetter c = true := by
        intro h
        have := (lettersLoop_eq_true_iff ext (ext.runes role)).mpr h
        simp [containsNonLetterChars] at hr
        rw [hr] at this
        exact Bool.noConfusion this
      simp [checkRolesBytes, hr, this]
    · have : ∀ c ∈ ext.runes role, ext.IsLetter c = true :=
        (lettersLoop_eq_true_iff ext (ext.runes role)).mp (by simpa [containsNonLetterChars] using hr)
      simp only [checkRolesBytes, hr, ih, List.mem_cons, forall_eq_or_imp, Bool.not_true,
        Bool.false_eq_true, if_false]
      exact ⟨fun h => ⟨this, h⟩, fun h => h.2⟩

/-- C16. `checkRolesBytes` returns true exactly when every character of every
role of the list is a letter. And when it returns false on the role topics
`topics[3:]` of a set-role or unset-role event (an event with at least 4 topics
whose recognized identifier is neither upgradeProperties nor the create-role
transfer), `dcdtPropertiesProc.processEvent` claims the event and leaves the
collections as they were: none of the roles is recorded, the well-formed ones
included. -/
theorem checkRolesBytes_letters_only_else_claimed
    (epp : dcdtPropertiesProc) (ext : Externals) (args : argsProcessEvent SharedCollections)
    (hid : epp.rolesOperationsIdentifiers.contains (bytesToString args.event.Identifier) = true)
    (hnotUpgrade : bytesToString args.event.Identifier ≠ upgradePropertiesEvent)
    (hnotTransfer : bytesToString args.event.Identifier ≠ BuiltInFunctionDCDTNFTCreateRoleTransfer)
    (hlen : 4 ≤ args.event.Topics.length)
    (hbad : checkRolesBytes ext (args.event.Topics.drop 3) = false) :
    (∀ rolesBytes : List Bytes, checkRolesBytes ext rolesBytes = true ↔
      ∀ role ∈ rolesBytes, ∀ c ∈ ext.runes role, ext.IsLetter c = true) ∧
    dcdtPropertiesProc.processEvent epp ext args
      = .ok ({ tokenInfo := none, delegator := none, updatePropNFT := none, processed := true },
             args) := by
  refine ⟨checkRolesBytes_eq_true_iff ext, ?_⟩
  have hmem : bytesToString args.event.Identifier ∈ epp.rolesOperationsIdentifiers := by
    simpa using hid
  have hnot : ¬ args.event.Topics.length < minTopicsPropertiesAndRoles := by
    simp [minTopicsPropertiesAndRoles]; omega
  have hle : 3 ≤ args.event.Topics.length := by omega
  simp [dcdtPropertiesProc.processEvent, hmem, hnot, hnotUpgrade, hnotTransfer, topicsFrom, hle,
    hbad]

/-- Witness of C16: a set-role event whose role topics are "DCDTRoleNFTCreate"
and the byte 1. -/
theorem checkRolesBytes_letters_only_else_claimed_witness :
    (checkRolesBytes exampleExternals (exampleSetRoleBadRole.Topics.drop 3) = false ∧
      checkRolesBytes exampleExternals [strBytes "DCDTRoleNFTCreate"] = true ∧
      4 ≤ exampleSetRoleBadRole.Topics.length) ∧
    dcdtPropertiesProc.processEvent (newDcdtPropertiesProcessor examplePubkeyConverter)
        exampleExternals (exampleArgs exampleSetRoleBadRole)
      = .ok ({ processed := true }, exampleArgs exampleSetRoleBadRole) :=
  ⟨⟨by decide, by decide, by decide⟩,
    (checkRolesBytes_letters_only_else_claimed (newDcdtPropertiesProcessor examplePubkeyConverter)
      exampleExternals (exampleArgs exampleSetRoleBadRole) (by decide) (by decide) (by decide)
      (by decide) (by decide)).2⟩

theorem processNFTEventOnSender_ok (np : nftsProcessor) (conv : Converters) (event : TxEvent)
    (tokensCreateInfo tokensSupply : List TokenInfo) (timestamp : Nat)
    (topic0 topic1 topic2 topic3 : Bytes) (rest : List Bytes)
    (hTopics : event.Topics = topic0 :: topic1 :: topic2 :: topic3 :: rest) :
    ∃ r, np.processNFTEventOnSender conv event tokensCreateInfo tokensSupply timestamp = .ok r := by
  simp only [nftsProcessor.processNFTEventOnSender, hTopics, topicAt]
  simp only [List.getElem?_cons_zero, List.getElem?_cons_succ]
  split
  · exact ⟨_, rfl⟩
  · split
    · exact ⟨_, rfl⟩
    · exact ⟨_, rfl⟩

theorem nftsProcessor_processEvent_claims (np : nftsProcessor) (ext : Externals)
    (conv : Converters) (args : argsProcessEvent SharedCollections)
    (topic0 topic1 topic2 topic3 : Bytes) (rest : List Bytes)
    (hid : np.nftOperationsIdentifiers.contains (bytesToString args.event.Identifier) = true)
    (hTopics : args.event.Topics = topic0 :: topic1 :: topic2 :: topic3 :: rest)
    (hnonce : bigIntUint64 (bigIntSetBytes topic1) ≠ 0) :
    ∃ args', nftsProcessor.processEvent np ext conv args = .ok ({ processed := true }, args') := by
  have hmem : bytesToString args.event.Identifier ∈ np.nftOperationsIdentifiers := by
    simpa using hid
  obtain ⟨r, hr⟩ := processNFTEventOnSender_ok np conv args.event args.shared.tokens
    args.shared.tokensSupply args.timestamp topic0 topic1 topic2 topic3 rest hTopics
  obtain ⟨tokens1, tokensSupply1⟩ := r
  simp only [nftsProcessor.processEvent, hid, hTopics, topicAt, List.getElem?_cons_zero,
    List.getElem?_cons_succ, hnonce, Bool.not_true, Bool.false_eq_true, if_false]
  by_cases hshard : ext.ComputeShardID args.event.Address args.numOfShards = args.selfShardID
  · simp only [hshard, if_true, hr]
    split
    · exact ⟨_, rfl⟩
    · split
      · exact ⟨_, rfl⟩
      · split
        · exact ⟨_, rfl⟩
        · exact ⟨_, rfl⟩
  · simp only [hshard, if_false]
    split
    · exact ⟨_, rfl⟩
    · split
      · exact ⟨_, rfl⟩
      · split
        · exact ⟨_, rfl⟩
        · exact ⟨_, rfl⟩

theorem nftsProcessor_processEvent_fungible (np : nftsProcessor) (ext : Externals)
    (conv : Converters) (args : argsProcessEvent SharedCollections)
    (topic0 topic1 : Bytes) (rest : List Bytes)
    (hTopics : args.event.Topics = topic0 :: topic1 :: rest)
    (hnonce : bigIntUint64 (bigIntSetBytes topic1) = 0) :
    nftsProcessor.processEvent np ext conv args = .ok ({ processed := false }, args) := by
  simp only [nftsProcessor.processEvent, hTopics, topicAt, List.getElem?_cons_zero,
    List.getElem?_cons_succ, hnonce, if_true]
  split <;> rfl

theorem nftsPropertiesProc_processEvent_fungible (npp : nftsPropertiesProc)
    (conv : Converters) (args : argsProcessEvent SharedCollections)
    (topic0 topic1 topic2 topic3 : Bytes) (rest : List Bytes)
    (haddr : npp.pubKeyConverter.SilentEncode args.event.Address ≠ "")
    (hTopics : args.event.Topics = topic0 :: topic1 :: topic2 :: topic3 :: rest)
    (hnonce : bigIntUint64 (bigIntSetBytes topic1) = 0) :
    nftsPropertiesProc.processEvent npp conv args = .ok ({ processed := false }, args) := by
  simp [nftsPropertiesProc.processEvent, haddr, hTopics, topicAt, hnonce, minTopicsUpdate]

theorem nftsPropertiesProc_processEvent_claims (npp : nftsPropertiesProc)
    (conv : Converters) (args : argsProcessEvent SharedCollections)
    (topic0 topic1 topic2 topic3 : Bytes) (rest : List Bytes)
    (hid : npp.propertiesChangeOperations.contains (bytesToString args.event.Identifier) = true)
    (haddr : npp.pubKeyConverter.SilentEncode args.event.Address ≠ "")
    (hTopics : args.event.Topics = topic0 :: topic1 :: topic2 :: topic3 :: rest)
    (hnonce : bigIntUint64 (bigIntSetBytes topic1) ≠ 0) :
    ∃ updateNFT, nftsPropertiesProc.processEvent npp conv args
      = .ok ({ processed := true, updatePropNFT := some updateNFT }, args) := by
  simp only [nftsPropertiesProc.processEvent, hid, haddr, hTopics, topicAt, topicsFrom,
    List.getElem?_cons_zero, List.getElem?_cons_succ, hnonce, Bool.not_true, Bool.false_eq_true,
    if_false, minTopicsUpdate, List.length_cons]
  have h1 : ¬ (rest.length + 1 + 1 + 1 + 1 = 1) := by omega
  have h2 : ¬ (rest.length + 1 + 1 + 1 + 1 < 4) := by omega
  have h3 : 3 ≤ rest.length + 1 + 1 + 1 + 1 := by omega
  simp only [h1, h2, h3, if_false, if_true]
  split_ifs <;> exact ⟨_, rfl⟩

theorem bigIntSetBytes_foldl_lt (b : Bytes) (acc : Nat) :
    b.foldl (fun acc x => acc * 256 + x % 256) acc < (acc + 1) * 256 ^ b.length := by
  induction b generalizing acc with
  | nil => simp
  | cons x rest ih =>
    simp only [List.foldl_cons, List.length_cons]
    have h1 := ih (acc * 256 + x % 256)
    have h2 : x % 256 < 256 := Nat.mod_lt _ (by decide)
    have h3 : (acc * 256 + x % 256 + 1) * 256 ^ rest.length
        ≤ ((acc + 1) * 256) * 256 ^ rest.length :=
      Nat.mul_le_mul_right _ (by omega)
    calc List.foldl (fun acc x => acc * 256 + x % 256) (acc * 256 + x % 256) rest
        < (acc * 256 + x % 256 + 1) * 256 ^ rest.length := h1
      _ ≤ ((acc + 1) * 256) * 256 ^ rest.length := h3
      _ = (acc + 1) * 256 ^ (rest.length + 1) := by rw [Nat.pow_succ]; ring

theorem bigIntSetBytes_lt_of_length_le (b : Bytes) (h : b.length ≤ 8) :
    bigIntSetBytes b < 2 ^ 64 := by
  have h1 := bigIntSetBytes_foldl_lt b 0
  have h2 : 256 ^ b.length ≤ 256 ^ 8 := Nat.pow_le_pow_right (by decide) h
  have h3 : (256 : Nat) ^ 8 = 2 ^ 64 := by norm_num
  unfold bigIntSetBytes
  omega

/-- C17, as stated, fails: a burn event with four topics whose nonce topic is
the nine bytes 01 00 00 00 00 00 00 00 00 carries the big-endian integer 2^64,
which is not zero, and `nftsProcessor.processEvent` still treats it as fungible
(not claimed, nothing recorded), because it looks at the low 64 bits only. -/
theorem nft_handler_long_nonce_counterexample :
    4 ≤ exampleBurnLongNonce.Topics.length ∧
    (newNFTsProcessor examplePubkeyConverter exampleMarshalizer).nftOperationsIdentifiers.contains
      (bytesToString exampleBurnLongNonce.Identifier) = true ∧
    bigIntSetBytes [1, 0, 0, 0, 0, 0, 0, 0, 0] = 2 ^ 64 ∧
    bigIntSetBytes [1, 0, 0, 0, 0, 0, 0, 0, 0] ≠ 0 ∧
    nftsProcessor.processEvent (newNFTsProcessor examplePubkeyConverter exampleMarshalizer)
        exampleExternals exampleConverters (exampleArgs exampleBurnLongNonce)
      = .ok ({ processed := false }, exampleArgs exampleBurnLongNonce) := by
  refine ⟨by decide, by decide, by decide, by decide, ?_⟩
  exact nftsProcessor_processEvent_fungible _ _ _ _ (strBytes "NFT-abcd")
    [1, 0, 0, 0, 0, 0, 0, 0, 0] [[1], [9, 9]] rfl (by decide)

/-- C17, amended: for an event with at least 4 topics whose identifier is
recognized by `nftsProcessor`, or by `nftsPropertiesProc` with an encodable
address, the handler treats the event as fungible (returns not-claimed and leaves
the collections as they were) when the low 64 bits of the big-endian integer of
`topics[1]`, which is what `Uint64()` returns, are zero, and claims the event
when they are not zero. For a nonce topic of at most 8 bytes that is the integer
itself. -/
theorem nft_handlers_fungible_iff_low64_zero
    (np : nftsProcessor) (npp : nftsPropertiesProc) (ext : Externals) (conv : Converters)
    (args1 args2 : argsProcessEvent SharedCollections)
    (a0 a1 a2 a3 b0 b1 b2 b3 : Bytes) (ra rb : List Bytes)
    (hid1 : np.nftOperationsIdentifiers.contains (bytesToString args1.event.Identifier) = true)
    (hTopics1 : args1.event.Topics = a0 :: a1 :: a2 :: a3 :: ra)
    (hid2 : npp.propertiesChangeOperations.contains (bytesToString args2.event.Identifier) = true)
    (haddr2 : npp.pubKeyConverter.SilentEncode args2.event.Address ≠ "")
    (hTopics2 : args2.event.Topics = b0 :: b1 :: b2 :: b3 :: rb) :
    (bigIntSetBytes a1 % 2 ^ 64 = 0 →
      nftsProcessor.processEvent np ext conv args1 = .ok ({ processed := false }, args1)) ∧
    (bigIntSetBytes a1 % 2 ^ 64 ≠ 0 →
      ∃ args', nftsProcessor.processEvent np ext conv args1
        = .ok ({ processed := true }, args')) ∧
    (bigIntSetBytes b1 % 2 ^ 64 = 0 →
      nftsPropertiesProc.processEvent npp conv args2 = .ok ({ processed := false }, args2)) ∧
    (bigIntSetBytes b1 % 2 ^ 64 ≠ 0 →
      ∃ updateNFT, nftsPropertiesProc.processEvent npp conv args2
        = .ok ({ processed := true, updatePropNFT := some updateNFT }, args2)) ∧
    (∀ nonceTopic : Bytes, nonceTopic.length ≤ 8 →
      bigIntSetBytes nonceTopic % 2 ^ 64 = bigIntSetBytes nonceTopic) := by
  refine ⟨?_, ?_, ?_, ?_, fun b hb => Nat.mod_eq_of_lt (bigIntSetBytes_lt_of_length_le b hb)⟩
  · intro h
    exact nftsProcessor_processEvent_fungible np ext conv args1 a0 a1 _ hTopics1 h
  · intro h
    exact nftsProcessor_processEvent_claims np ext conv args1 a0 a1 a2 a3 ra hid1 hTopics1 h
  · intro h
    exact nftsPropertiesProc_processEvent_fungible npp conv args2 b0 b1 b2 b3 rb haddr2 hTopics2 h
  · intro h
    exact nftsPropertiesProc_processEvent_claims npp conv args2 b0 b1 b2 b3 rb hid2 haddr2
      hTopics2 h

/-- Witness of the amended C17: the burn event with the nine-byte nonce is
treated as fungible, the add-URI event with nonce 2 is claimed. -/
theorem nft_handlers_fungible_iff_low64_zero_witness :
    ((newNFTsProcessor examplePubkeyConverter exampleMarshalizer).nftOperationsIdentifiers.contains
        (bytesToString exampleBurnLongNonce.Identifier) = true ∧
      (newNFTsPropertiesProcessor examplePubkeyConverter).propertiesChangeOperations.contains
        (bytesToString exampleAddURIEvent.Identifier) = true ∧
      examplePubkeyConverter.SilentEncode exampleAddURIEvent.Address ≠ "" ∧
      bigIntSetBytes [1, 0, 0, 0, 0, 0, 0, 0, 0] % 2 ^ 64 = 0 ∧
      bigIntSetBytes [2] % 2 ^ 64 ≠ 0) ∧
    nftsProcessor.processEvent (newNFTsProcessor examplePubkeyConverter exampleMarshalizer)
        exampleExternals exampleConverters (exampleArgs exampleBurnLongNonce)
      = .ok ({ processed := false }, exampleArgs exampleBurnLongNonce) ∧
    ∃ updateNFT,
      nftsPropertiesProc.processEvent (newNFTsPropertiesProcessor examplePubkeyConverter)
        exampleConverters (exampleArgs exampleAddURIEvent)
      = .ok ({ processed := true, updatePropNFT := some updateNFT },
             exampleArgs exampleAddURIEvent) := by
  have h := nft_handlers_fungible_iff_low64_zero
    (newNFTsProcessor examplePubkeyConverter exampleMarshalizer)
    (newNFTsPropertiesProcessor examplePubkeyConverter) exampleExternals exampleConverters
    (exampleArgs exampleBurnLongNonce) (exampleArgs exampleAddURIEvent)
    (strBytes "NFT-abcd") [1, 0, 0, 0, 0, 0, 0, 0, 0] [1] [9, 9]
    (strBytes "NFT-abcd") [2] [1] [117, 114, 105, 49] [] []
    (by decide) rfl (by decide) (by decide) rfl
  exact ⟨⟨by decide, by decide, by decide, by decide, by decide⟩, h.1 (by decide),
    h.2.2.2.1 (by decide)⟩

/-! ### The URI flags -/

theorem nonEmptyURIs_eq_true_iff (uris : List Bytes) :
    nonEmptyURIs uris = true ↔ ∃ uri ∈ uris, 0 < uri.length := by
  induction uris with
  | nil => simp [nonEmptyURIs]
  | cons uri rest ih =>
    by_cases h : uri.length > 0
    · simp only [nonEmptyURIs, h, if_true, true_iff]
      exact ⟨uri, List.mem_cons_self _ _, h⟩
    · simp only [nonEmptyURIs, h, if_false, ih, List.mem_cons, Bool.false_eq_true]
      constructor
      · rintro ⟨u, hu, hlen⟩
        exact ⟨u, Or.inr hu, hlen⟩
      · rintro ⟨u, hu | hu, hlen⟩
        · subst hu
          exact absurd hlen h
        · exact ⟨u, hu, hlen⟩

theorem stringsHasPrefix_iff (s : Bytes) (start : String) :
    stringsHasPrefix s start = true ↔ ∃ t, s = strBytes start ++ t := by
  unfold stringsHasPrefix
  rw [ List.isPrefixOf_iff_prefix]
  constructor
  · rintro ⟨t, ht⟩
    exact ⟨t, ht.symm⟩
  · rintro ⟨t, ht⟩
    exact ⟨t, ht.symm⟩

theorem stringsContains_iff (s : Bytes) (substr : String) :
    stringsContains s substr = true ↔ ∃ a b, s = a ++ strBytes substr ++ b := by
  induction s with
  | nil =>
    simp only [stringsContains]
    rw [ List.isPrefixOf_iff_prefix]
    constructor
    · rintro ⟨t, ht⟩
      exact ⟨[], t, by simpa using ht.symm⟩
    · rintro ⟨a, b, hab⟩
      have h1 := congrArg List.length hab
      simp at h1
      refine ⟨[], ?_⟩
      have h2 : strBytes substr = [] := List.eq_nil_of_length_eq_zero (by omega)
      simp [h2]
  | cons x rest ih =>
    simp only [stringsContains, Bool.or_eq_true, ih]
    rw [ List.isPrefixOf_iff_prefix]
    constructor
    · rintro (⟨t, ht⟩ | ⟨a, b, hab⟩)
      · exact ⟨[], t, by simpa using ht.symm⟩
      · exact ⟨x :: a, b, by simp [hab]⟩
    · rintro ⟨a, b, hab⟩
      cases a with
      | nil => exact Or.inl ⟨b, by simpa using hab.symm⟩
      | cons y a =>
        simp only [List.cons_append, List.cons.injEq] at hab
        exact Or.inr ⟨a, b, hab.2⟩

theorem whiteListedStorage_eq_true_iff (uris : List Bytes) :
    whiteListedStorage uris = true ↔
      ∃ uri rest, uris = uri :: rest ∧
        ((∃ t, uri = strBytes "https://ipfs.io/ipfs/" ++ t) ∨
         (∃ t, uri = strBytes "ipfs://" ++ t) ∨
         (∃ t, uri = strBytes "https://dweb.link/ipfs" ++ t) ∨
         ((∃ t, uri = strBytes "https://" ++ t) ∧
          ∃ a b, uri = a ++ strBytes ".pinata.cloud/ipfs" ++ b)) := by
  cases uris with
  | nil => simp [whiteListedStorage]
  | cons uri rest =>
    simp only [whiteListedStorage, Bool.or_eq_true, Bool.and_eq_true, stringsHasPrefix_iff,
      stringsContains_iff, ipfsURL, ipfsNoSecurePrefix, dwebPrefixURL, pinataCloud, secureURL]
    constructor
    · intro h
      refine ⟨uri, rest, rfl, ?_⟩
      tauto
    · rintro ⟨uri2, rest2, heq, h⟩
      have h1 : uri = uri2 := (List.cons.inj heq).1
      subst h1
      tauto

/-! ### The create event -/

theorem nftsProcessor_processEvent_create (pubKeyConverter : PubkeyConverter)
    (marshalizer : Marshalizer) (ext : Externals) (conv : Converters)
    (args : argsProcessEvent SharedCollections)
    (topic0 topic1 topic2 topic3 : Bytes) (rest : List Bytes) (dcdtToken : DCDigitalToken)
    (hid : bytesToString args.event.Identifier = BuiltInFunctionDCDTNFTCreate)
    (hTopics : args.event.Topics = topic0 :: topic1 :: topic2 :: topic3 :: rest)
    (hnonce : bigIntUint64 (bigIntSetBytes topic1) ≠ 0)
    (hUnmarshal : marshalizer.Unmarshal topic3 = .ok dcdtToken) :
    nftsProcessor.processEvent (newNFTsProcessor pubKeyConverter marshalizer) ext conv args
      = .ok ({ tokenInfo := none, delegator := none, updatePropNFT := none, processed := true },
          if ext.ComputeShardID args.event.Address args.numOfShards = args.selfShardID then
            { args with shared :=
                { tokens := args.shared.tokens ++
                    [{ Token := bytesToString topic0
                       Identifier := conv.ComputeTokenIdentifier (bytesToString topic0)
                         (bigIntUint64 (bigIntSetBytes topic1))
                       Timestamp := timeDuration args.timestamp
                       Nonce := bigIntUint64 (bigIntSetBytes topic1)
                       Data := PrepareTokenMetaData conv
                         ((newNFTsProcessor pubKeyConverter marshalizer).convertMetaData
                           dcdtToken.TokenMetaData) }]
                  tokensSupply := args.shared.tokensSupply
                  tokenRolesAndProperties := args.shared.tokenRolesAndProperties } }
          else args) := by
  have hne1 : BuiltInFunctionDCDTNFTCreate ≠ BuiltInFunctionDCDTNFTBurn := by decide
  have hne2 : BuiltInFunctionDCDTNFTCreate ≠ BuiltInFunctionDCDTWipe := by decide
  have hne3 : BuiltInFunctionDCDTNFTCreate ≠ BuiltInFunctionDCDTNFTTransfer := by decide
  have hne4 : BuiltInFunctionDCDTNFTCreate ≠ BuiltInFunctionMultiDCDTNFTTransfer := by decide
  have h4 : ¬ (rest.length + 1 + 1 + 1 + 1 < 4) := by omega
  by_cases hshard : ext.ComputeShardID args.event.Address args.numOfShards = args.selfShardID
  · simp [nftsProcessor.processEvent, newNFTsProcessor, hid, hTopics, topicAt, hnonce, hshard,
      nftsProcessor.processNFTEventOnSender, hne1, hne2, hne3, hne4,
      numTopicsWithReceiverAddress, hUnmarshal, nftsProcessor.shouldAddReceiverData, h4]
  · simp [nftsProcessor.processEvent, newNFTsProcessor, hid, hTopics, topicAt, hnonce, hshard,
      hne1, hne2, hne3, hne4, nftsProcessor.shouldAddReceiverData]

/-- C18. For a DCDTNFTCreate event with at least 4 topics, a nonce whose
`Uint64()` (the low 64 bits of the big-endian integer of `topics[1]`) is not
zero and a `topics[3]` that unmarshals as a token, `nftsProcessor.processEvent`
returns `processed = true`. When the shard of the event address is
`selfShardID` it hands exactly one record to the token-create collection: token
`topics[0]`, the identifier computed from the token and the nonce, the block
timestamp (the unsigned 64-bit value read as a signed one), the nonce, and the
prepared metadata. Otherwise it hands none. In both cases the supply-change
collection and the other collections stay as they were. The prepared metadata is
absent when the token carries none; else its name is the truncated name, its
creator the encoded creator address, royalties and hash are the token's, the
URIs and the attributes are the token's, each truncated before base64, tags
and metadata are extracted from the attributes, NonEmptyURIs holds exactly when
some URI is not empty, and WhiteListedStorage exactly when the first URI has one
of the trusted forms. -/
theorem nftsProcessor_create_event (pubKeyConverter : PubkeyConverter)
    (marshalizer : Marshalizer) (ext : Externals) (conv : Converters)
    (args : argsProcessEvent SharedCollections)
    (topic0 topic1 topic2 topic3 : Bytes) (rest : List Bytes) (dcdtToken : DCDigitalToken)
    (hid : bytesToString args.event.Identifier = "DCDTNFTCreate")
    (hTopics : args.event.Topics = topic0 :: topic1 :: topic2 :: topic3 :: rest)
    (hnonce : bigIntSetBytes topic1 % 2 ^ 64 ≠ 0)
    (hUnmarshal : marshalizer.Unmarshal topic3 = .ok dcdtToken) :
    ∃ data : Option TokenMetaData,
      nftsProcessor.processEvent (newNFTsProcessor pubKeyConverter marshalizer) ext conv args
        = .ok ({ tokenInfo := none, delegator := none, updatePropNFT := none, processed := true },
            if ext.ComputeShardID args.event.Address args.numOfShards = args.selfShardID then
              { args with shared :=
                  { tokens := args.shared.tokens ++
                      [{ Token := bytesToString topic0
                         Identifier := conv.ComputeTokenIdentifier (bytesToString topic0)
                           (bigIntSetBytes topic1 % 2 ^ 64)
                         Timestamp :=
                           if args.timestamp % 2 ^ 64 < 2 ^ 63 then
                             ((args.timestamp % 2 ^ 64 : Nat) : Int)
                           else ((args.timestamp % 2 ^ 64 : Nat) : Int) - 2 ^ 64
                         Nonce := bigIntSetBytes topic1 % 2 ^ 64
                         Data := data }]
                    tokensSupply := args.shared.tokensSupply
                    tokenRolesAndProperties := args.shared.tokenRolesAndProperties } }
            else args) ∧
      (dcdtToken.TokenMetaData = none → data = none) ∧
      (∀ md : DcdtMetaData, dcdtToken.TokenMetaData = some md →
        ∃ d : TokenMetaData, data = some d ∧
          d.Name = conv.TruncateFieldIfExceedsMaxLength (bytesToString md.Name) ∧
          d.Creator = pubKeyConverter.Encode md.Creator ∧
          d.Royalties = md.Royalties ∧
          d.Hash = md.Hash ∧
          d.URIs = md.URIs.map (fun uri =>
            strBytes (conv.TruncateFieldIfExceedsMaxLengthBase64 (bytesToString uri))) ∧
          d.Attributes =
            strBytes (conv.TruncateFieldIfExceedsMaxLengthBase64 (bytesToString md.Attributes)) ∧
          d.Tags = conv.TruncateSliceElementsIfExceedsMaxLength
            (conv.ExtractTagsFromAttributes md.Attributes) ∧
          d.MetaData = conv.ExtractMetaDataFromAttributes md.Attributes ∧
          (d.NonEmptyURIs = true ↔ ∃ uri ∈ md.URIs, 0 < uri.length) ∧
          (d.WhiteListedStorage = true ↔
            ∃ uri rest, md.URIs = uri :: rest ∧
              ((∃ t, uri = strBytes "https://ipfs.io/ipfs/" ++ t) ∨
               (∃ t, uri = strBytes "ipfs://" ++ t) ∨
               (∃ t, uri = strBytes "https://dweb.link/ipfs" ++ t) ∨
               ((∃ t, uri = strBytes "https://" ++ t) ∧
                ∃ a b, uri = a ++ strBytes ".pinata.cloud/ipfs" ++ b)))) := by
  refine ⟨PrepareTokenMetaData conv
    ((newNFTsProcessor pubKeyConverter marshalizer).convertMetaData dcdtToken.TokenMetaData),
    ?_, ?_, ?_⟩
  · exact nftsProcessor_processEvent_create pubKeyConverter marshalizer ext conv args
      topic0 topic1 topic2 topic3 rest dcdtToken hid hTopics hnonce hUnmarshal
  · intro h
    simp [h, nftsProcessor.convertMetaData, PrepareTokenMetaData]
  · intro md h
    refine ⟨
      { Name := conv.TruncateFieldIfExceedsMaxLength (bytesToString md.Name)
        Creator := pubKeyConverter.Encode md.Creator
        Royalties := md.Royalties
        Hash := md.Hash
        URIs := md.URIs.map (fun uri =>
          strBytes (conv.TruncateFieldIfExceedsMaxLengthBase64 (bytesToString uri)))
        Attributes :=
          strBytes (conv.TruncateFieldIfExceedsMaxLengthBase64 (bytesToString md.Attributes))
        Tags := conv.TruncateSliceElementsIfExceedsMaxLength
          (conv.ExtractTagsFromAttributes md.Attributes)
        MetaData := conv.ExtractMetaDataFromAttributes md.Attributes
        NonEmptyURIs := nonEmptyURIs md.URIs
        WhiteListedStorage := whiteListedStorage md.URIs },
      by simp only [h, nftsProcessor.convertMetaData, PrepareTokenMetaData, newNFTsProcessor],
      rfl, rfl, rfl, rfl, rfl, rfl, rfl, rfl, ?_, ?_⟩
    · exact nonEmptyURIs_eq_true_iff md.URIs
    · exact whiteListedStorage_eq_true_iff md.URIs

/-- Witness of C18: the example create event, emitted by an address of shard 1
and indexed on shard 1 at the block timestamp 5040, whose token carries the name
"nft", the creator 01 02, royalties 500, the hash 07 and the URI "ipfs://x": one
record with that metadata is handed to the token-create collection and none to
the supply-change collection. -/
theorem nftsProcessor_create_event_witness :
    (bytesToString exampleCreateEvent.Identifier = "DCDTNFTCreate" ∧
      bigIntSetBytes [2] % 2 ^ 64 ≠ 0 ∧
      exampleMetaDataMarshalizer.Unmarshal [9, 9] = .ok exampleCreatedToken ∧
      exampleExternals.ComputeShardID exampleCreateEvent.Address 3 = 1) ∧
    ∃ d : TokenMetaData,
      (nftsProcessor.processEvent (newNFTsProcessor examplePubkeyConverter exampleMetaDataMarshalizer)
          exampleExternals exampleConverters (exampleArgs exampleCreateEvent)).map
        (fun r => (r.1.processed, r.2.shared.tokens, r.2.shared.tokensSupply)) =
        .ok (true,
          [{ Token := "NFT-abcd", Identifier := "NFT-abcd-2", Timestamp := 5040, Nonce := 2,
             Data := some d }],
          []) ∧
      d.Name = "nft" ∧ d.Creator = "0102" ∧ d.Royalties = 500 ∧ d.Hash = [7] ∧
      d.URIs = [strBytes "ipfs://x"] ∧ d.Attributes = [9, 9] ∧
      d.NonEmptyURIs = true ∧ d.WhiteListedStorage = true := by
  refine ⟨⟨by decide, by decide, rfl, by decide⟩, ?_⟩
  obtain ⟨data, h, _, hsome⟩ :=
    nftsProcessor_create_event examplePubkeyConverter exampleMetaDataMarshalizer exampleExternals
      exampleConverters (exampleArgs exampleCreateEvent) (strBytes "NFT-abcd") [2] [1] [9, 9] []
      exampleCreatedToken (by decide) rfl (by decide) rfl
  obtain ⟨d, hd, hName, hCreator, hRoyalties, hHash, hURIs, hAttributes, _, _, hNonEmpty,
    hWhiteListed⟩ := hsome exampleCreatedMetaData rfl
  subst hd
  refine ⟨d, ?_, ?_, ?_, hRoyalties, hHash, ?_, ?_, ?_, ?_⟩
  · rw [h]
    rfl
  · rw [hName]
    decide
  · rw [hCreator]
    decide
  · rw [hURIs]
    decide
  · rw [hAttributes]
    decide
  · exact hNonEmpty.mpr ⟨strBytes "ipfs://x", by decide, by decide⟩
  · exact hWhiteListed.mpr ⟨strBytes "ipfs://x", [], rfl, Or.inr (Or.inl ⟨strBytes "x", by decide⟩)⟩

/-! ### Token balances -/

theorem mapGet?_mapSet_same {α : Type} (m : List (String × α)) (k : String) (v : α) :
    mapGet? (mapSet m k v) k = some v := by
  induction m with
  | nil => simp [mapSet, mapGet?]
  | cons p rest ih =>
    obtain ⟨k', v'⟩ := p
    by_cases h : k' = k
    · simp [mapSet, mapGet?, h]
    · simp [mapSet, mapGet?, h, ih]

theorem mapGet?_mapSet_isSome {α : Type} (m : List (String × α)) (k k2 : String) (v : α)
    (h : (mapGet? m k2).isSome = true) : (mapGet? (mapSet m k v) k2).isSome = true := by
  by_cases hk : k2 = k
  · subst hk
    simp [mapGet?_mapSet_same]
  · induction m with
    | nil => simp [mapGet?] at h
    | cons p rest ih =>
      obtain ⟨k', v'⟩ := p
      by_cases h1 : k' = k
      · subst h1
        have hne : ¬ k' = k2 := fun e => hk e.symm
        simp [mapGet?, hne] at h
        simp [mapSet, mapGet?, hne, h]
      · by_cases h2 : k' = k2
        · subst h2
          simp [mapSet, mapGet?, h1]
        · simp [mapGet?, h2] at h
          simp [mapSet, mapGet?, h1, h2, ih h]

theorem foldl_last_match_cases {α : Type} (p : α → Prop) [DecidablePred p] (l : List α)
    (init : α) :
    l.foldl (fun acc x => if p x then x else acc) init = init ∨
    ∃ x ∈ l, p x ∧ l.foldl (fun acc x => if p x then x else acc) init = x := by
  induction l generalizing init with
  | nil => exact Or.inl rfl
  | cons y rest ih =>
    simp only [List.foldl_cons]
    by_cases hy : p y
    · simp only [hy, if_true]
      rcases ih y with h | ⟨x, hx, hpx, hfx⟩
      · exact Or.inr ⟨y, List.mem_cons_self y rest, hy, h⟩
      · exact Or.inr ⟨x, List.mem_cons_of_mem y hx, hpx, hfx⟩
    · simp only [hy, if_false]
      rcases ih init with h | ⟨x, hx, hpx, hfx⟩
      · exact Or.inl h
      · exact Or.inr ⟨x, List.mem_cons_of_mem y hx, hpx, hfx⟩

theorem getDCDTInfo_ok (conv : Converters) (accountDCDT : AccountDCDT) :
    ∃ r, getDCDTInfo conv accountDCDT = .ok r := by
  by_cases h1 : accountDCDT.TokenIdentifier = ""
  · exact ⟨(0, "", none), by simp [getDCDTInfo, h1]⟩
  · by_cases h2 : (accountDCDT.IsNFTOperation && decide (accountDCDT.NFTNonce = 0)) = true
    · exact ⟨(0, "", none), by simp only [getDCDTInfo, h1, h2, if_false, if_true]⟩
    · cases h3 : bigIntSetString (findAccountTokenData accountDCDT).Balance with
      | none =>
        exact ⟨(0, "", none), by
          simp only [getDCDTInfo, h1, h2, h3, if_false, Bool.false_eq_true]⟩
      | some value =>
        exact ⟨(value, (findAccountTokenData accountDCDT).Properties,
          PrepareTokenMetaData conv (findAccountTokenData accountDCDT).MetaData), by
          simp only [getDCDTInfo, h1, h2, h3, if_false, Bool.false_eq_true]⟩

theorem getDCDTInfo_zero (conv : Converters) (accountDCDT : AccountDCDT)
    (hbad : ∀ t ∈ accountDCDT.Account.Tokens,
      t.Identifier = accountDCDT.TokenIdentifier → t.Nonce = accountDCDT.NFTNonce →
      bigIntSetString t.Balance = none) :
    getDCDTInfo conv accountDCDT = .ok (0, "", none) := by
  have hfind : bigIntSetString (findAccountTokenData accountDCDT).Balance = none := by
    rcases foldl_last_match_cases
      (fun t : AccountTokenData =>
        t.Identifier = accountDCDT.TokenIdentifier ∧ t.Nonce = accountDCDT.NFTNonce)
      accountDCDT.Account.Tokens {} with h | ⟨t, ht, hp, h⟩
    · unfold findAccountTokenData
      rw [h]
      rfl
    · unfold findAccountTokenData
      rw [h]
      exact hbad t ht hp.1 hp.2
  by_cases h1 : accountDCDT.TokenIdentifier = ""
  · simp [getDCDTInfo, h1]
  · by_cases h2 : (accountDCDT.IsNFTOperation && decide (accountDCDT.NFTNonce = 0)) = true
    · simp only [getDCDTInfo, h1, h2, if_false, if_true]
    · simp only [getDCDTInfo, h1, h2, hfind, if_false, Bool.false_eq_true]

theorem accountsMapDCDTTurn_map (pubKeyConverter : PubkeyConverter) (ext : Externals)
    (conv : Converters) (timestamp shardID : Nat) (st : AccountsDCDTState)
    (accountDCDT : AccountDCDT) (addressBytes : Bytes) (balance : Int) (properties : String)
    (tokenMetaData : Option TokenMetaData)
    (hdec : pubKeyConverter.Decode accountDCDT.Account.Address = .ok addressBytes)
    (hinfo : getDCDTInfo conv accountDCDT = .ok (balance, properties, tokenMetaData)) :
    (accountsMapDCDTTurn pubKeyConverter ext conv timestamp shardID st accountDCDT).accountsDCDTMap
      = mapSet st.accountsDCDTMap (accountDCDTKey accountDCDT)
          (accountDCDTEntry ext conv timestamp shardID accountDCDT addressBytes balance properties
            tokenMetaData) := by
  simp only [accountsMapDCDTTurn, hdec, hinfo]
  split_ifs <;> rfl

theorem accountsMapDCDTTurn_keeps_keys (pubKeyConverter : PubkeyConverter) (ext : Externals)
    (conv : Converters) (timestamp shardID : Nat) (st : AccountsDCDTState)
    (accountDCDT : AccountDCDT) (k : String)
    (h : (mapGet? st.accountsDCDTMap k).isSome = true) :
    (mapGet? (accountsMapDCDTTurn pubKeyConverter ext conv timestamp shardID st
      accountDCDT).accountsDCDTMap k).isSome = true := by
  cases hdec : pubKeyConverter.Decode accountDCDT.Account.Address with
  | error e => simpa [accountsMapDCDTTurn, hdec] using h
  | ok addressBytes =>
    obtain ⟨⟨balance, properties, tokenMetaData⟩, hr⟩ := getDCDTInfo_ok conv accountDCDT
    rw [accountsMapDCDTTurn_map _ _ _ _ _ _ _ addressBytes balance properties tokenMetaData hdec hr]
    exact mapGet?_mapSet_isSome _ _ _ _ h

theorem accountsMapDCDT_foldl_keeps_keys (pubKeyConverter : PubkeyConverter) (ext : Externals)
    (conv : Converters) (timestamp shardID : Nat) (accounts : List AccountDCDT)
    (st : AccountsDCDTState) (k : String)
    (h : (mapGet? st.accountsDCDTMap k).isSome = true) :
    (mapGet? (accounts.foldl (accountsMapDCDTTurn pubKeyConverter ext conv timestamp shardID)
      st).accountsDCDTMap k).isSome = true := by
  induction accounts generalizing st with
  | nil => exact h
  | cons a rest ih =>
    simp only [List.foldl_cons]
    exact ih _ (accountsMapDCDTTurn_keeps_keys _ _ _ _ _ st a k h)

theorem accountDCDTEntry_fields (ext : Externals) (conv : Converters) (timestamp shardID : Nat)
    (accountDCDT : AccountDCDT) (addressBytes : Bytes) (balance : Int) (properties : String)
    (tokenMetaData : Option TokenMetaData) :
    (accountDCDTEntry ext conv timestamp shardID accountDCDT addressBytes balance properties
        tokenMetaData).Address = accountDCDT.Account.Address ∧
    (accountDCDTEntry ext conv timestamp shardID accountDCDT addressBytes balance properties
        tokenMetaData).TokenName = accountDCDT.TokenIdentifier ∧
    (accountDCDTEntry ext conv timestamp shardID accountDCDT addressBytes balance properties
        tokenMetaData).TokenNonce = accountDCDT.NFTNonce ∧
    (accountDCDTEntry ext conv timestamp shardID accountDCDT addressBytes balance properties
        tokenMetaData).Balance = bigIntString balance := by
  unfold accountDCDTEntry
  by_cases h : accountDCDT.NFTNonce = 0 <;> simp [h]

/-- C12. `getDCDTInfo` never returns an error. For a token record whose address
decodes, wherever it stands in the list, the map `PrepareAccountsMapDCDT` returns
has an entry under the record's key. And the entry the record's own turn writes
(the one in the map when the record is the last of the list) carries the
record's address, token and nonce, and has Balance "0" when no token entry of
the account matches the record's (identifier, nonce) or every matching entry has
a Balance that is not a base-10 integer. -/
theorem prepareAccountsMapDCDT_keeps_entry (pubKeyConverter : PubkeyConverter)
    (ext : Externals) (conv : Converters) (timestamp shardID : Nat)
    (tagsCount : List (List String)) (before after : List AccountDCDT)
    (accountDCDT : AccountDCDT) (addressBytes : Bytes)
    (hdec : pubKeyConverter.Decode accountDCDT.Account.Address = .ok addressBytes) :
    (∀ x : AccountDCDT, ∃ r, getDCDTInfo conv x = .ok r) ∧
    (mapGet? (PrepareAccountsMapDCDT pubKeyConverter ext conv timestamp
        (before ++ accountDCDT :: after) tagsCount shardID).accountsDCDTMap
        (accountDCDTKey accountDCDT)).isSome = true ∧
    ∃ acc : AccountInfo,
      mapGet? (PrepareAccountsMapDCDT pubKeyConverter ext conv timestamp
        (before ++ [accountDCDT]) tagsCount shardID).accountsDCDTMap
        (accountDCDTKey accountDCDT) = some acc ∧
      acc.Address = accountDCDT.Account.Address ∧
      acc.TokenName = accountDCDT.TokenIdentifier ∧
      acc.TokenNonce = accountDCDT.NFTNonce ∧
      ((∀ t ∈ accountDCDT.Account.Tokens,
          t.Identifier = accountDCDT.TokenIdentifier → t.Nonce = accountDCDT.NFTNonce →
          bigIntSetString t.Balance = none) → acc.Balance = "0") := by
  obtain ⟨⟨balance, properties, tokenMetaData⟩, hr⟩ := getDCDTInfo_ok conv accountDCDT
  have hfields := accountDCDTEntry_fields ext conv timestamp shardID accountDCDT addressBytes
    balance properties tokenMetaData
  refine ⟨getDCDTInfo_ok conv, ?_, ?_⟩
  · simp only [PrepareAccountsMapDCDT, List.foldl_append, List.foldl_cons]
    apply accountsMapDCDT_foldl_keeps_keys
    rw [accountsMapDCDTTurn_map _ _ _ _ _ _ _ addressBytes balance properties tokenMetaData hdec hr]
    simp [mapGet?_mapSet_same]
  · refine ⟨accountDCDTEntry ext conv timestamp shardID accountDCDT addressBytes balance
      properties tokenMetaData, ?_, hfields.1, hfields.2.1, hfields.2.2.1, ?_⟩
    · simp only [PrepareAccountsMapDCDT, List.foldl_append, List.foldl_cons, List.foldl_nil]
      rw [accountsMapDCDTTurn_map _ _ _ _ _ _ _ addressBytes balance properties tokenMetaData hdec
        hr]
      exact mapGet?_mapSet_same _ _ _
    · intro hbad
      have hz := getDCDTInfo_zero conv accountDCDT hbad
      rw [hr] at hz
      have hb : balance = 0 := by
        injection hz with h1
        exact congrArg Prod.fst h1
      rw [hfields.2.2.2, hb]
      rfl

/-- Witness of C12: the record of an account whose only token entry has the
balance "12x". -/
theorem prepareAccountsMapDCDT_keeps_entry_witness :
    (examplePubkeyConverter.Decode exampleRecordBadBalance.Account.Address
        = .ok (strBytes "moa1rcv") ∧
      bigIntSetString "12x" = none) ∧
    ∃ acc : AccountInfo,
      mapGet? (PrepareAccountsMapDCDT examplePubkeyConverter exampleExternals exampleConverters
        5040 [exampleRecordBadBalance] [] 1).accountsDCDTMap "moa1rcv-SEMI-abcd-2" = some acc ∧
      acc.Balance = "0" := by
  refine ⟨⟨rfl, by decide⟩, ?_⟩
  obtain ⟨_, _, acc, hacc, _, _, _, hbal⟩ :=
    prepareAccountsMapDCDT_keeps_entry examplePubkeyConverter exampleExternals exampleConverters
      5040 1 [] [] [] exampleRecordBadBalance (strBytes "moa1rcv") rfl
  refine ⟨acc, ?_, hbal ?_⟩
  · have hk : accountDCDTKey exampleRecordBadBalance = "moa1rcv-SEMI-abcd-2" := by decide
    rw [hk] at hacc
    exact hacc
  · intro t ht _ _
    have : t = { Identifier := "SEMI-abcd", Nonce := 2, Balance := "12x" } := by
      simpa [exampleRecordBadBalance, exampleAccountBadBalance] using ht
    subst this
    decide

/-! ### C29: which transactions take the NFT-transfer merge -/

/-- C29: `isNFTTransferOrMultiTransfer` is true exactly when the sender and
receiver shards are equal and the data field, split on "@", has at least the
minimum number of pieces with first piece `DCDTNFTTransfer` or
`MultiDCDTNFTTransfer`; it is false for every cross-shard transaction; and its
result does not depend on the smart-contract results attached to the
transaction (the test `len(tx.SmartContractResults) < 0` never holds). -/
theorem isNFTTransferOrMultiTransfer_same_shard_and_function (env : TxSerializer)
    (tx : Transaction) :
    (isNFTTransferOrMultiTransfer env tx = true ↔
      tx.SenderShard = tx.ReceiverShard ∧
      env.minNumOfArgumentsNFTTransferORMultiTransfer ≤ (splitOnByte AtSeparator tx.Data).length ∧
      ((splitOnByte AtSeparator tx.Data).head? = some (strBytes "DCDTNFTTransfer") ∨
       (splitOnByte AtSeparator tx.Data).head? = some (strBytes "MultiDCDTNFTTransfer"))) ∧
    (tx.SenderShard ≠ tx.ReceiverShard → isNFTTransferOrMultiTransfer env tx = false) ∧
    (∀ scrs : List ScResult,
      isNFTTransferOrMultiTransfer env { tx with SmartContractResults := scrs } =
        isNFTTransferOrMultiTransfer env tx) := by
  refine ⟨?_, ?_, ?_⟩
  · by_cases hs : tx.SenderShard = tx.ReceiverShard
    · by_cases hl : (splitOnByte AtSeparator tx.Data).length <
          env.minNumOfArgumentsNFTTransferORMultiTransfer
      · simp [isNFTTransferOrMultiTransfer, hs, hl]
      · simp [isNFTTransferOrMultiTransfer, hs, hl, BuiltInFunctionDCDTNFTTransfer,
          BuiltInFunctionMultiDCDTNFTTransfer, Nat.le_of_not_lt hl]
    · simp [isNFTTransferOrMultiTransfer, hs]
  · intro hs
    simp [isNFTTransferOrMultiTransfer, hs]
  · intro scrs
    simp [isNFTTransferOrMultiTransfer]

/-- Witness of C29: a same-shard transaction whose data is
`DCDTNFTTransfer@01@02@03` takes the merge, and the same transaction sent to
another shard does not. -/
theorem isNFTTransferOrMultiTransfer_same_shard_and_function_witness :
    isNFTTransferOrMultiTransfer exampleTxSerializer
      { SenderShard := 1, ReceiverShard := 1,
        Data := strBytes "DCDTNFTTransfer@01@02@03" } = true ∧
    ((1 : Nat) ≠ 2 ∧
      isNFTTransferOrMultiTransfer exampleTxSerializer
        { SenderShard := 1, ReceiverShard := 2,
          Data := strBytes "DCDTNFTTransfer@01@02@03" } = false) :=
  ⟨by decide,
   by decide,
   (isNFTTransferOrMultiTransfer_same_shard_and_function exampleTxSerializer
      { SenderShard := 1, ReceiverShard := 2,
        Data := strBytes "DCDTNFTTransfer@01@02@03" }).2.1 (by decide)⟩

/-! ### C23: the URI flags of `PrepareTokenMetaData` -/

/-- C23: for every token metadata, `PrepareTokenMetaData` returns a record whose
NonEmptyURIs is true exactly when some URI has non-zero length, and whose
WhiteListedStorage is true exactly when the URI list is non-empty and its first
URI starts with "https://ipfs.io/ipfs/", "ipfs://" or "https://dweb.link/ipfs",
or starts with "https://" and contains ".pinata.cloud/ipfs"; the URIs after the
first never affect WhiteListedStorage. -/
theorem prepareTokenMetaData_uri_flags (conv : Converters) (tokenMetadata : AlteredTokenMetaData) :
    (∃ r : TokenMetaData, PrepareTokenMetaData conv (some tokenMetadata) = some r ∧
      (r.NonEmptyURIs = true ↔ ∃ uri ∈ tokenMetadata.URIs, 0 < uri.length) ∧
      (r.WhiteListedStorage = true ↔
        ∃ uri rest, tokenMetadata.URIs = uri :: rest ∧
          ((∃ t, uri = strBytes "https://ipfs.io/ipfs/" ++ t) ∨
           (∃ t, uri = strBytes "ipfs://" ++ t) ∨
           (∃ t, uri = strBytes "https://dweb.link/ipfs" ++ t) ∨
           ((∃ t, uri = strBytes "https://" ++ t) ∧
            ∃ a b, uri = a ++ strBytes ".pinata.cloud/ipfs" ++ b)))) ∧
    (∀ (uri : Bytes) (rest rest2 : List Bytes),
      (PrepareTokenMetaData conv (some { tokenMetadata with URIs := uri :: rest })).map
          (fun r => r.WhiteListedStorage) =
        (PrepareTokenMetaData conv (some { tokenMetadata with URIs := uri :: rest2 })).map
          (fun r => r.WhiteListedStorage)) := by
  refine ⟨⟨_, rfl, ?_, ?_⟩, ?_⟩
  · exact nonEmptyURIs_eq_true_iff _
  · show whiteListedStorage tokenMetadata.URIs = true ↔ _
    cases hu : tokenMetadata.URIs with
    | nil => simp [whiteListedStorage]
    | cons uri rest =>
      simp only [whiteListedStorage, Bool.or_eq_true, Bool.and_eq_true, stringsHasPrefix_iff,
        stringsContains_iff, ipfsURL, ipfsNoSecurePrefix, dwebPrefixURL, pinataCloud, secureURL]
      constructor
      · intro h
        refine ⟨uri, rest, rfl, ?_⟩
        tauto
      · rintro ⟨uri2, rest2, heq, h⟩
        have h1 : uri = uri2 := (List.cons.inj heq).1
        subst h1
        tauto
  · intro uri rest rest2
    rfl

/-! ### C25: the cap before base64 encoding keeps the encoding within the field cap -/

theorem base64Chars_length (b : Bytes) : (base64Chars b).length = 4 * ((b.length + 2) / 3) := by
  induction b using base64Chars.induct with
  | case1 => rfl
  | case2 a => simp [base64Chars]
  | case3 a b => simp [base64Chars]
  | case4 a b c rest ih =>
    simp only [base64Chars, List.length_cons, ih]
    omega

theorem base64Chars_take (k : Nat) (b : Bytes) :
    base64Chars (b.take (3 * k)) = (base64Chars b).take (4 * k) := by
  induction k generalizing b with
  | zero => simp [base64Chars]
  | succ k ih =>
    have h3 : 3 * (k + 1) = 3 * k + 1 + 1 + 1 := by ring
    have h4 : 4 * (k + 1) = 4 * k + 1 + 1 + 1 + 1 := by ring
    rw [h3, h4]
    match b with
    | [] => simp [base64Chars]
    | [a] => simp [base64Chars]
    | [a, b] => simp [base64Chars]
    | a :: b :: c :: rest =>
      simp only [List.take_succ_cons, base64Chars, ih rest]

theorem base64Chars_map_mod (b : Bytes) : base64Chars (b.map fun x => x % 256) = base64Chars b := by
  induction b using base64Chars.induct with
  | case1 => rfl
  | case2 a => simp [base64Chars]
  | case3 a b => simp [base64Chars]
  | case4 a b c rest ih =>
    simp only [List.map_cons, base64Chars, Nat.mod_mod, ih]

/-- C25: every byte string of length at most
`MaxKeywordFieldLengthBeforeBase64Encoding` (22500) has a standard padded
base64 encoding of length at most `MaxFieldLength` (30000); the encoding of `n`
bytes has `4 * ceil(n / 3)` characters. -/
theorem base64_within_field_cap (b : Bytes)
    (h : b.length ≤ MaxKeywordFieldLengthBeforeBase64Encoding) :
    (base64Encode b).length = 4 * ((b.length + 2) / 3) ∧
    (base64Encode b).length ≤ MaxFieldLength := by
  have hl : (base64Encode b).length = 4 * ((b.length + 2) / 3) := base64Chars_length b
  refine ⟨hl, ?_⟩
  rw [hl]
  simp only [MaxKeywordFieldLengthBeforeBase64Encoding] at h
  simp only [MaxFieldLength]
  omega

/-- Witness of C25: the four bytes of "uri1" encode to eight characters. -/
theorem base64_within_field_cap_witness :
    ([117, 114, 105, 49] : Bytes).length ≤ MaxKeywordFieldLengthBeforeBase64Encoding ∧
    (base64Encode [117, 114, 105, 49]).length = 4 * ((([117, 114, 105, 49] : Bytes).length + 2) / 3) ∧
    (base64Encode [117, 114, 105, 49]).length ≤ MaxFieldLength :=
  ⟨by decide, base64_within_field_cap [117, 114, 105, 49] (by decide)⟩

/-! ### C24: base64 encoding and truncation in `PrepareNFTUpdateData` -/

theorem toNat_ofNat_mod (x : Nat) : (Char.ofNat (x % 256)).toNat = x % 256 := by
  have h : (x % 256).isValidChar := by
    left
    have := Nat.mod_lt x (by decide : 256 > 0)
    omega
  simp only [Char.ofNat, h, Char.ofNatAux, dif_pos]
  rfl

theorem strBytes_mk_map (l : Bytes) :
    strBytes (String.mk (l.map fun x => Char.ofNat (x % 256))) = l.map fun x => x % 256 := by
  simp [strBytes, toNat_ofNat_mod]

/-- Truncating the raw bytes to 22500 and encoding gives the same text as
encoding and truncating the text to 30000: 22500 bytes are 7500 whole groups of
three, and each group encodes to four characters. -/
theorem base64Encode_truncate_comm (b : Bytes) :
    base64Encode (strBytes (TruncateFieldIfExceedsMaxLengthBase64 (bytesToString b))) =
      TruncateFieldIfExceedsMaxLength (base64Encode b) := by
  have htake : base64Chars (b.take 22500) = (base64Chars b).take 30000 :=
    base64Chars_take 7500 b
  have hlen : (base64Chars b).length = 4 * ((b.length + 2) / 3) := base64Chars_length b
  have hl1 : (bytesToString b).length = b.length := by simp [bytesToString]
  have hl2 : (base64Encode b).length = (base64Chars b).length := rfl
  have hleft : base64Encode (strBytes (TruncateFieldIfExceedsMaxLengthBase64 (bytesToString b))) =
      String.mk ((base64Chars b).take 30000) := by
    unfold TruncateFieldIfExceedsMaxLengthBase64
    rw [hl1]
    by_cases hb : b.length > MaxKeywordFieldLengthBeforeBase64Encoding
    · rw [if_pos hb]
      have htl : (bytesToString b).toList.take MaxKeywordFieldLengthBeforeBase64Encoding =
          (b.take 22500).map fun x => Char.ofNat (x % 256) := by
        simp [bytesToString, MaxKeywordFieldLengthBeforeBase64Encoding, List.map_take]
      rw [htl, strBytes_mk_map, base64Encode, base64Chars_map_mod, htake]
    · rw [if_neg hb]
      simp only [MaxKeywordFieldLengthBeforeBase64Encoding] at hb
      have hle : (base64Chars b).length ≤ 30000 := by omega
      simp only [bytesToString, strBytes_mk_map, base64Encode, base64Chars_map_mod,
        List.take_of_length_le hle]
  rw [hleft]
  unfold TruncateFieldIfExceedsMaxLength
  rw [hl2]
  by_cases hc : (base64Chars b).length > MaxFieldLength
  · rw [if_pos hc]
    rfl
  · rw [if_neg hc]
    simp only [MaxFieldLength] at hc
    have hle : (base64Chars b).length ≤ 30000 := by omega
    simp only [base64Encode, List.take_of_length_le hle]

/-- C24: with the truncation helpers of section 6, the update action
`PrepareNFTUpdateData` writes for an NFT update (one that is not a freeze or a
pause on the tokens index) carries the new attributes as their base64 text
truncated to the field cap, or, when there are URIs to add, each URI as its
base64 text truncated to the field cap. The code truncates the raw attributes to
22500 bytes and then encodes them; that is the same text as encoding first and
truncating the encoding to 30000 characters. -/
theorem nft_update_fields_base64_then_truncated (conv : Converters)
    (PutData : BufferSlice → Mutation → Except String BufferSlice) (buffSlice : BufferSlice)
    (nftUpdate : NFTDataUpdate) (isAccountsDCDTIndex : Bool) (index : String)
    (hkind : isAccountsDCDTIndex = true ∨
      (nftUpdate.Freeze = false ∧ nftUpdate.UnFreeze = false ∧
       nftUpdate.Pause = false ∧ nftUpdate.UnPause = false)) :
    PrepareNFTUpdateData (cappedConverters conv) PutData buffSlice [nftUpdate]
        isAccountsDCDTIndex index =
      PutData buffSlice
        (Mutation.update
          { index := index
            id := if isAccountsDCDTIndex then nftUpdate.Address ++ "-" ++ nftUpdate.Identifier
                  else nftUpdate.Identifier }
          false
          (if nftUpdate.URIsToAdd = [] then
            Script.updateAttributes
              (TruncateFieldIfExceedsMaxLength (base64Encode nftUpdate.NewAttributes))
              (conv.ExtractMetaDataFromAttributes nftUpdate.NewAttributes)
              (marshalStrings (TruncateSliceElementsIfExceedsMaxLength
                (conv.ExtractTagsFromAttributes nftUpdate.NewAttributes)))
           else
            Script.addURIs
              (nftUpdate.URIsToAdd.map fun uri =>
                TruncateFieldIfExceedsMaxLength (base64Encode uri)))
          []) := by
  have h1 : ((nftUpdate.Freeze || nftUpdate.UnFreeze) && !isAccountsDCDTIndex) = false := by
    rcases hkind with h | ⟨hf, hu, _, _⟩
    · simp [h]
    · simp [hf, hu]
  have h2 : ((nftUpdate.Pause || nftUpdate.UnPause) && !isAccountsDCDTIndex) = false := by
    rcases hkind with h | ⟨_, _, hp, hu⟩
    · simp [h]
    · simp [hp, hu]
  have hbody : nftUpdateSerializedData (cappedConverters conv)
      { index := index
        id := if isAccountsDCDTIndex then nftUpdate.Address ++ "-" ++ nftUpdate.Identifier
              else nftUpdate.Identifier } nftUpdate =
      Mutation.update
        { index := index
          id := if isAccountsDCDTIndex then nftUpdate.Address ++ "-" ++ nftUpdate.Identifier
                else nftUpdate.Identifier }
        false
        (if nftUpdate.URIsToAdd = [] then
          Script.updateAttributes
            (TruncateFieldIfExceedsMaxLength (base64Encode nftUpdate.NewAttributes))
            (conv.ExtractMetaDataFromAttributes nftUpdate.NewAttributes)
            (marshalStrings (TruncateSliceElementsIfExceedsMaxLength
              (conv.ExtractTagsFromAttributes nftUpdate.NewAttributes)))
         else
          Script.addURIs
            (nftUpdate.URIsToAdd.map fun uri =>
              TruncateFieldIfExceedsMaxLength (base64Encode uri)))
        [] := by
    by_cases hu : nftUpdate.URIsToAdd = []
    · simp [nftUpdateSerializedData, cappedConverters, hu, base64Encode_truncate_comm]
    · have hl : nftUpdate.URIsToAdd.length ≠ 0 := by
        intro h0
        exact hu (List.eq_nil_of_length_eq_zero h0)
      simp [nftUpdateSerializedData, cappedConverters, hu,
        TruncateSliceElementsIfExceedsMaxLength]
  simp only [PrepareNFTUpdateData, h1, h2, Bool.false_eq_true, if_false, hbody]
  cases PutData buffSlice _ <;> rfl

/-- Witness of C24: the update that adds the URIs "uri1" and "uri2", on the
tokens index. -/
theorem nft_update_fields_base64_then_truncated_witness :
    (false = true ∨
      (exampleAddURIsUpdate.Freeze = false ∧ exampleAddURIsUpdate.UnFreeze = false ∧
       exampleAddURIsUpdate.Pause = false ∧ exampleAddURIsUpdate.UnPause = false)) ∧
    PrepareNFTUpdateData (cappedConverters exampleConverters) appendPutData [] [exampleAddURIsUpdate]
        false "tokens" =
      .ok [Mutation.update { index := "tokens", id := "NFT-abcd-01" } false
            (Script.addURIs ["dXJpMQ==", "dXJpMg=="]) []] := by
  refine ⟨by decide, ?_⟩
  rw [nft_update_fields_base64_then_truncated exampleConverters appendPutData [] exampleAddURIsUpdate
    false "tokens" (by decide)]
  rfl

/-! ### C26: role entries recorded for set-role and unset-role events -/

theorem addRolesLoop_ok (topics : List Bytes) (addrBech : String) (shouldAddRole : Bool)
    (token : Bytes) (htoken : topics[0]? = some token) (rolesBytes : List Bytes)
    (t : TokenRolesAndProperties) :
    addRolesLoop topics addrBech shouldAddRole t rolesBytes =
      .ok { t with
            roles := t.roles ++ rolesBytes.map fun roleBytes =>
              { Role := bytesToString roleBytes
                Token := bytesToString token
                Address := if bytesToString roleBytes = DCDTRoleBurnForAll then "" else addrBech
                Set := shouldAddRole } } := by
  induction rolesBytes generalizing t with
  | nil => simp [addRolesLoop]
  | cons roleBytes rest ih =>
    simp [addRolesLoop, topicAt, tokenTopicsIndex, htoken, ih, TokenRolesAndProperties.AddRole]

/-- C26: for a set-role or unset-role event (identifier DCDTSetRole,
DCDTUnSetRole, DCDTSetBurnRoleForAll or DCDTUnSetBurnRoleForAll) with at least
4 topics whose role topics `topics[3:]` are all made of letters,
`dcdtPropertiesProc.processEvent` claims the event and records exactly one role
entry per role topic, in order, after the entries already there: Token is
`topics[0]`, Set is true exactly for the two set identifiers, and Address is the
encoded event address, except that the role DCDTRoleBurnForAll is recorded with
the empty address. -/
theorem role_events_record_one_entry_per_role (pubKeyConverter : PubkeyConverter)
    (ext : Externals) (args : argsProcessEvent SharedCollections)
    (hid : bytesToString args.event.Identifier = "DCDTSetRole" ∨
           bytesToString args.event.Identifier = "DCDTUnSetRole" ∨
           bytesToString args.event.Identifier = "DCDTSetBurnRoleForAll" ∨
           bytesToString args.event.Identifier = "DCDTUnSetBurnRoleForAll")
    (hlen : 4 ≤ args.event.Topics.length)
    (hroles : ∀ role ∈ args.event.Topics.drop 3, ∀ c ∈ ext.runes role, ext.IsLetter c = true) :
    ∃ token : Bytes, args.event.Topics[0]? = some token ∧
      dcdtPropertiesProc.processEvent (newDcdtPropertiesProcessor pubKeyConverter) ext args =
        .ok ({ processed := true },
          { args with
            shared :=
              { args.shared with
                tokenRolesAndProperties :=
                  { args.shared.tokenRolesAndProperties with
                    roles := args.shared.tokenRolesAndProperties.roles ++
                      (args.event.Topics.drop 3).map fun roleBytes =>
                        { Role := bytesToString roleBytes
                          Token := bytesToString token
                          Address :=
                            if bytesToString roleBytes = "DCDTRoleBurnForAll" then ""
                            else pubKeyConverter.SilentEncode args.event.Address
                          Set :=
                            decide (bytesToString args.event.Identifier = "DCDTSetRole") ||
                            decide (bytesToString args.event.Identifier =
                              "DCDTSetBurnRoleForAll") } } } }) := by
  cases htop : args.event.Topics with
  | nil => simp [htop] at hlen
  | cons token rest =>
    refine ⟨token, by simp, ?_⟩
    have hcheck : checkRolesBytes ext (args.event.Topics.drop 3) = true :=
      (checkRolesBytes_eq_true_iff ext _).mpr hroles
    have hlen2 : ¬ args.event.Topics.length < 4 := by omega
    have hle : 3 ≤ args.event.Topics.length := by omega
    have hloop := addRolesLoop_ok args.event.Topics
      (pubKeyConverter.SilentEncode args.event.Address)
      (decide (bytesToString args.event.Identifier = "DCDTSetRole") ||
        decide (bytesToString args.event.Identifier = "DCDTSetBurnRoleForAll"))
      token (by simp [htop]) (args.event.Topics.drop 3) args.shared.tokenRolesAndProperties
    rw [htop] at hcheck hlen2 hle hloop
    rcases hid with h | h | h | h <;>
      simp [dcdtPropertiesProc.processEvent, newDcdtPropertiesProcessor, h, htop,
        BuiltInFunctionSetDCDTRole, BuiltInFunctionUnSetDCDTRole,
        BuiltInFunctionDCDTNFTCreateRoleTransfer, upgradePropertiesEvent,
        BuiltInFunctionDCDTUnSetBurnRoleForAll, BuiltInFunctionDCDTSetBurnRoleForAll,
        minTopicsPropertiesAndRoles, hlen2, topicsFrom, hle, hcheck, hloop, DCDTRoleBurnForAll] <;>
      simp_all [DCDTRoleBurnForAll]

/-- Witness of C26: a set-role event of the address "addr" with the roles
DCDTRoleNFTCreate and DCDTRoleBurnForAll records two entries, the second with
the empty address. -/
theorem role_events_record_one_entry_per_role_witness :
    (bytesToString exampleSetRolesEvent.Identifier = "DCDTSetRole" ∧
      4 ≤ exampleSetRolesEvent.Topics.length ∧
      ∀ role ∈ exampleSetRolesEvent.Topics.drop 3, ∀ c ∈ exampleExternals.runes role,
        exampleExternals.IsLetter c = true) ∧
    (dcdtPropertiesProc.processEvent (newDcdtPropertiesProcessor examplePubkeyConverter)
        exampleExternals (exampleArgs exampleSetRolesEvent)).map
      (fun r => (r.1.processed, r.2.shared.tokenRolesAndProperties.roles)) =
      .ok (true,
        [{ Role := "DCDTRoleNFTCreate", Token := "MYTOKEN-abcd", Address := "61646472", Set := true },
         { Role := "DCDTRoleBurnForAll", Token := "MYTOKEN-abcd", Address := "", Set := true }]) := by
  have hid : bytesToString exampleSetRolesEvent.Identifier = "DCDTSetRole" := by decide
  have hroles : ∀ role ∈ exampleSetRolesEvent.Topics.drop 3, ∀ c ∈ exampleExternals.runes role,
      exampleExternals.IsLetter c = true := by decide
  refine ⟨⟨hid, by decide, hroles⟩, ?_⟩
  obtain ⟨token, htoken, h⟩ :=
    role_events_record_one_entry_per_role examplePubkeyConverter exampleExternals
      (exampleArgs exampleSetRolesEvent) (Or.inl hid) (by decide) hroles
  have ht : token = strBytes "MYTOKEN-abcd" := by
    have h0 : (exampleArgs exampleSetRolesEvent).event.Topics[0]? = some (strBytes "MYTOKEN-abcd") :=
      rfl
    rw [h0] at htoken
    exact (Option.some.inj htoken).symm
  subst ht
  rw [h]
  exact congrArg Except.ok (by decide)

/-! ### C27: the property map recorded for an upgradeProperties event -/

theorem mapGet?_mapSet {α : Type} (m : List (String × α)) (k k2 : String) (v : α) :
    mapGet? (mapSet m k v) k2 = if k = k2 then some v else mapGet? m k2 := by
  induction m with
  | nil => simp [mapSet, mapGet?]
  | cons kv rest ih =>
    obtain ⟨k1, v1⟩ := kv
    by_cases h1 : k1 = k
    · subst h1
      by_cases h2 : k1 = k2 <;> simp [mapSet, mapGet?, h2]
    · by_cases h2 : k1 = k2
      · subst h2
        have h3 : ¬ k = k1 := fun h => h1 h.symm
        simp [mapSet, mapGet?, h1, h3]
      · simp [mapSet, mapGet?, h1, h2, ih]

theorem getElem?_cons_cons_even {α : Type} (p v : α) (rest : List α) (j : Nat) :
    (p :: v :: rest)[2 * (j + 1)]? = rest[2 * j]? ∧
    (p :: v :: rest)[2 * (j + 1) + 1]? = rest[2 * j + 1]? := by
  have h1 : 2 * (j + 1) = 2 * j + 1 + 1 := by ring
  rw [h1]
  simp

/-- The loop of `extractTokenProperties` on an even number of topics returns a
map, and the map sends a name to the value of the last pair with that name, or
to what the starting map held when no pair has that name. -/
theorem propertiesLoop_even (ext : Externals) (n : Nat) :
    ∀ (l : List Bytes) (m : List (String × Bool)), l.length = 2 * n →
      ∃ pm, propertiesLoop ext m l = .ok pm ∧
        ∀ (name : String) (value : Bool),
          (mapGet? pm name = some value ↔
            (∃ k p v, l[2 * k]? = some p ∧ l[2 * k + 1]? = some v ∧ bytesToString p = name ∧
                ext.bytesToBool v = value ∧
                ∀ j p2, k < j → l[2 * j]? = some p2 → bytesToString p2 ≠ name) ∨
            ((∀ j p2, l[2 * j]? = some p2 → bytesToString p2 ≠ name) ∧
              mapGet? m name = some value)) := by
  induction n with
  | zero =>
    intro l m hl
    have hnil : l = [] := List.eq_nil_of_length_eq_zero (by omega)
    subst hnil
    exact ⟨m, rfl, fun name value => by simp⟩
  | succ n ih =>
    intro l m hl
    match l, hl with
    | [], hl => simp at hl
    | [_], hl => simp at hl; omega
    | p :: v :: rest, hl =>
      have hrest : rest.length = 2 * n := by
        simp only [List.length_cons] at hl
        omega
      obtain ⟨pm, hpm, hchar⟩ :=
        ih rest (mapSet m (bytesToString p) (ext.bytesToBool v)) hrest
      refine ⟨pm, by simpa [propertiesLoop] using hpm, ?_⟩
      intro name value
      rw [hchar name value, mapGet?_mapSet]
      constructor
      · rintro (⟨k, p1, v1, hp1, hv1, hname, hvalue, hlater⟩ | ⟨hnone, hm⟩)
        · left
          refine ⟨k + 1, p1, v1, ?_, ?_, hname, hvalue, ?_⟩
          · rw [(getElem?_cons_cons_even p v rest k).1]
            exact hp1
          · rw [(getElem?_cons_cons_even p v rest k).2]
            exact hv1
          · intro j p2 hj hp2
            obtain ⟨j1, rfl⟩ : ∃ j1, j = j1 + 1 := ⟨j - 1, by omega⟩
            rw [(getElem?_cons_cons_even p v rest j1).1] at hp2
            exact hlater j1 p2 (by omega) hp2
        · by_cases hp : bytesToString p = name
          · left
            rw [if_pos hp] at hm
            refine ⟨0, p, v, by simp, by simp, hp, Option.some.inj hm, ?_⟩
            intro j p2 hj hp2
            obtain ⟨j1, rfl⟩ : ∃ j1, j = j1 + 1 := ⟨j - 1, by omega⟩
            rw [(getElem?_cons_cons_even p v rest j1).1] at hp2
            exact hnone j1 p2 hp2
          · right
            rw [if_neg hp] at hm
            refine ⟨?_, hm⟩
            intro j p2 hp2
            cases j with
            | zero =>
              simp at hp2
              subst hp2
              exact hp
            | succ j1 =>
              rw [(getElem?_cons_cons_even p v rest j1).1] at hp2
              exact hnone j1 p2 hp2
      · rintro (⟨k, p1, v1, hp1, hv1, hname, hvalue, hlater⟩ | ⟨hnone, hm⟩)
        · cases k with
          | zero =>
            right
            simp at hp1 hv1
            subst hp1
            subst hv1
            refine ⟨?_, ?_⟩
            · intro j p2 hp2
              have := hlater (j + 1) p2 (by omega)
              rw [(getElem?_cons_cons_even _ _ rest j).1] at this
              exact this hp2
            · rw [if_pos hname, hvalue]
          | succ k1 =>
            left
            rw [(getElem?_cons_cons_even p v rest k1).1] at hp1
            rw [(getElem?_cons_cons_even p v rest k1).2] at hv1
            refine ⟨k1, p1, v1, hp1, hv1, hname, hvalue, ?_⟩
            intro j p2 hj hp2
            have := hlater (j + 1) p2 (by omega)
            rw [(getElem?_cons_cons_even p v rest j).1] at this
            exact this hp2
        · right
          have hp : bytesToString p ≠ name := hnone 0 p (by simp)
          refine ⟨?_, ?_⟩
          · intro j p2 hp2
            have := hnone (j + 1) p2
            rw [(getElem?_cons_cons_even p v rest j).1] at this
            exact this hp2
          · rw [if_neg hp]
            exact hm

/-- C27: for an upgradeProperties event with at least 4 topics and an even
number of topics, `dcdtPropertiesProc.processEvent` claims the event
(processed = true) and records, after the property changes already there, one
property change for the token `topics[0]` whose map sends each property name
`topics[2+2k]` to the boolean decoded from `topics[3+2k]`, a later pair
overriding an earlier one with the same name; the map holds no other name. -/
theorem upgrade_properties_records_property_map (pubKeyConverter : PubkeyConverter)
    (ext : Externals) (args : argsProcessEvent SharedCollections)
    (hid : bytesToString args.event.Identifier = "upgradeProperties")
    (hlen : 4 ≤ args.event.Topics.length)
    (heven : args.event.Topics.length % 2 = 0) :
    ∃ (token : Bytes) (propertiesMap : List (String × Bool)),
      args.event.Topics[0]? = some token ∧
      dcdtPropertiesProc.processEvent (newDcdtPropertiesProcessor pubKeyConverter) ext args =
        .ok ({ processed := true },
          { args with
            shared :=
              { args.shared with
                tokenRolesAndProperties :=
                  { args.shared.tokenRolesAndProperties with
                    properties := args.shared.tokenRolesAndProperties.properties ++
                      [{ Token := bytesToString token, Properties := propertiesMap }] } } }) ∧
      ∀ (name : String) (value : Bool),
        (mapGet? propertiesMap name = some value ↔
          ∃ k p v, args.event.Topics[2 + 2 * k]? = some p ∧
            args.event.Topics[3 + 2 * k]? = some v ∧
            bytesToString p = name ∧ ext.bytesToBool v = value ∧
            ∀ j p2, k < j → args.event.Topics[2 + 2 * j]? = some p2 →
              bytesToString p2 ≠ name) := by
  cases htop : args.event.Topics with
  | nil => simp [htop] at hlen
  | cons token rest =>
    have hlen2 : ¬ args.event.Topics.length < 4 := by omega
    have hle : 2 ≤ args.event.Topics.length := by omega
    have hdrop : (args.event.Topics.drop 2).length = 2 * ((args.event.Topics.length - 2) / 2) := by
      simp only [List.length_drop]
      omega
    obtain ⟨pm, hpm, hchar⟩ := propertiesLoop_even ext _ (args.event.Topics.drop 2) [] hdrop
    rw [htop] at hlen2 hle hpm hchar
    refine ⟨token, pm, by simp, ?_, ?_⟩
    · simp only [List.length_cons] at hlen2 hle
      have hpm2 : propertiesLoop ext [] rest.tail = .ok pm := by simpa using hpm
      have h1 : 1 ≤ rest.length := by omega
      simp [dcdtPropertiesProc.processEvent, newDcdtPropertiesProcessor, hid, htop,
        upgradePropertiesEvent, minTopicsPropertiesAndRoles, hlen2,
        dcdtPropertiesProc.extractTokenProperties, topicsFrom, dcdtPropertiesStartIndex, h1, hpm2,
        topicAt, tokenTopicsIndex, TokenRolesAndProperties.AddProperties]
    · intro name value
      rw [hchar name value]
      have hidx : ∀ i, ((token :: rest).drop 2)[i]? = (token :: rest)[2 + i]? := by
        intro i
        rw [List.getElem?_drop]
      have hidx2 : ∀ k, 3 + 2 * k = 2 + (2 * k + 1) := by
        intro k
        omega
      simp only [hidx, hidx2, mapGet?, and_false, or_false, reduceCtorEq]

/-- Witness of C27: an upgradeProperties event with the pairs canMint/true,
canBurn/true, canMint/false records a map that sends canMint to false and
canBurn to true. -/
theorem upgrade_properties_records_property_map_witness :
    (bytesToString exampleUpgradeProperties.Identifier = "upgradeProperties" ∧
      4 ≤ exampleUpgradeProperties.Topics.length ∧
      exampleUpgradeProperties.Topics.length % 2 = 0) ∧
    ∃ propertiesMap : List (String × Bool),
      (dcdtPropertiesProc.processEvent (newDcdtPropertiesProcessor examplePubkeyConverter)
          exampleExternals (exampleArgs exampleUpgradeProperties)).map
        (fun r => (r.1.processed, r.2.shared.tokenRolesAndProperties.properties)) =
        .ok (true, [{ Token := "MYTOKEN-abcd", Properties := propertiesMap }]) ∧
      mapGet? propertiesMap "canMint" = some false ∧
      mapGet? propertiesMap "canBurn" = some true := by
  have hid : bytesToString exampleUpgradeProperties.Identifier = "upgradeProperties" := by decide
  refine ⟨⟨hid, by decide, by decide⟩, ?_⟩
  obtain ⟨token, pm, htoken, h, hchar⟩ :=
    upgrade_properties_records_property_map examplePubkeyConverter exampleExternals
      (exampleArgs exampleUpgradeProperties) hid (by decide) (by decide)
  have ht : token = strBytes "MYTOKEN-abcd" := by
    have h0 : (exampleArgs exampleUpgradeProperties).event.Topics[0]? =
        some (strBytes "MYTOKEN-abcd") := rfl
    rw [h0] at htoken
    exact (Option.some.inj htoken).symm
  subst ht
  refine ⟨pm, ?_, ?_, ?_⟩
  · rw [h]
    exact congrArg Except.ok (Prod.ext rfl (by
      show [_] = [_]
      exact congrArg (fun x => [x]) (congrArg (fun t => PropertiesData.mk t pm) (by decide))))
  · refine (hchar "canMint" false).mpr ⟨2, strBytes "canMint", strBytes "false", rfl, rfl,
      by decide, by decide, ?_⟩
    intro j p2 hj hp2
    have hnone : (exampleArgs exampleUpgradeProperties).event.Topics[2 + 2 * j]? = none := by
      apply List.getElem?_eq_none
      have : (exampleArgs exampleUpgradeProperties).event.Topics.length = 8 := rfl
      omega
    rw [hnone] at hp2
    exact Option.noConfusion hp2
  · refine (hchar "canBurn" true).mpr ⟨1, strBytes "canBurn", strBytes "true", rfl, rfl,
      by decide, by decide, ?_⟩
    intro j p2 hj hp2
    obtain rfl | hj3 : j = 2 ∨ 3 ≤ j := by omega
    · have hp : p2 = strBytes "canMint" := by
        have h0 : (exampleArgs exampleUpgradeProperties).event.Topics[2 + 2 * 2]? =
            some (strBytes "canMint") := rfl
        rw [h0] at hp2
        exact (Option.some.inj hp2).symm
      subst hp
      decide
    · have hnone : (exampleArgs exampleUpgradeProperties).event.Topics[2 + 2 * j]? = none := by
        apply List.getElem?_eq_none
        have : (exampleArgs exampleUpgradeProperties).event.Topics.length = 8 := rfl
        omega
      rw [hnone] at hp2
      exact Option.noConfusion hp2

/-! ### C28: one update action per NFT update -/

/-- C28 fails in the code: on the tokens index a freeze update followed by an
add-URIs update gets one update action, the freeze, although no buffer write
fails: the function returns from inside its loop after the freeze and the
add-URIs update is never written. The same two updates in the other order get
two actions. -/
theorem prepareNFTUpdateData_returns_after_freeze :
    PrepareNFTUpdateData exampleConverters appendPutData []
        [exampleFreezeUpdate, exampleAddURIsUpdate] false "tokens" =
      .ok [Mutation.update { index := "tokens", id := "NFT-abcd-01" } false (Script.freeze true) []] ∧
    PrepareNFTUpdateData exampleConverters appendPutData []
        [exampleAddURIsUpdate, exampleFreezeUpdate] false "tokens" =
      .ok [Mutation.update { index := "tokens", id := "NFT-abcd-01" } false
             (Script.addURIs ["dXJpMQ==", "dXJpMg=="]) [],
           Mutation.update { index := "tokens", id := "NFT-abcd-01" } false (Script.freeze true) []] :=
  ⟨rfl, rfl⟩

/-! ### C22: the document id of an account-token record -/

theorem prepareAccountsMapDCDT_last_entry (pubKeyConverter : PubkeyConverter)
    (ext : Externals) (conv : Converters) (timestamp shardID : Nat)
    (tagsCount : List (List String)) (before : List AccountDCDT)
    (accountDCDT : AccountDCDT) (addressBytes : Bytes)
    (hdec : pubKeyConverter.Decode accountDCDT.Account.Address = .ok addressBytes) :
    ∃ acc : AccountInfo,
      mapGet? (PrepareAccountsMapDCDT pubKeyConverter ext conv timestamp
          (before ++ [accountDCDT]) tagsCount shardID).accountsDCDTMap
        (accountDCDT.Account.Address ++ "-" ++ accountDCDT.TokenIdentifier ++ "-" ++
          String.mk (Nat.toDigits 10 accountDCDT.NFTNonce)) = some acc ∧
      acc.Address = accountDCDT.Account.Address ∧
      acc.TokenName = accountDCDT.TokenIdentifier ∧
      acc.TokenNonce = accountDCDT.NFTNonce ∧
      acc.TokenIdentifier =
        conv.ComputeTokenIdentifier accountDCDT.TokenIdentifier accountDCDT.NFTNonce := by
  obtain ⟨⟨balance, properties, tokenMetaData⟩, hr⟩ := getDCDTInfo_ok conv accountDCDT
  have hfields := accountDCDTEntry_fields ext conv timestamp shardID accountDCDT addressBytes
    balance properties tokenMetaData
  refine ⟨accountDCDTEntry ext conv timestamp shardID accountDCDT addressBytes balance
    properties tokenMetaData, ?_, hfields.1, hfields.2.1, hfields.2.2.1, ?_⟩
  · simp only [PrepareAccountsMapDCDT, List.foldl_append, List.foldl_cons, List.foldl_nil]
    rw [accountsMapDCDTTurn_map _ _ _ _ _ _ _ addressBytes balance properties tokenMetaData hdec hr]
    exact mapGet?_mapSet_same _ _ _
  · unfold accountDCDTEntry
    by_cases h : accountDCDT.NFTNonce = 0 <;> simp [h]

theorem mapGet?_mem {α : Type} (m : List (String × α)) (k : String) (v : α)
    (h : mapGet? m k = some v) : (k, v) ∈ m := by
  induction m with
  | nil => simp [mapGet?] at h
  | cons kv rest ih =>
    obtain ⟨k1, v1⟩ := kv
    by_cases h1 : k1 = k
    · subst h1
      simp only [mapGet?, if_true, Option.some.injEq] at h
      subst h
      exact List.mem_cons_self _ _
    · simp only [mapGet?, h1, if_false] at h
      exact List.mem_cons_of_mem _ (ih h)

theorem hexNonce_length_even (nonce : Nat) : (hexNonce nonce).length % 2 = 0 := by
  unfold hexNonce
  by_cases h : (Nat.toDigits 16 nonce).length % 2 = 0
  · simp [h]
  · simp only [ne_eq, h, not_false_eq_true, if_true, String.length_mk, List.length_cons]
    omega

/-- C22: for a token record with address A, token name T and nonce n > 0 whose
address decodes, the entry `PrepareAccountsMapDCDT` puts into the map it returns
carries A, T and n, and the document id under which that entry is stored is
A-T-n with the nonce in hexadecimal, padded with a leading "0" to an even number
of digits. (Inside the returned Go map the entry sits under a key of its own,
with the nonce in decimal; the document id is formed from the entry's fields.) -/
theorem account_token_document_id_hex_nonce (pubKeyConverter : PubkeyConverter)
    (ext : Externals) (conv : Converters) (timestamp shardID : Nat)
    (tagsCount : List (List String)) (before : List AccountDCDT)
    (accountDCDT : AccountDCDT) (addressBytes : Bytes) (index : String)
    (hdec : pubKeyConverter.Decode accountDCDT.Account.Address = .ok addressBytes)
    (_hn : 0 < accountDCDT.NFTNonce) :
    ∃ (keyInMap : String) (acc : AccountInfo),
      (keyInMap, acc) ∈ (PrepareAccountsMapDCDT pubKeyConverter ext conv timestamp
          (before ++ [accountDCDT]) tagsCount shardID).accountsDCDTMap ∧
      acc.Address = accountDCDT.Account.Address ∧
      acc.TokenName = accountDCDT.TokenIdentifier ∧
      acc.TokenNonce = accountDCDT.NFTNonce ∧
      ({ index := index
         id := accountDCDT.Account.Address ++ "-" ++ accountDCDT.TokenIdentifier ++ "-" ++
           hexNonce accountDCDT.NFTNonce } : DocKey) ∈
        accountsDCDTDocumentKeys index
          (PrepareAccountsMapDCDT pubKeyConverter ext conv timestamp
            (before ++ [accountDCDT]) tagsCount shardID).accountsDCDTMap ∧
      (hexNonce accountDCDT.NFTNonce = String.mk (Nat.toDigits 16 accountDCDT.NFTNonce) ∨
       hexNonce accountDCDT.NFTNonce =
        String.mk ('0' :: Nat.toDigits 16 accountDCDT.NFTNonce)) ∧
      (hexNonce accountDCDT.NFTNonce).length % 2 = 0 := by
  obtain ⟨acc, hget, hA, hT, hN, _⟩ :=
    prepareAccountsMapDCDT_last_entry pubKeyConverter ext conv timestamp shardID tagsCount before
      accountDCDT addressBytes hdec
  have hmem := mapGet?_mem _ _ _ hget
  refine ⟨_, acc, hmem, hA, hT, hN, ?_, ?_, hexNonce_length_even _⟩
  · refine List.mem_map.mpr ⟨_, hmem, ?_⟩
    simp only [accountDCDTDocumentID, hA, hT, hN]
  · unfold hexNonce
    by_cases h : (Nat.toDigits 16 accountDCDT.NFTNonce).length % 2 = 0
    · left
      simp [h]
    · right
      simp [h]

set_option maxRecDepth 100000 in
/-- Witness of C22: the records of "moa1rcv" for "SEMI-abcd" with the nonces 2
and 10 are stored under "moa1rcv-SEMI-abcd-02" and "moa1rcv-SEMI-abcd-0a". -/
theorem account_token_document_id_hex_nonce_witness :
    (examplePubkeyConverter.Decode exampleRecordNonce10.Account.Address
        = .ok (strBytes "moa1rcv") ∧
      0 < exampleRecordNonce10.NFTNonce) ∧
    ({ index := "accountsdcdt", id := "moa1rcv-SEMI-abcd-0a" } : DocKey) ∈
      accountsDCDTDocumentKeys "accountsdcdt"
        (PrepareAccountsMapDCDT examplePubkeyConverter exampleExternals exampleConverters
          5040 [exampleRecordNonce2, exampleRecordNonce10] [] 1).accountsDCDTMap ∧
    accountsDCDTDocumentKeys "accountsdcdt"
        (PrepareAccountsMapDCDT examplePubkeyConverter exampleExternals exampleConverters
          5040 [exampleRecordNonce2, exampleRecordNonce10] [] 1).accountsDCDTMap =
      [{ index := "accountsdcdt", id := "moa1rcv-SEMI-abcd-02" },
       { index := "accountsdcdt", id := "moa1rcv-SEMI-abcd-0a" }] := by
  refine ⟨⟨rfl, by decide⟩, ?_, by decide⟩
  obtain ⟨_, _, _, _, _, _, hkey, _, _⟩ :=
    account_token_document_id_hex_nonce examplePubkeyConverter exampleExternals exampleConverters
      5040 1 [] [exampleRecordNonce2] exampleRecordNonce10 (strBytes "moa1rcv") "accountsdcdt" rfl
      (by decide)
  have hid : exampleRecordNonce10.Account.Address ++ "-" ++ exampleRecordNonce10.TokenIdentifier ++
      "-" ++ hexNonce exampleRecordNonce10.NFTNonce = "moa1rcv-SEMI-abcd-0a" := by
    decide
  rw [hid] at hkey
  exact hkey

/-! ### C21: the shards of a transaction document -/

/-- C21: the transaction document built by `prepareTransaction` has as
ReceiverShard the shard computed from the raw receiver address and the shard
count when the mini-block's type is InvalidBlock, and the mini-block's
ReceiverShardID otherwise; its SenderShard is always the mini-block's
SenderShardID. -/
theorem prepareTransaction_shards (dtb : dbTransactionBuilder) (ext : Externals)
    (conv : Converters) (txInfo : TxInfo) (txHash mbHash : Bytes) (mb : MiniBlock)
    (header : HeaderHandler) (txStatus : String) (numOfShards : Nat) :
    (mb.Type_ = BlockType.InvalidBlock →
      (dtb.prepareTransaction ext conv txInfo txHash mbHash mb header txStatus
        numOfShards).ReceiverShard = ext.ComputeShardID txInfo.Transaction.RcvAddr numOfShards) ∧
    (mb.Type_ ≠ BlockType.InvalidBlock →
      (dtb.prepareTransaction ext conv txInfo txHash mbHash mb header txStatus
        numOfShards).ReceiverShard = mb.ReceiverShardID) ∧
    (dtb.prepareTransaction ext conv txInfo txHash mbHash mb header txStatus
        numOfShards).SenderShard = mb.SenderShardID := by
  refine ⟨?_, ?_, rfl⟩
  · intro h
    simp [dbTransactionBuilder.prepareTransaction, h]
  · intro h
    simp [dbTransactionBuilder.prepareTransaction, h]

/-- Witness of C21: with 3 shards, a transaction to an address of shard 2 in an
invalid mini-block of shard 1 gets the receiver shard 2, and in a mini-block
from shard 1 to shard 0 it gets the receiver shard 0. -/
theorem prepareTransaction_shards_witness :
    (exampleInvalidMiniBlock.Type_ = BlockType.InvalidBlock ∧
      (exampleTxBuilder.prepareTransaction exampleExternals exampleConverters exampleTxInfo
        [97, 98] [99] exampleInvalidMiniBlock {} "invalid" 3).ReceiverShard = 2) ∧
    (exampleTxMiniBlock.Type_ ≠ BlockType.InvalidBlock ∧
      (exampleTxBuilder.prepareTransaction exampleExternals exampleConverters exampleTxInfo
        [97, 98] [99] exampleTxMiniBlock {} "success" 3).ReceiverShard = 0) :=
  ⟨⟨rfl,
    (prepareTransaction_shards exampleTxBuilder exampleExternals exampleConverters exampleTxInfo
      [97, 98] [99] exampleInvalidMiniBlock {} "invalid" 3).1 rfl⟩,
   ⟨by decide,
    (prepareTransaction_shards exampleTxBuilder exampleExternals exampleConverters exampleTxInfo
      [97, 98] [99] exampleTxMiniBlock {} "success" 3).2.1 (by decide)⟩⟩

/-! ### C30: `compareBalances` on its first and second comparison -/

theorem mapGet?_eq_none_of_not_mem {α : Type} (m : List (String × α)) (k : String)
    (h : k ∉ m.map Prod.fst) : mapGet? m k = none := by
  induction m with
  | nil => rfl
  | cons kv rest ih =>
    obtain ⟨k1, v1⟩ := kv
    simp only [List.map_cons, List.mem_cons, not_or] at h
    have h1 : ¬ k1 = k := fun e => h.1 e.symm
    simp only [mapGet?, h1, if_false]
    exact ih h.2

theorem mapGet?_of_mem_nodup {α : Type} (m : List (String × α)) (k : String) (v : α)
    (hnd : (m.map Prod.fst).Nodup) (h : (k, v) ∈ m) : mapGet? m k = some v := by
  induction m with
  | nil => simp at h
  | cons kv rest ih =>
    obtain ⟨k1, v1⟩ := kv
    simp only [List.map_cons, List.nodup_cons] at hnd
    rcases List.mem_cons.mp h with h | h
    · have hk : k1 = k := (congrArg Prod.fst h).symm
      have hv : v1 = v := (congrArg Prod.snd h).symm
      subst hk
      subst hv
      simp [mapGet?]
    · have h1 : ¬ k1 = k := by
        intro e
        subst e
        exact hnd.1 (List.mem_map.mpr ⟨(k1, v), h, rfl⟩)
      simp only [mapGet?, h1, if_false]
      exact ih hnd.2 h

theorem mapGet?_mapDelete_other {α : Type} (m : List (String × α)) (k k2 : String)
    (h : k2 ≠ k) : mapGet? (mapDelete m k) k2 = mapGet? m k2 := by
  induction m with
  | nil => rfl
  | cons kv rest ih =>
    obtain ⟨k1, v1⟩ := kv
    by_cases h1 : k1 = k
    · subst h1
      have h2 : ¬ k1 = k2 := fun e => h e.symm
      simpa [mapDelete, mapGet?, h2] using ih
    · by_cases h2 : k1 = k2
      · subst h2
        simp [mapDelete, mapGet?, h1]
      · simpa [mapDelete, mapGet?, h1, h2] using ih

theorem mapSet_of_not_mem {α : Type} (m : List (String × α)) (k : String) (v : α)
    (h : k ∉ m.map Prod.fst) : mapSet m k v = m ++ [(k, v)] := by
  induction m with
  | nil => rfl
  | cons kv rest ih =>
    obtain ⟨k1, v1⟩ := kv
    simp only [List.map_cons, List.mem_cons, not_or] at h
    have h1 : ¬ k1 = k := fun e => h.1 e.symm
    simp [mapSet, h1, ih h.2]

/-- Copying a Go map entry by entry into an empty map gives the same entries. -/
theorem foldl_mapSet_copy (l acc : List (String × String))
    (hnd : ((acc ++ l).map Prod.fst).Nodup) :
    l.foldl (fun copy kv => mapSet copy kv.1 kv.2) acc = acc ++ l := by
  induction l generalizing acc with
  | nil => simp
  | cons kv rest ih =>
    have hnot : kv.1 ∉ acc.map Prod.fst := by
      intro hmem
      rw [List.map_append, List.map_cons] at hnd
      have := (List.nodup_append.mp hnd).2.2
      exact this hmem (List.mem_cons_self _ _)
    simp only [List.foldl_cons]
    rw [mapSet_of_not_mem acc kv.1 kv.2 hnot]
    have hnd2 : (((acc ++ [(kv.1, kv.2)]) ++ rest).map Prod.fst).Nodup := by
      simpa using hnd
    rw [ih _ hnd2]
    simp

theorem compareBalancesLoop_first_storeCalls (bc : balanceChecker) (address : String)
    (es copy : List (String × String)) (calls : List StoreCall) :
    (compareBalancesLoop bc address true es copy calls).storeCalls = calls := by
  induction es generalizing copy with
  | nil => rfl
  | cons kv rest ih =>
    obtain ⟨k, v⟩ := kv
    cases hget : mapGet? copy k with
    | none => simp [compareBalancesLoop, hget]
    | some b =>
      by_cases hb : v = b
      · simp [compareBalancesLoop, hget, hb, ih]
      · simp [compareBalancesLoop, hget, hb]

theorem compareBalancesLoop_second_not_returned (bc : balanceChecker) (address : String)
    (es copy : List (String × String)) (calls : List StoreCall) :
    (compareBalancesLoop bc address false es copy calls).returned = false := by
  induction es generalizing copy calls with
  | nil => rfl
  | cons kv rest ih =>
    obtain ⟨k, v⟩ := kv
    cases hget : mapGet? copy k with
    | none => simp [compareBalancesLoop, hget, ih]
    | some b =>
      by_cases hb : v = b
      · simp [compareBalancesLoop, hget, hb, ih]
      · simp [compareBalancesLoop, hget, hb, ih]

/-- On the first comparison the loop runs to its end exactly when every entry
of the store map is in the gateway copy with the same balance, and then the
copy is left with the entries whose token the store map does not have. -/
theorem compareBalancesLoop_first (bc : balanceChecker) (address : String)
    (es copy : List (String × String)) (calls : List StoreCall)
    (hes : (es.map Prod.fst).Nodup) :
    ((compareBalancesLoop bc address true es copy calls).returned = false ↔
      ∀ kv ∈ es, mapGet? copy kv.1 = some kv.2) ∧
    ((compareBalancesLoop bc address true es copy calls).returned = false →
      (compareBalancesLoop bc address true es copy calls).copyBalancesProxy =
        copy.filter fun kv => decide (kv.1 ∉ es.map Prod.fst)) := by
  induction es generalizing copy with
  | nil => simp [compareBalancesLoop]
  | cons kv rest ih =>
    obtain ⟨k, v⟩ := kv
    simp only [List.map_cons, List.nodup_cons] at hes
    cases hget : mapGet? copy k with
    | none => simp [compareBalancesLoop, hget]
    | some b =>
      by_cases hb : v = b
      · subst hb
        obtain ⟨ih1, ih2⟩ := ih (mapDelete copy k) hes.2
        have hstep : compareBalancesLoop bc address true ((k, v) :: rest) copy calls =
            compareBalancesLoop bc address true rest (mapDelete copy k) calls := by
          simp [compareBalancesLoop, hget]
        rw [hstep]
        constructor
        · rw [ih1]
          constructor
          · intro h kv hkv
            rcases List.mem_cons.mp hkv with hkv | hkv
            · subst hkv
              exact hget
            · have hne : kv.1 ≠ k := by
                intro e
                exact hes.1 (e ▸ List.mem_map.mpr ⟨kv, hkv, rfl⟩)
              rw [← mapGet?_mapDelete_other copy k kv.1 hne]
              exact h kv hkv
          · intro h kv hkv
            have hne : kv.1 ≠ k := by
              intro e
              exact hes.1 (e ▸ List.mem_map.mpr ⟨kv, hkv, rfl⟩)
            rw [mapGet?_mapDelete_other copy k kv.1 hne]
            exact h kv (List.mem_cons_of_mem _ hkv)
        · intro h
          rw [ih2 h]
          simp only [mapDelete, List.filter_filter]
          apply List.filter_congr
          intro kv _
          by_cases h1 : kv.1 = k <;> by_cases h2 : kv.1 ∈ List.map Prod.fst rest <;>
            simp [h1, h2]
      · simp [compareBalancesLoop, hget, hb]
        intro e
        exact absurd e.symm hb

theorem maps_agree_iff (es proxy : List (String × String)) (hes : (es.map Prod.fst).Nodup) :
    (∀ k, mapGet? es k = mapGet? proxy k) ↔
      (∀ kv ∈ es, mapGet? proxy kv.1 = some kv.2) ∧
      proxy.filter (fun kv => decide (kv.1 ∉ es.map Prod.fst)) = [] := by
  constructor
  · intro h
    refine ⟨?_, ?_⟩
    · intro kv hkv
      rw [← h kv.1]
      exact mapGet?_of_mem_nodup es kv.1 kv.2 hes hkv
    · rw [List.filter_eq_nil_iff]
      intro kv hkv hnot
      have hnot2 : kv.1 ∉ es.map Prod.fst := by simpa using hnot
      have h1 : mapGet? es kv.1 = none := mapGet?_eq_none_of_not_mem es kv.1 hnot2
      have h2 : mapGet? proxy kv.1 ≠ none := by
        intro hnone
        have hmem : kv.1 ∈ proxy.map Prod.fst := List.mem_map.mpr ⟨kv, hkv, rfl⟩
        clear h h1 hnot hnot2 hes
        induction proxy with
        | nil => simp at hkv
        | cons q rest ih =>
          obtain ⟨k1, v1⟩ := q
          by_cases e : k1 = kv.1
          · simp [mapGet?, e] at hnone
          · simp only [mapGet?, e, if_false] at hnone
            rcases List.mem_cons.mp hkv with hq | hq
            · exact e (congrArg Prod.fst hq).symm
            · exact ih hq hnone (List.mem_map.mpr ⟨kv, hq, rfl⟩)
      rw [← h kv.1] at h2
      exact h2 h1
  · rintro ⟨h1, h2⟩ k
    by_cases hk : k ∈ es.map Prod.fst
    · obtain ⟨kv, hkv, rfl⟩ := List.mem_map.mp hk
      rw [h1 kv hkv]
      exact mapGet?_of_mem_nodup es kv.1 kv.2 hes hkv
    · rw [mapGet?_eq_none_of_not_mem es k hk]
      cases hp : mapGet? proxy k with
      | none => rfl
      | some b =>
        have hmem := mapGet?_mem proxy k b hp
        rw [List.filter_eq_nil_iff] at h2
        exact absurd (by simpa using hk) (h2 (k, b) hmem)

/-- C30: for store and gateway balance maps (Go maps, so no key twice),
`compareBalances` with firstCompare = true returns true exactly when the two are
not equal as maps (some token has a balance on one side and none, or another
one, on the other side; a gateway-only token with balance "0" counts), makes no
store call (no delete, no fix) in that call, and leaves the gateway map it was
handed as it was, whatever firstCompare is; with firstCompare = false it always
returns false. -/
theorem compareBalances_first_and_second_comparison (bc : balanceChecker)
    (balancesFromES balancesFromProxy : List (String × String)) (address : String)
    (hes : (balancesFromES.map Prod.fst).Nodup)
    (hproxy : (balancesFromProxy.map Prod.fst).Nodup) :
    ((bc.compareBalances balancesFromES balancesFromProxy address true).tryAgain = true ↔
      ¬ ∀ k, mapGet? balancesFromES k = mapGet? balancesFromProxy k) ∧
    (bc.compareBalances balancesFromES balancesFromProxy address true).storeCalls = [] ∧
    (∀ firstCompare : Bool,
      (bc.compareBalances balancesFromES balancesFromProxy address firstCompare).balancesFromProxy =
        balancesFromProxy) ∧
    (bc.compareBalances balancesFromES balancesFromProxy address false).tryAgain = false := by
  have hcopy : balancesFromProxy.foldl (fun copy kv => mapSet copy kv.1 kv.2) [] =
      balancesFromProxy := by
    simpa using foldl_mapSet_copy balancesFromProxy [] (by simpa using hproxy)
  obtain ⟨h1, h2⟩ := compareBalancesLoop_first bc address balancesFromES balancesFromProxy [] hes
  refine ⟨?_, ?_, ?_, ?_⟩
  · rw [maps_agree_iff balancesFromES balancesFromProxy hes]
    simp only [balanceChecker.compareBalances, hcopy]
    cases hr : (compareBalancesLoop bc address true balancesFromES balancesFromProxy []).returned
    · have hall := h1.mp hr
      have hfin := h2 hr
      rw [hfin]
      cases hf : balancesFromProxy.filter
          (fun kv => decide (kv.1 ∉ balancesFromES.map Prod.fst)) with
      | nil =>
        simp
        intro k v hkv
        exact hall (k, v) hkv
      | cons q rest => simp
    · have hnot : ¬ ∀ kv ∈ balancesFromES, mapGet? balancesFromProxy kv.1 = some kv.2 := by
        intro hall
        rw [h1.mpr hall] at hr
        exact Bool.noConfusion hr
      simp only [if_true, true_iff]
      intro hboth
      exact hnot hboth.1
  · simp only [balanceChecker.compareBalances]
    split_ifs <;> exact compareBalancesLoop_first_storeCalls bc address _ _ _
  · intro firstCompare
    simp only [balanceChecker.compareBalances]
    split_ifs <;> rfl
  · simp [balanceChecker.compareBalances, compareBalancesLoop_second_not_returned]

/-- Witness of C30: the store has TKN-1 with balance "5", the gateway has the
same and also TKN-2 with balance "0": the first comparison asks to try again and
makes no store call, the second one returns false. -/
theorem compareBalances_first_and_second_comparison_witness :
    ((exampleBalancesES.map Prod.fst).Nodup ∧ (exampleBalancesProxy.map Prod.fst).Nodup) ∧
    (exampleBalanceChecker.compareBalances exampleBalancesES exampleBalancesProxy "moa1abc"
      true).tryAgain = true ∧
    (exampleBalanceChecker.compareBalances exampleBalancesES exampleBalancesProxy "moa1abc"
      true).storeCalls = [] ∧
    (exampleBalanceChecker.compareBalances exampleBalancesES exampleBalancesProxy "moa1abc"
      false).tryAgain = false := by
  have hes : (exampleBalancesES.map Prod.fst).Nodup := by decide
  have hproxy : (exampleBalancesProxy.map Prod.fst).Nodup := by decide
  obtain ⟨h1, h2, _, h4⟩ :=
    compareBalances_first_and_second_comparison exampleBalanceChecker exampleBalancesES
      exampleBalancesProxy "moa1abc" hes hproxy
  refine ⟨⟨hes, hproxy⟩, h1.mpr ?_, h2, h4⟩
  intro h
  have h0 := h "TKN-2"
  exact absurd h0 (by decide)

end EsIndexer
